import Mathlib

/-!
# PaperTracker device link: packet framing and decoding

A shallow embedding of `src/transfer/serial.cpp` (class `SerialPortManager`) and of the
packet builder in `src/ui/face_tracker_window.cpp`.

* A `std::string` is a `List Char`; every element stands for one `char` of the string.
* `std::regex_match` is modelled by a backtracking matcher over the six patterns that
  `parsePacket` uses, written as token lists.
* Handler invocations (`handlePacket`) are recorded as a list of calls.
-/

namespace PaperTracker

/-! ## `std::string` -/

/-- A `std::string`: the sequence of its `char`s. -/
abbrev Str := List Char

/-- The call `s.find(ch, pos)`: index of the first `ch` at or after `pos`; `none` is `npos`. -/
def find (s : Str) (ch : Char) (pos : Nat) : Option Nat :=
  let i := (s.drop pos).findIdx (fun c => c == ch)
  if pos + i < s.length then some (pos + i) else none

/-- The call `s.substr(pos)`. Every call site has `pos ≤ s.size()`, so it does not throw. -/
def substrFrom (s : Str) (pos : Nat) : Str := s.drop pos

/-- The call `s.substr(pos, n)`. Every call site has `pos ≤ s.size()`, so it does not throw. -/
def substr (s : Str) (pos n : Nat) : Str := (s.drop pos).take n

/-- The call `s.find_first_not_of(set)`; `none` is `npos`. -/
def find_first_not_of (s set : Str) : Option Nat :=
  let i := s.findIdx (fun c => !set.contains c)
  if i < s.length then some i else none

/-- The call `s.find_last_not_of(set)`; `none` is `npos`. -/
def find_last_not_of (s set : Str) : Option Nat :=
  let j := s.reverse.findIdx (fun c => !set.contains c)
  if j < s.length then some (s.length - 1 - j) else none

/-- The constant `whitespace` of `trim`: space, tab, line feed, carriage return. -/
def whitespace : Str := [' ', '\t', '\n', '\r']

/-- The static function `trim` of serial.cpp. -/
def trim (str : Str) : Str :=
  match find_first_not_of str whitespace with
  | none => []
  | some start =>
    match find_last_not_of str whitespace with
    | none => []
    | some stop => substr str start (stop - start + 1)

/-! ## `std::to_string` and `std::stoi` -/

/-- The call `std::to_string(n)` for an `int`: decimal digits, with a minus sign when negative. -/
def to_string (n : Int) : Str :=
  if n < 0 then '-' :: Nat.toDigits 10 n.natAbs else Nat.toDigits 10 n.toNat

/-- The predicate `isspace` of the C locale, which `std::stoi` uses to skip leading blanks. -/
def isspace (c : Char) : Bool :=
  c == ' ' || c == '\t' || c == '\n' || c == '\x0b' || c == '\x0c' || c == '\r'

/-- Value of a run of decimal digit characters, most significant first. -/
def digitsValue (ds : Str) : Nat :=
  ds.foldl (fun acc c => 10 * acc + (c.toNat - 48)) 0

/-- The optional sign in front of a number: whether it is a minus, and what follows it. -/
def readSign (s : Str) : Bool × Str :=
  match s with
  | '-' :: r => (true, r)
  | '+' :: r => (false, r)
  | _ => (false, s)

/-- The call `std::stoi(s)`: skips leading blanks, reads an optional sign and the longest run of
decimal digits; `none` stands for the exceptions `std::invalid_argument` (no digit) and
`std::out_of_range` (the value does not fit a 32-bit `int`). -/
def stoi (s : Str) : Option Int :=
  let s1 := s.dropWhile isspace
  let signed := readSign s1
  let ds := signed.2.takeWhile Char.isDigit
  if ds.isEmpty then none
  else
    let v : Int := if signed.1 then -(digitsValue ds : Int) else (digitsValue ds : Int)
    if -2147483648 ≤ v ∧ v ≤ 2147483647 then some v else none

/-! ## `std::regex_match` on the patterns of `parsePacket` -/

/-- A one-character matcher of a pattern: `.`, `\d`, or a literal character. -/
inductive CharClass where
  | any
  | digit
  | lit (c : Char)
  deriving DecidableEq, Repr

/-- Whether a character belongs to the class. In the ECMAScript grammar `.` matches every
character but the line terminators, and `\d` is `[0-9]`. -/
def CharClass.test : CharClass → Char → Bool
  | .any, c => c != '\n' && c != '\r'
  | .digit, c => c.isDigit
  | .lit a, c => c == a

/-- The pattern elements that occur in the six regular expressions of `parsePacket`:
`^`, `$`, a literal character, a quantified one-character matcher (`x*?`, `x+`, `x{lo,hi}`),
and the parentheses of a capture group. -/
inductive Tok where
  | bol
  | eol
  | chr (c : Char)
  | rep (cls : CharClass) (lo : Nat) (hi : Option Nat) (greedy : Bool)
  | gopen
  | gclose
  deriving DecidableEq, Repr

/-- State of the backtracking matcher: the number of characters consumed, the unread input,
the unread input at the opening of every group that is still open, and the sub-matches of the
groups closed so far (groups are not nested, so this is `match[1]`, `match[2]`, ...). -/
structure MState where
  pos : Nat
  rest : Str
  opens : List Str
  caps : List Str
  deriving DecidableEq, Repr

/-- The repetition counts that a quantified one-character matcher may take on the unread input
`rest`, in the order in which they are tried: from `lo` up to the number of leading characters
of the class (at most `hi`), largest first when greedy and smallest first when lazy. -/
def repCounts (cls : CharClass) (lo : Nat) (hi : Option Nat) (greedy : Bool) (rest : Str) :
    List Nat :=
  let avail := (rest.takeWhile cls.test).length
  let top := match hi with
    | some h => min h avail
    | none => avail
  let counts := List.range' lo (top + 1 - lo)
  if greedy then counts.reverse else counts

/-- Backtracking execution of a pattern from a state. A greedy quantifier tries the largest
repetition count first, a lazy one the smallest; the first alternative whose continuation
consumes the whole input wins. -/
def run : List Tok → MState → Option (List Str)
  | [], st => if st.rest.isEmpty then some st.caps else none
  | .bol :: p, st => if st.pos = 0 then run p st else none
  | .eol :: p, st => if st.rest.isEmpty then run p st else none
  | .chr c :: p, st =>
    match st.rest with
    | d :: r => if d = c then run p { st with pos := st.pos + 1, rest := r } else none
    | [] => none
  | .gopen :: p, st => run p { st with opens := st.rest :: st.opens }
  | .gclose :: p, st =>
    match st.opens with
    | o :: os =>
      run p { st with opens := os, caps := st.caps ++ [o.take (o.length - st.rest.length)] }
    | [] => none
  | .rep cls lo hi greedy :: p, st =>
    (repCounts cls lo hi greedy st.rest).findSome?
      (fun k => run p { st with pos := st.pos + k, rest := st.rest.drop k })

/-- The call `std::regex_match(s, match, re)`: `some [match[1], match[2], ...]` when the whole
of `s` matches the pattern, `none` when it does not. -/
def regex_match (s : Str) (re : List Tok) : Option (List Str) :=
  run re { pos := 0, rest := s, opens := [], caps := [] }

/-- The literal characters of a pattern fragment. -/
def lits (s : String) : List Tok := s.toList.map Tok.chr

/-- The group `(\d{1,3})`. -/
def digits13 : List Tok := [.gopen, .rep .digit 1 (some 3) true, .gclose]

/-- The group `(.*?)`. -/
def lazyAny : List Tok := [.gopen, .rep .any 0 none false, .gclose]

/-- Pattern `^A1(01)B1$`. -/
def re1 : List Tok := [.bol] ++ lits "A1" ++ [.gopen] ++ lits "01" ++ [.gclose] ++ lits "B1" ++ [.eol]

/-- Pattern `^A2SSID(.*?)PWD(.*?)B2$`. -/
def re2 : List Tok := [.bol] ++ lits "A2SSID" ++ lazyAny ++ lits "PWD" ++ lazyAny ++ lits "B2" ++ [.eol]

/-- Pattern `^A303B3$`. -/
def re3 : List Tok := [.bol] ++ lits "A303B3" ++ [.eol]

/-- Pattern `^A4SSID(.*?)PWD(.*?)B4$`. -/
def re4 : List Tok := [.bol] ++ lits "A4SSID" ++ lazyAny ++ lits "PWD" ++ lazyAny ++ lits "B4" ++ [.eol]

/-- Pattern `^A5(\d{1,3})(\d+)POWER(\d{1,3})VERSION(\d{1,3})B5$`. -/
def re5 : List Tok :=
  [.bol] ++ lits "A5" ++ digits13 ++ [.gopen, .rep .digit 1 none true, .gclose] ++ lits "POWER"
    ++ digits13 ++ lits "VERSION" ++ digits13 ++ lits "B5" ++ [.eol]

/-- Pattern `^A6(\d{1,3})B6$`. -/
def re6 : List Tok := [.bol] ++ lits "A6" ++ digits13 ++ lits "B6" ++ [.eol]

/-! ## Packets and handlers -/

/-- Modelled from the spec: the enum `PacketType` is declared in `serial.hpp`, which is not among
the sources; these are the enumerators that serial.cpp uses (the spec's seven packet shapes). -/
inductive PacketType where
  | PACKET_UNKNOWN
  | PACKET_WIFI_SETUP
  | PACKET_WIFI_SSID_PWD
  | PACKET_WIFI_CONFIRM
  | PACKET_WIFI_ERROR
  | PACKET_DEVICE_STATUS
  | PACKET_LIGHT_CONTROL
  deriving DecidableEq, Repr

/-- One element of the `std::vector<std::any>` that is handed to a handler. -/
inductive Param where
  | str (s : Str)
  | int (n : Int)
  deriving DecidableEq, Repr

/-- A handler invocation `it->second(params)` made by `handlePacket`. -/
structure HandlerCall where
  packetType : PacketType
  params : List Param
  deriving DecidableEq, Repr

/-- The method `SerialPortManager::handlePacket`: the handler registered under `packetType` is
invoked with `params` when there is one. `callbacks` lists the keys of the map `callbacks`. -/
def handlePacket (callbacks : List PacketType) (packetType : PacketType) (params : List Param) :
    List HandlerCall :=
  if callbacks.contains packetType then [{ packetType := packetType, params := params }] else []

/-- The zero-padding loop `while (s.length() < width) s = "0" + s;` of `parsePacket`,
`formatIpAddress` (width 12) and `onSendBrightnessValue` (width 3), run for at most `fuel`
rounds. -/
def padLoop (width : Nat) : Nat → Str → Str
  | 0, s => s
  | fuel + 1, s => if s.length < width then padLoop width fuel ('0' :: s) else s

/-- The zero-padding loop with enough rounds to reach `width` from the empty string. -/
def padZeros (width : Nat) (s : Str) : Str := padLoop width width s

/-- The `try` block of case `'5'` of `parsePacket`, on the sub-matches `m` of the type-5
pattern. The result is the value of `formattedIp` after the block (it is only logged) and the
handler calls made. An exception thrown by `std::stoi` skips `handlePacket` and makes
`formattedIp` the raw digits. -/
def decodeStatus (callbacks : List PacketType) (m : List Str) : Str × List HandlerCall :=
  let rawIp := m.getD 1 []
  let paddedIp := padZeros 12 rawIp
  let attempt : Option (Str × List HandlerCall) := do
    let g0 ← stoi (substr paddedIp 0 3)
    let g1 ← stoi (substr paddedIp 3 3)
    let g2 ← stoi (substr paddedIp 6 3)
    let g3 ← stoi (substr paddedIp 9 3)
    let formattedIp :=
      to_string g0 ++ ['.'] ++ to_string g1 ++ ['.'] ++ to_string g2 ++ ['.'] ++ to_string g3
    let brightness ← stoi (m.getD 0 [])
    let power ← stoi (m.getD 2 [])
    let version ← stoi (m.getD 3 [])
    pure (formattedIp, handlePacket callbacks .PACKET_DEVICE_STATUS
      [.str formattedIp, .int brightness, .int power, .int version])
  match attempt with
  | some r => r
  | none => (rawIp, [])

/-- The function `formatIpAddress` of serial.cpp: the digits are zero-padded to twelve and the
first four groups of three are read with `std::stoi` and joined by dots; `none` when
`std::stoi` throws. -/
def formatIpAddress (ipRaw : Str) : Option Str := do
  let paddedIp := padZeros 12 ipRaw
  let g0 ← stoi (substr paddedIp 0 3)
  let g1 ← stoi (substr paddedIp 3 3)
  let g2 ← stoi (substr paddedIp 6 3)
  let g3 ← stoi (substr paddedIp 9 3)
  pure (to_string g0 ++ ['.'] ++ to_string g1 ++ ['.'] ++ to_string g2 ++ ['.'] ++ to_string g3)

/-- The method `SerialPortManager::parsePacket`: the packet type returned and the handler calls
made while decoding. Log output is not modelled. -/
def parsePacket (callbacks : List PacketType) (packet : Str) : PacketType × List HandlerCall :=
  let trimmedPacket := trim packet
  if trimmedPacket.length < 3 ∨ trimmedPacket[0]? ≠ some 'A' ∨
      trimmedPacket[trimmedPacket.length - 2]? ≠ some 'B' then
    (.PACKET_UNKNOWN, [])
  else
    match trimmedPacket[trimmedPacket.length - 1]? with
    | some '1' =>
      match regex_match trimmedPacket re1 with
      | some _ => (.PACKET_WIFI_SETUP, handlePacket callbacks .PACKET_WIFI_SETUP [])
      | none => (.PACKET_UNKNOWN, [])
    | some '2' =>
      match regex_match trimmedPacket re2 with
      | some m =>
        (.PACKET_WIFI_SSID_PWD,
          handlePacket callbacks .PACKET_WIFI_SETUP [.str (m.getD 0 []), .str (m.getD 1 [])])
      | none => (.PACKET_UNKNOWN, [])
    | some '3' =>
      match regex_match trimmedPacket re3 with
      | some _ => (.PACKET_WIFI_CONFIRM, handlePacket callbacks .PACKET_WIFI_CONFIRM [])
      | none => (.PACKET_UNKNOWN, [])
    | some '4' =>
      match regex_match trimmedPacket re4 with
      | some m =>
        (.PACKET_WIFI_ERROR,
          handlePacket callbacks .PACKET_WIFI_CONFIRM [.str (m.getD 0 []), .str (m.getD 1 [])])
      | none => (.PACKET_UNKNOWN, [])
    | some '5' =>
      match regex_match trimmedPacket re5 with
      | some m => (.PACKET_DEVICE_STATUS, (decodeStatus callbacks m).2)
      | none => (.PACKET_UNKNOWN, [])
    | some '6' =>
      match regex_match trimmedPacket re6 with
      | some _ => (.PACKET_LIGHT_CONTROL, [])
      | none => (.PACKET_UNKNOWN, [])
    | _ => (.PACKET_UNKNOWN, [])

/-! ## Frame reassembly -/

/-- One round of the loop of `processReceivedData` that extracted a frame: the string passed to
`parsePacket`, the type it returned and the handler calls it made. -/
structure Decoded where
  packet : Str
  packetType : PacketType
  calls : List HandlerCall
  deriving DecidableEq, Repr

/-- The record of the round that passes `packet` to `parsePacket`. -/
def decodedOf (callbacks : List PacketType) (packet : Str) : Decoded :=
  { packet := packet
    packetType := (parsePacket callbacks packet).1
    calls := (parsePacket callbacks packet).2 }

/-- The loop `while (true)` of `processReceivedData`, for at most `fuel` rounds: the frames
decoded in order and the final content of `receivedData`; `none` when the rounds run out. -/
def processLoop (callbacks : List PacketType) : Nat → Str → Option (List Decoded × Str)
  | 0, _ => none
  | fuel + 1, receivedData =>
    match find receivedData 'A' 0 with
    | none => some ([], [])
    | some startPos =>
      let receivedData := if startPos > 0 then substrFrom receivedData startPos else receivedData
      match find receivedData 'B' 1 with
      | none => some ([], receivedData)
      | some endPos =>
        if endPos + 1 ≥ receivedData.length then some ([], receivedData)
        else
          let packet := substr receivedData 0 (endPos + 2)
          let receivedData := substrFrom receivedData (endPos + 2)
          let r := decodedOf callbacks packet
          match processLoop callbacks fuel receivedData with
          | none => none
          | some (ds, buf) => some (r :: ds, buf)

/-- The method `SerialPortManager::processReceivedData`. Every round that goes on removes
characters from the buffer, so `receivedData.length + 1` rounds are enough. -/
def processReceivedData (callbacks : List PacketType) (receivedData : Str) :
    Option (List Decoded × Str) :=
  processLoop callbacks (receivedData.length + 1) receivedData

/-! ## Connection manager: data arrival -/

/-- Modelled from the spec: the enum `SerialStatus` is declared in `serial.hpp`, which is not
among the sources; serial.cpp uses these three values (the spec's Closed, Open, Failed). -/
inductive SerialStatus where
  | CLOSED
  | OPENED
  | FAILED
  deriving DecidableEq, Repr

/-- Modelled from the spec: the class is declared in `serial.hpp`, which is not among the
sources; these are the members that serial.cpp reads or writes. `serialPort` tells whether the
pointer is non-null and `portOpen` is the value of `serialPort->isOpen()`; `heartBeatTimer` is
`none` for the null pointer and otherwise holds `isActive()`; `callbacks` lists the keys of the
handler map and `rawDataCallback` tells whether a raw-data observer is set. -/
structure SerialPortManager where
  m_status : SerialStatus
  timeout_count : Int
  serialPort : Bool
  callbacks : List PacketType
  rawDataCallback : Bool
  portOpen : Bool
  heartBeatTimer : Option Bool
  currentPort : Str
  deriving DecidableEq, Repr

/-- The state of the manager after the handlers invoked by a decoding step have run; `effect`
is what a handler call does to the manager (handler bodies live outside the class). -/
def runHandlers (effect : HandlerCall → SerialPortManager → SerialPortManager)
    (calls : List HandlerCall) (self : SerialPortManager) : SerialPortManager :=
  calls.foldl (fun s c => effect c s) self

/-- The method `parsePacket` run on a manager: the manager afterwards and the type returned.
`parsePacket` writes no member itself, so the manager changes only through the handlers. -/
def parsePacketOn (effect : HandlerCall → SerialPortManager → SerialPortManager)
    (self : SerialPortManager) (packet : Str) : SerialPortManager × PacketType :=
  (runHandlers effect (parsePacket self.callbacks packet).2 self,
    (parsePacket self.callbacks packet).1)

/-- The handlers registered on a manager, as what they do to the manager: `onPacket` for the
handler that a `handlePacket` call invokes and `onRawData` for the raw-data observer. The
handler bodies live outside the class; serial.cpp calls them synchronously, inside the slot
`onReadyRead`. -/
structure Handlers where
  onPacket : HandlerCall → SerialPortManager → SerialPortManager
  onRawData : Str → SerialPortManager → SerialPortManager

/-- The loop `while (true)` of `processReceivedData` run on a manager, for at most `fuel`
rounds: every extracted frame goes through `parsePacket`, whose handler call runs before the
next round. The result is the manager after the loop, the frames decoded in order and the
final content of `receivedData`; `none` when the rounds run out. -/
def processLoopOn (handlers : Handlers) :
    Nat → SerialPortManager → Str → Option (SerialPortManager × List Decoded × Str)
  | 0, _, _ => none
  | fuel + 1, self, receivedData =>
    match find receivedData 'A' 0 with
    | none => some (self, [], [])
    | some startPos =>
      let receivedData := if startPos > 0 then substrFrom receivedData startPos else receivedData
      match find receivedData 'B' 1 with
      | none => some (self, [], receivedData)
      | some endPos =>
        if endPos + 1 ≥ receivedData.length then some (self, [], receivedData)
        else
          let packet := substr receivedData 0 (endPos + 2)
          let receivedData := substrFrom receivedData (endPos + 2)
          let r := decodedOf self.callbacks packet
          let self := (parsePacketOn handlers.onPacket self packet).1
          match processLoopOn handlers fuel self receivedData with
          | none => none
          | some (self, ds, buf) => some (self, r :: ds, buf)

/-- The method `SerialPortManager::processReceivedData` run on a manager, with
`receivedData.length + 1` rounds. The frames and the buffer it gives are those of
`processReceivedData` on the handler keys when no handler changes the handler map. -/
def processReceivedDataOn (handlers : Handlers) (self : SerialPortManager)
    (receivedData : Str) : Option (SerialPortManager × List Decoded × Str) :=
  processLoopOn handlers (receivedData.length + 1) self receivedData

/-- What one run of `onReadyRead` did besides updating the members: the strings given to the
raw-data observer, the strings passed to `processReceivedData` and the frames it decoded. -/
structure ReadEvent where
  raw : List Str
  decoded : List Decoded
  forwarded : List Str
  deriving DecidableEq, Repr

/-- The slot `SerialPortManager::onReadyRead`; `data` is what `serialPort->readAll()` returns,
already as the `std::string` made from it (the conversion is the identity on ASCII text).
The raw-data observer and the packet handlers run inside the slot, after `m_status` is set to
`OPENED`, so the manager returned is the one they leave. The string `receivedData` is a local
variable: what `processReceivedData` leaves in it is dropped when the slot returns. -/
def onReadyRead (handlers : Handlers) (self : SerialPortManager) (data : Str) :
    SerialPortManager × ReadEvent :=
  if !self.serialPort then
    ({ self with m_status := .FAILED }, { raw := [], decoded := [], forwarded := [] })
  else
    let self := { self with timeout_count := 0 }
    if !data.isEmpty then
      let self := { self with m_status := .OPENED }
      let receivedData := data
      let raw := if self.rawDataCallback then [receivedData] else []
      let self := if self.rawDataCallback then handlers.onRawData receivedData self else self
      match processReceivedDataOn handlers self receivedData with
      | some (self, ds, _) => (self, { raw := raw, decoded := ds, forwarded := [receivedData] })
      | none => (self, { raw := raw, decoded := [], forwarded := [receivedData] })
    else
      ({ self with m_status := .FAILED }, { raw := [], decoded := [], forwarded := [] })

/-! ## Connection manager: construction, `init`, `stop`, `write_data`, heartbeat -/

/-- An operation on the transport or on the heartbeat timer, as made by `init`, `stop` and
`write_data`. -/
inductive TransportOp where
  | create
  | configure
  | lowerLines
  | setPortName (name : Str)
  | open (ok : Bool)
  | settle
  | close
  | destroy
  | startTimer
  | write (data : Str)
  | flush
  deriving DecidableEq, Repr

/-- What the host answers during one run of `init`: the result of `FindEsp32S3Port()` (empty
when no device is found) and whether `serialPort->open(QIODevice::ReadWrite)` succeeds. -/
structure InitEnv where
  portName : Str
  openOk : Bool
  deriving DecidableEq, Repr

/-- The macro `COM_PORT` of serial.cpp. -/
def COM_PORT : Str := "COM111".toList

/-- The constructor `SerialPortManager::SerialPortManager`: a port object exists, there is no
heartbeat timer and the status is `CLOSED`. Modelled from the spec for the members that the
constructor leaves to their declaration in `serial.hpp`: the heartbeat counter starts at 0 and
no handler is registered. -/
def SerialPortManager.new : SerialPortManager :=
  { m_status := .CLOSED
    timeout_count := 0
    serialPort := true
    callbacks := []
    rawDataCallback := false
    portOpen := false
    heartBeatTimer := none
    currentPort := [] }

/-- The method `SerialPortManager::init`: the state after it and the operations made. -/
def init (self : SerialPortManager) (env : InitEnv) : SerialPortManager × List TransportOp :=
  let portName := env.portName
  let self := { self with serialPort := true, portOpen := false }
  let self := if portName.isEmpty then self else { self with currentPort := portName }
  let name := if portName.isEmpty then COM_PORT else portName
  let self :=
    match self.heartBeatTimer with
    | none => { self with heartBeatTimer := some false }
    | some _ => self
  let self :=
    if env.openOk then { self with m_status := .OPENED, portOpen := true }
    else { self with m_status := .FAILED }
  let ops := [TransportOp.create, .configure, .lowerLines, .setPortName name, .open env.openOk]
  if self.heartBeatTimer = some true then (self, ops)
  else ({ self with heartBeatTimer := some true }, ops ++ [.startTimer])

/-- The method `SerialPortManager::stop`: the state after it and the operations made. The
pointer `serialPort` is deleted but not reset, so it stays non-null. -/
def stop (self : SerialPortManager) : SerialPortManager × List TransportOp :=
  if self.m_status = .CLOSED then (self, [])
  else
    let self := { self with m_status := .CLOSED }
    if self.serialPort then
      if self.portOpen then
        ({ self with portOpen := false }, [.lowerLines, .settle, .close, .destroy])
      else (self, [.destroy])
    else (self, [])

/-- The handler that the constructor of `PaperFaceTrackerWindow` registers for
`PACKET_DEVICE_STATUS`: for a version other than 1 it shows a message box (once) and calls
`serial_port_manager->stop()`; otherwise it queues an update of the window, which does not
touch the manager. -/
def deviceStatusCallback (self : SerialPortManager) (_ip : Str)
    (_brightness _power version : Int) : SerialPortManager :=
  if version ≠ 1 then (stop self).1 else self

/-- The handlers that the constructor of `PaperFaceTrackerWindow` registers: the
device-status handler, no handler for the other packet types, and a raw-data observer that
only appends to a log of the window. -/
def windowHandlers : Handlers :=
  { onPacket := fun call self =>
      if call.packetType = .PACKET_DEVICE_STATUS then
        match call.params with
        | [.str ip, .int brightness, .int power, .int version] =>
          deviceStatusCallback self ip brightness power version
        | _ => self
      else self
    onRawData := fun _ self => self }

/-- The method `SerialPortManager::write_data`, with the queued write run at once; `acked` is
the result of `serialPort->waitForBytesWritten(1000)`. -/
def write_data (self : SerialPortManager) (data : Str) (acked : Bool) :
    SerialPortManager × List TransportOp :=
  if !self.serialPort || !self.portOpen then (self, [])
  else if !acked then ({ self with m_status := .FAILED }, [.write data, .flush])
  else ({ self with m_status := .OPENED }, [.write data, .flush])

/-- A step of the heartbeat slot or of the firmware routines: a call of `stop()` or `init()`
with the operations it made, a message box shown to the user, or the launch of the external
tool with its command line. -/
inductive Step where
  | stop (ops : List TransportOp)
  | init (ops : List TransportOp)
  | critical (title : String)
  | information (title : String)
  | launch (command : Str)
  deriving DecidableEq, Repr

/-- The slot `SerialPortManager::heartBeatTimeout`; `env` is what the host answers if `init`
runs. The test `timeout_count++ > 100` compares the value before the increment. -/
def heartBeatTimeout (self : SerialPortManager) (env : InitEnv) :
    SerialPortManager × List Step :=
  let before := self.timeout_count
  let self := { self with timeout_count := before + 1 }
  if before > 100 then
    let self := { self with timeout_count := 0 }
    let stopped := stop self
    let started := init stopped.1 env
    (started.1, [.stop stopped.2, .init started.2])
  else (self, [])

/-- Consecutive heartbeat ticks with no other event in between, one host answer per tick: the
final state and, tick by tick, the steps made. -/
def ticks : List InitEnv → SerialPortManager → SerialPortManager × List (List Step)
  | [], self => (self, [])
  | env :: envs, self =>
    let r := heartBeatTimeout self env
    let rest := ticks envs r.1
    (rest.1, r.2 :: rest.2)

/-! ## Firmware routines -/

/-- What the host answers during one run of `flashESP32` or `restartESP32`: the application
directory, the result of `FindEsp32S3Port()`, whether `process.waitForStarted(3000)` succeeds,
the exit code of the tool, and the answers for the final `init()`. -/
structure ToolEnv where
  appDir : Str
  port : Str
  started : Bool
  exitCode : Int
  reinit : InitEnv
  deriving DecidableEq, Repr

/-- The firmware image chosen by `flashESP32` for a variant tag. -/
def firmwareImage (firmwareType : Str) : Str :=
  if firmwareType = "left_eye".toList then "left_eye".toList
  else if firmwareType = "right_eye".toList then "right_eye".toList
  else if firmwareType = "light_right_eye".toList then "light_right_eye".toList
  else if firmwareType = "light_left_eye".toList then "light_left_eye".toList
  else if firmwareType = "light_face_tracker".toList then "light_face_tracker".toList
  else if firmwareType = "old_face_tracker".toList then "old_face_tracker".toList
  else "face_tracker".toList

/-- A path `"appDir/file"` in double quotes, as `flashESP32` builds it. -/
def quotedPath (appDir : Str) (file : Str) : Str := ['"'] ++ appDir ++ ['/'] ++ file ++ ['"']

/-- The call `QString(template).arg(a1, a2, ...)` with several string arguments: the place
markers `%1`, `%2`, ... are replaced by the arguments in one pass, so text that an argument
brings in is not looked at again. The templates of serial.cpp use single-digit markers, each
with its own argument. -/
def qArg : Str → List Str → Str
  | [], _ => []
  | [c], _ => [c]
  | c :: t@(d :: rest), args =>
    if c = '%' ∧ d.isDigit = true ∧ d ≠ '0' ∧ d.toNat - 49 < args.length then
      args.getD (d.toNat - 49) [] ++ qArg rest args
    else c :: qArg t args

/-- The command line `commandStr` of `flashESP32`. -/
def flashCommand (appDir port firmwareType : Str) : Str :=
  qArg ("%1 --chip ESP32-S3 --port %2 --baud 921600 --before default_reset --after hard_reset "
      ++ "write_flash 0x0000 %3 0x8000 %4 0x10000 %5").toList
    [quotedPath appDir "esptool.exe".toList, port, quotedPath appDir "bootloader.bin".toList,
      quotedPath appDir "partition-table.bin".toList,
      quotedPath appDir (firmwareImage firmwareType ++ ".bin".toList)]

/-- The command line `commandStr` of `restartESP32`. -/
def restartCommand (appDir port : Str) : Str :=
  qArg "\"%1/esptool.exe\" --port %2 run".toList [appDir, port]

/-- The method `SerialPortManager::flashESP32`: the state after it and the steps made.
Exceptions and the progress dialog are not modelled. -/
def flashESP32 (self : SerialPortManager) (firmwareType : Str) (env : ToolEnv) :
    SerialPortManager × List Step :=
  if self.m_status = .FAILED then (self, [.critical "启动失败"])
  else
    let stopped := stop self
    let port := if env.port.isEmpty then "COM2".toList else env.port
    let commandStr := flashCommand env.appDir port firmwareType
    if !env.started then
      (stopped.1, [.stop stopped.2, .launch commandStr, .critical "启动失败"])
    else
      let message :=
        if env.exitCode = 0 then Step.information "刷写完成" else Step.critical "刷写失败"
      let started := init stopped.1 env.reinit
      (started.1, [.stop stopped.2, .launch commandStr, message, .init started.2])

/-- The method `SerialPortManager::restartESP32`: the state after it and the steps made.
Exceptions and the progress dialog are not modelled. -/
def restartESP32 (self : SerialPortManager) (env : ToolEnv) : SerialPortManager × List Step :=
  if self.m_status = .FAILED then (self, [.critical "启动失败"])
  else
    let stopped := stop self
    let port := if env.port.isEmpty then "COM2".toList else env.port
    let commandStr := restartCommand env.appDir port
    if !env.started then
      (stopped.1, [.stop stopped.2, .launch commandStr, .critical "启动失败"])
    else
      let message :=
        if env.exitCode = 0 then Step.information "重启完成" else Step.critical "重启失败"
      let started := init stopped.1 env.reinit
      (started.1, [.stop stopped.2, .launch commandStr, message, .init started.2])

/-! ## Outgoing packets -/

/-- The method `SerialPortManager::sendWiFiConfig`: the packet handed to `write_data`. -/
def sendWiFiConfig (ssid pwd : Str) : Str :=
  "A2SSID".toList ++ ssid ++ "PWD".toList ++ pwd ++ "B2".toList

/-- The method `SerialPortManager::sendLightControl`: the packet handed to `write_data`. -/
def sendLightControl (brightness : Int) : Str :=
  "A6".toList ++ to_string brightness ++ "B6".toList

/-- The method `PaperFaceTrackerWindow::onSendBrightnessValue`: the packet handed to
`write_data` for the member `current_brightness`. -/
def onSendBrightnessValue (current_brightness : Int) : Str :=
  let brightness_str := padZeros 3 (to_string current_brightness)
  "A6".toList ++ brightness_str ++ "B6".toList

/-! ## Notions used to state the properties -/

/-- A frame `'A' ++ body ++ 'B' ++ t` with a single type character `t`. -/
def frameOf (body : Str) (t : Char) : Str := 'A' :: (body ++ ['B', t])

/-- A manager with an open port, a handler registered for every packet type and no raw-data
observer. -/
def openManager : SerialPortManager :=
  { m_status := .OPENED
    timeout_count := 0
    serialPort := true
    callbacks := [.PACKET_WIFI_SETUP, .PACKET_WIFI_SSID_PWD, .PACKET_WIFI_CONFIRM,
      .PACKET_WIFI_ERROR, .PACKET_DEVICE_STATUS, .PACKET_LIGHT_CONTROL]
    rawDataCallback := false
    portOpen := true
    heartBeatTimer := some true
    currentPort := "COM3".toList }

/-- The character of a decimal digit `d < 10`. -/
def digitChar (d : Nat) : Char := Char.ofNat (48 + d)

/-- The number `b` written as three zero-padded decimal digits. -/
def zero_pad3 (b : Nat) : Str :=
  [digitChar (b / 100 % 10), digitChar (b / 10 % 10), digitChar (b % 10)]

/-- A string left-padded with `0` to the length `n`. -/
def leftPadZeros (n : Nat) (s : Str) : Str := List.replicate (n - s.length) '0' ++ s

/-- The decimal numeral of a natural number, without leading zeros. -/
def decimal (n : Nat) : Str := Nat.toDigits 10 n

/-- A string cut into groups of three characters, from the left. -/
def chunks3 : Str → List Str
  | a :: b :: c :: rest => [a, b, c] :: chunks3 rest
  | [] => []
  | rest => [rest]

/-- The dotted form of a run of IP digits: the digits are left-padded with `0` to length 12 and
cut into groups of three, and the decimal values of the groups are joined by `.`. -/
def dottedQuad (ip : Str) : Str :=
  ['.'].intercalate ((chunks3 (leftPadZeros 12 ip)).map (fun g => decimal (digitsValue g)))

/-- The groups of a dotted string: the pieces between its dots. -/
def splitDots : Str → List Str
  | [] => [[]]
  | c :: s =>
    if c = '.' then [] :: splitDots s
    else
      match splitDots s with
      | g :: gs => (c :: g) :: gs
      | [] => [[c]]

/-- The digit string rebuilt from a dotted IP: every group zero-padded to three digits, and the
groups concatenated. -/
def regroup (ip : Str) : Str := ((splitDots ip).map (leftPadZeros 3)).flatten

/-- One to three decimal digits: what the group `(\d{1,3})` captures. -/
def IsDigits13 (g : Str) : Prop := 1 ≤ g.length ∧ g.length ≤ 3 ∧ ∀ c ∈ g, c.isDigit = true

/-- The common shape of the type-2 and type-4 patterns, `^` `open` `(.*?)PWD(.*?)` `close` `$`,
for the literal texts `open` and `close`. -/
def wifiPattern (opening closing : Str) : List Tok :=
  .bol :: (opening.map Tok.chr ++ (.gopen :: .rep .any 0 none false :: .gclose ::
    ("PWD".toList.map Tok.chr ++ (.gopen :: .rep .any 0 none false :: .gclose ::
      (closing.map Tok.chr ++ [.eol])))))

/-- A string without line terminators: every character is matched by `.`. -/
def NoLineTerminator (x : Str) : Prop := ∀ c ∈ x, c ≠ '\n' ∧ c ≠ '\r'

/-- The pattern that `parsePacket` tries for a type character; `none` for the `default` case. -/
def patternOf (packetType : Char) : Option (List Tok) :=
  if packetType = '1' then some re1
  else if packetType = '2' then some re2
  else if packetType = '3' then some re3
  else if packetType = '4' then some re4
  else if packetType = '5' then some re5
  else if packetType = '6' then some re6
  else none

/-- The basic frame check of `parsePacket` on the trimmed packet: at least three characters,
`A` first and `B` second to last. -/
def basicCheck (t : Str) : Bool :=
  decide (3 ≤ t.length) && (t[0]? == some 'A') && (t[t.length - 2]? == some 'B')

/-- What makes the connection state change. -/
inductive Cause where
  | openSucceeded
  | openFailed
  | writeAcked
  | writeTimeout
  | readData
  | readEmpty
  | explicitStop
  deriving DecidableEq, Repr

/-- The transitions between distinct states that the specification lists: `Closed` or `Failed`
to `Open` on a successful transport open, `Open` to `Failed` on a write timeout or a read that
yields no data, `Open` or `Failed` to `Closed` on an explicit stop. -/
def listedTransition (a : SerialStatus) (c : Cause) (b : SerialStatus) : Bool :=
  match a, c, b with
  | .CLOSED, .openSucceeded, .OPENED => true
  | .FAILED, .openSucceeded, .OPENED => true
  | .OPENED, .writeTimeout, .FAILED => true
  | .OPENED, .readEmpty, .FAILED => true
  | .OPENED, .explicitStop, .CLOSED => true
  | .FAILED, .explicitStop, .CLOSED => true
  | _, _, _ => false

/-- The transitions between distinct states that the operations of serial.cpp make: the listed
ones, and `Closed` or `Open` to `Failed` on a failed transport open, and `Failed` to `Open` on
an acknowledged write or a read that yields data. -/
def codeTransition (a : SerialStatus) (c : Cause) (b : SerialStatus) : Bool :=
  match a, c, b with
  | .CLOSED, .openSucceeded, .OPENED => true
  | .FAILED, .openSucceeded, .OPENED => true
  | .CLOSED, .openFailed, .FAILED => true
  | .OPENED, .openFailed, .FAILED => true
  | .FAILED, .writeAcked, .OPENED => true
  | .FAILED, .readData, .OPENED => true
  | .OPENED, .writeTimeout, .FAILED => true
  | .OPENED, .readEmpty, .FAILED => true
  | .OPENED, .explicitStop, .CLOSED => true
  | .FAILED, .explicitStop, .CLOSED => true
  | _, _, _ => false

/-- The transitions of `codeTransition` that the specification does not list. -/
def addedTransitions : List (SerialStatus × Cause × SerialStatus) :=
  [(.CLOSED, .openFailed, .FAILED), (.OPENED, .openFailed, .FAILED),
    (.FAILED, .writeAcked, .OPENED), (.FAILED, .readData, .OPENED)]

/-- What holds of the port in every state that the operations reach from the constructed
manager: the pointer `serialPort` is not null, and in state `CLOSED` the port is not open. -/
def portInvariant (self : SerialPortManager) : Prop :=
  self.serialPort = true ∧ (self.m_status = .CLOSED → self.portOpen = false)

/-- The manager after the two assignments that `onReadyRead` makes for a non-empty read:
`timeout_count = 0` and `m_status = OPENED`. -/
def dataArrived (self : SerialPortManager) : SerialPortManager :=
  { self with timeout_count := 0, m_status := .OPENED }

/-- The handler calls made while a list of frames was decoded, in order. -/
def handlerCalls (ds : List Decoded) : List HandlerCall := (ds.map Decoded.calls).flatten

/-- A handler call of the device-status handler with a version other than 1, the call on
which the handler of the window stops the link. -/
def wrongVersion (call : HandlerCall) : Bool :=
  match call.packetType, call.params with
  | .PACKET_DEVICE_STATUS, [.str _, .int _, .int _, .int version] => version != 1
  | _, _ => false

/-- Whether a step is a call of `init()`. -/
def Step.isInit : Step → Bool
  | .init _ => true
  | _ => false

/-- A run of the external tool that fails to start: discovery finds no port and
`waitForStarted` times out. -/
def toolNotStarted : ToolEnv :=
  { appDir := "C:/app".toList
    port := []
    started := false
    exitCode := 0
    reinit := { portName := [], openOk := true } }

/-- A run of the external tool that starts and exits with code 1; the port is found and can be
opened again afterwards. -/
def toolExitsOne : ToolEnv :=
  { appDir := "C:/app".toList
    port := "COM3".toList
    started := true
    exitCode := 1
    reinit := { portName := "COM3".toList, openOk := true } }

/-- The firmware image that the specification assigns to a variant tag: the tag itself for the
six named variants and `face_tracker` for every other tag. -/
def specImage (tag : Str) : Str :=
  if tag ∈ ["left_eye".toList, "right_eye".toList, "light_right_eye".toList,
      "light_left_eye".toList, "light_face_tracker".toList, "old_face_tracker".toList]
  then tag else "face_tracker".toList

/-- The flash command of the specification for the application directory `D`, the port `P`
and the image `I`. -/
def specFlashCommand (D P I : Str) : Str :=
  "\"".toList ++ D ++ "/esptool.exe\" --chip ESP32-S3 --port ".toList ++ P
    ++ (" --baud 921600 --before default_reset --after hard_reset write_flash 0x0000 \"").toList
    ++ D ++ "/bootloader.bin\" 0x8000 \"".toList ++ D
    ++ "/partition-table.bin\" 0x10000 \"".toList ++ D ++ "/".toList ++ I ++ ".bin\"".toList

/-- The command of a `launch` step. -/
def Step.command : Step → Option Str
  | .launch command => some command
  | _ => none

/-! ## Port discovery -/

/-- One device of the serial-port class as the enumeration of `FindEsp32S3Port` sees it:
`instanceId` is the identifier read by `SetupDiGetDeviceInstanceIdA` (`none` when the call
fails), `regKey` tells whether `SetupDiOpenDevRegKey` returns a valid handle, and `portName` is
the value read by `RegQueryValueExA` for `PortName` (`none` when the call fails). -/
structure Device where
  instanceId : Option Str
  regKey : Bool
  portName : Option Str
  deriving DecidableEq, Repr

/-- The array `targetDeviceIds` of `FindEsp32S3Port`. -/
def targetDeviceIds : List Str :=
  ["USB\\VID_303A&PID_1001&REV_0101&MI_00".toList, "USB\\VID_303A&PID_1001&MI_00".toList]

/-- The test `strstr(haystack, needle) != nullptr`: `needle` starts at some position of
`haystack`. -/
def strstr (haystack needle : Str) : Bool :=
  haystack.tails.any (fun t => needle.isPrefixOf t)

/-- The flag `isTargetDevice` of `FindEsp32S3Port` for an instance identifier. -/
def isTargetDevice (instanceId : Str) : Bool :=
  targetDeviceIds.any (fun targetDeviceId => strstr instanceId targetDeviceId)

/-- The first loop of `FindEsp32S3Port` over the enumerated devices: the value of `targetPort`
when the loop ends. -/
def findPortLoop : List Device → Str
  | [] => []
  | d :: devices =>
    match d.instanceId with
    | none => findPortLoop devices
    | some instanceId =>
      if isTargetDevice instanceId then
        if d.regKey then
          match d.portName with
          | some portName => portName
          | none => []
        else findPortLoop devices
      else findPortLoop devices

/-- The method `SerialPortManager::FindEsp32S3Port`; `enumeration` is the device list behind
the handle of `SetupDiGetClassDevs`, `none` when that call fails. The second loop only logs. -/
def FindEsp32S3Port (enumeration : Option (List Device)) : Str :=
  match enumeration with
  | none => []
  | some devices => findPortLoop devices

/-- A device matches when its instance identifier is known and contains one of the accepted
signature strings. -/
def Device.isMatch (d : Device) : Bool :=
  match d.instanceId with
  | some instanceId => isTargetDevice instanceId
  | none => false

/-- The tracker whose `PortName` value cannot be read from its registry key. -/
def unreadableDevice : Device :=
  { instanceId := some "USB\\VID_303A&PID_1001&MI_00\\7&2A5B91C&0&0000".toList
    regKey := true
    portName := none }

/-- A tracker whose registry key cannot be opened. -/
def lockedDevice : Device :=
  { instanceId := some "USB\\VID_303A&PID_1001&REV_0101&MI_00\\6&11".toList
    regKey := false
    portName := none }

/-- A tracker on `COM7`. -/
def trackerOnCom7 : Device :=
  { instanceId := some "USB\\VID_303A&PID_1001&MI_00\\7&33".toList
    regKey := true
    portName := some "COM7".toList }

/-- Another serial device, on `COM1`. -/
def otherDevice : Device :=
  { instanceId := some "ACPI\\PNP0501\\1".toList
    regKey := true
    portName := some "COM1".toList }

/-! ## Region of interest -/

/-- The rectangle `Rect(x, y, width, height)` that the ROI callback stores. -/
structure Rect where
  x : Int
  y : Int
  width : Int
  height : Int
  deriving DecidableEq, Repr

/-- The callback passed to `ROIEventFilter` in the constructor of `PaperFaceTrackerWindow`, on
the components of the dragged rectangle: the rectangle stored in `roi_rect`. Arithmetic is
over the integers. -/
def roiFilter (x y width height : Int) : Rect :=
  let (x, width) := if width < 0 then (x + width, -width) else (x, width)
  let (y, height) := if height < 0 then (y + height, -height) else (y, height)
  let (x, width) := if x < 0 then (0, width + x) else (x, width)
  let (y, height) := if y < 0 then (0, height + y) else (y, height)
  let width := if x + width > 280 then 280 - x else width
  let height := if y + height > 280 then 280 - y else height
  let width := max 0 width
  let height := max 0 height
  { x := x, y := y, width := width, height := height }

/-! ## Lemmas on `find` -/

theorem find_nil (ch : Char) (pos : Nat) : find [] ch pos = none := by
  simp [find]

theorem find_cons_zero_self (ch : Char) (s : Str) : find (ch :: s) ch 0 = some 0 := by
  simp [find, List.findIdx_cons]

theorem find_cons_zero_ne {c ch : Char} (h : c ≠ ch) (s : Str) :
    find (c :: s) ch 0 = (find s ch 0).map (· + 1) := by
  simp only [find, List.drop_zero, Nat.zero_add, List.findIdx_cons, List.length_cons]
  have : (c == ch) = false := by simpa using h
  simp only [this, cond_false, Nat.add_lt_add_iff_right]
  split <;> simp

theorem find_cons_succ (c ch : Char) (s : Str) (pos : Nat) :
    find (c :: s) ch (pos + 1) = (find s ch pos).map (· + 1) := by
  simp only [find, List.drop_succ_cons, List.length_cons]
  have : pos + 1 + List.findIdx (fun c => c == ch) (List.drop pos s)
      = pos + List.findIdx (fun c => c == ch) (List.drop pos s) + 1 := by omega
  rw [this]
  simp only [Nat.add_lt_add_iff_right]
  split <;> simp

theorem find_zero_eq_none {s : Str} {ch : Char} (h : ch ∉ s) : find s ch 0 = none := by
  induction s with
  | nil => exact find_nil _ _
  | cons c s ih =>
    have hc : c ≠ ch := fun e => h (by simp [e])
    have hs : ch ∉ s := fun e => h (by simp [e])
    rw [find_cons_zero_ne hc, ih hs]; rfl

theorem find_zero_append_self {u : Str} {ch : Char} (h : ch ∉ u) (v : Str) :
    find (u ++ ch :: v) ch 0 = some u.length := by
  induction u with
  | nil => exact find_cons_zero_self _ _
  | cons c u ih =>
    have hc : c ≠ ch := fun e => h (by simp [e])
    have hs : ch ∉ u := fun e => h (by simp [e])
    rw [List.cons_append, find_cons_zero_ne hc, ih hs]; rfl

theorem find_some_lt {s : Str} {ch : Char} {pos i : Nat} (h : find s ch pos = some i) :
    pos ≤ i ∧ i < s.length := by
  simp only [find] at h
  split at h
  · simp only [Option.some.injEq] at h; omega
  · simp at h

/-! ## Lemmas on the reassembly loop -/

theorem drop_if_pos (buf : Str) (p : Nat) :
    (if p > 0 then substrFrom buf p else buf) = buf.drop p := by
  cases p with
  | zero => simp
  | succ n => simp [substrFrom]

theorem processLoop_succ (cb : List PacketType) (f : Nat) (buf : Str) :
    processLoop cb (f + 1) buf =
      match find buf 'A' 0 with
      | none => some ([], [])
      | some startPos =>
        match find (buf.drop startPos) 'B' 1 with
        | none => some ([], buf.drop startPos)
        | some endPos =>
          if endPos + 1 ≥ (buf.drop startPos).length then some ([], buf.drop startPos)
          else (processLoop cb f ((buf.drop startPos).drop (endPos + 2))).map
            (fun r => (decodedOf cb ((buf.drop startPos).take (endPos + 2)) :: r.1, r.2)) := by
  rw [processLoop]
  cases hA : find buf 'A' 0 with
  | none => rfl
  | some startPos =>
    simp only [drop_if_pos]
    cases hB : find (buf.drop startPos) 'B' 1 with
    | none => rfl
    | some endPos =>
      simp only [substrFrom, substr, List.drop_zero]
      split
      · rfl
      · cases processLoop cb f (List.drop (endPos + 2) (List.drop startPos buf)) with
        | none => rfl
        | some r => rfl

theorem processLoop_noA {cb : List PacketType} {f : Nat} {buf : Str}
    (hA : find buf 'A' 0 = none) : processLoop cb (f + 1) buf = some ([], []) := by
  rw [processLoop_succ, hA]

theorem processLoop_noB {cb : List PacketType} {f : Nat} {buf : Str} {startPos : Nat}
    (hA : find buf 'A' 0 = some startPos) (hB : find (buf.drop startPos) 'B' 1 = none) :
    processLoop cb (f + 1) buf = some ([], buf.drop startPos) := by
  rw [processLoop_succ, hA]; simp only; rw [hB]

theorem processLoop_short {cb : List PacketType} {f : Nat} {buf : Str} {startPos endPos : Nat}
    (hA : find buf 'A' 0 = some startPos) (hB : find (buf.drop startPos) 'B' 1 = some endPos)
    (hlen : endPos + 1 ≥ (buf.drop startPos).length) :
    processLoop cb (f + 1) buf = some ([], buf.drop startPos) := by
  rw [processLoop_succ, hA]; simp only; rw [hB]; simp only; rw [if_pos hlen]

theorem processLoop_frame {cb : List PacketType} {f : Nat} {buf : Str} {startPos endPos : Nat}
    (hA : find buf 'A' 0 = some startPos) (hB : find (buf.drop startPos) 'B' 1 = some endPos)
    (hlen : ¬ endPos + 1 ≥ (buf.drop startPos).length) :
    processLoop cb (f + 1) buf =
      (processLoop cb f ((buf.drop startPos).drop (endPos + 2))).map
        (fun r => (decodedOf cb ((buf.drop startPos).take (endPos + 2)) :: r.1, r.2)) := by
  rw [processLoop_succ, hA]; simp only; rw [hB]; simp only; rw [if_neg hlen]

theorem processLoop_mono (cb : List PacketType) :
    ∀ (f : Nat) (buf : Str) (r : List Decoded × Str),
      processLoop cb f buf = some r → ∀ f', f ≤ f' → processLoop cb f' buf = some r := by
  intro f
  induction f with
  | zero => intro buf r h; simp [processLoop] at h
  | succ f ih =>
    intro buf r h f' hf'
    obtain ⟨g, rfl⟩ : ∃ g, f' = g + 1 := ⟨f' - 1, by omega⟩
    have hfg : f ≤ g := by omega
    cases hA : find buf 'A' 0 with
    | none => rw [processLoop_noA hA] at h ⊢; exact h
    | some startPos =>
      cases hB : find (buf.drop startPos) 'B' 1 with
      | none => rw [processLoop_noB hA hB] at h ⊢; exact h
      | some endPos =>
        by_cases hlen : endPos + 1 ≥ (buf.drop startPos).length
        · rw [processLoop_short hA hB hlen] at h ⊢; exact h
        · rw [processLoop_frame hA hB hlen] at h ⊢
          cases hrec : processLoop cb f ((buf.drop startPos).drop (endPos + 2)) with
          | none => rw [hrec] at h; simp at h
          | some r' =>
            rw [ih _ _ hrec g hfg]
            rw [hrec] at h
            exact h

theorem processLoop_total (cb : List PacketType) :
    ∀ (f : Nat) (buf : Str), buf.length < f → ∃ r, processLoop cb f buf = some r := by
  intro f
  induction f with
  | zero => intro buf h; omega
  | succ f ih =>
    intro buf hlen
    cases hA : find buf 'A' 0 with
    | none => exact ⟨_, processLoop_noA hA⟩
    | some startPos =>
      cases hB : find (buf.drop startPos) 'B' 1 with
      | none => exact ⟨_, processLoop_noB hA hB⟩
      | some endPos =>
        by_cases hl : endPos + 1 ≥ (buf.drop startPos).length
        · exact ⟨_, processLoop_short hA hB hl⟩
        · have hshort : ((buf.drop startPos).drop (endPos + 2)).length < f := by
            simp only [List.length_drop] at hl ⊢; omega
          obtain ⟨r, hr⟩ := ih _ hshort
          rw [processLoop_frame hA hB hl, hr]
          exact ⟨_, rfl⟩

theorem processReceivedData_total (cb : List PacketType) (buf : Str) :
    ∃ r, processReceivedData cb buf = some r :=
  processLoop_total cb _ buf (Nat.lt_succ_self _)

theorem processReceivedData_of_loop {cb : List PacketType} {f : Nat} {buf : Str}
    {r : List Decoded × Str} (h : processLoop cb f buf = some r) :
    processReceivedData cb buf = some r := by
  obtain ⟨r', hr'⟩ := processReceivedData_total cb buf
  have h1 := processLoop_mono cb _ _ _ h (max f (buf.length + 1)) (Nat.le_max_left _ _)
  have h2 := processLoop_mono cb _ _ _ hr' (max f (buf.length + 1)) (Nat.le_max_right _ _)
  rw [h1] at h2
  rw [hr', ← h2]

theorem processLoop_cons_not_A {cb : List PacketType} {c : Char} (hc : c ≠ 'A') (f : Nat)
    (s : Str) : processLoop cb (f + 1) (c :: s) = processLoop cb (f + 1) s := by
  have hfind := find_cons_zero_ne hc s
  cases hA : find s 'A' 0 with
  | none =>
    rw [hA] at hfind
    rw [processLoop_noA hA, processLoop_noA hfind]
  | some p =>
    rw [hA] at hfind
    have hfind' : find (c :: s) 'A' 0 = some (p + 1) := hfind
    rw [processLoop_succ, processLoop_succ, hA, hfind']
    simp only [List.drop_succ_cons]

theorem processLoop_append_not_A {cb : List PacketType} {g : Str} (hg : 'A' ∉ g) (f : Nat)
    (s : Str) : processLoop cb (f + 1) (g ++ s) = processLoop cb (f + 1) s := by
  induction g with
  | nil => rfl
  | cons c g ih =>
    have hc : c ≠ 'A' := fun e => hg (by simp [e])
    have hs : 'A' ∉ g := fun e => hg (by simp [e])
    rw [List.cons_append, processLoop_cons_not_A hc, ih hs]

/-- C2. Resynchronisation: bytes without an `A` in front of a buffer do not change what
`processReceivedData` decodes from it, nor the buffer it leaves. -/
theorem processReceivedData_resync (cb : List PacketType) (g s : Str) (hg : 'A' ∉ g) :
    processReceivedData cb (g ++ s) = processReceivedData cb s := by
  obtain ⟨r, hr⟩ := processReceivedData_total cb s
  rw [hr]
  apply processReceivedData_of_loop (f := s.length + 1)
  rw [processLoop_append_not_A hg]
  exact hr

/-- C2 at the buffer `garbageA303B3`: exactly one frame, `A303B3`, is decoded, as a WiFi
confirmation, and the buffer ends empty. -/
theorem processReceivedData_resync_witness :
    'A' ∉ "garbage".toList ∧
    processReceivedData openManager.callbacks ("garbage".toList ++ "A303B3".toList)
      = processReceivedData openManager.callbacks "A303B3".toList ∧
    processReceivedData openManager.callbacks "garbageA303B3".toList
      = some ([{ packet := "A303B3".toList, packetType := .PACKET_WIFI_CONFIRM,
                 calls := [{ packetType := .PACKET_WIFI_CONFIRM, params := [] }] }], []) :=
  ⟨by decide, processReceivedData_resync _ _ _ (by decide), by decide⟩

theorem find_one_cons (c ch : Char) (t : Str) :
    find (c :: t) ch 1 = (find t ch 0).map (· + 1) :=
  find_cons_succ c ch t 0

/-- C3. Incomplete-frame holding: a buffer that starts with `A` and has no `B` after it, or
whose first `B` after the start is its last character, is left unchanged and nothing is
decoded from it. -/
theorem processReceivedData_incomplete (cb : List PacketType) (t : Str)
    (h : 'B' ∉ t ∨ ∃ u, t = u ++ ['B'] ∧ 'B' ∉ u) :
    processReceivedData cb ('A' :: t) = some ([], 'A' :: t) := by
  apply processReceivedData_of_loop (f := 1)
  have hA : find ('A' :: t) 'A' 0 = some 0 := find_cons_zero_self _ _
  rcases h with h | ⟨u, rfl, hu⟩
  · have hB : find (('A' :: t).drop 0) 'B' 1 = none := by
      rw [List.drop_zero, find_one_cons, find_zero_eq_none h]; rfl
    exact processLoop_noB hA hB
  · have hB : find (('A' :: (u ++ ['B'])).drop 0) 'B' 1 = some (u.length + 1) := by
      rw [List.drop_zero, find_one_cons, find_zero_append_self hu]; rfl
    exact processLoop_short hA hB (by simp)

/-- C3 at the buffer `A30`: nothing is decoded and the buffer is still `A30`. -/
theorem processReceivedData_incomplete_witness :
    'B' ∉ "30".toList ∧
    processReceivedData openManager.callbacks "A30".toList = some ([], "A30".toList) :=
  ⟨by decide, processReceivedData_incomplete _ "30".toList (Or.inl (by decide))⟩

theorem processLoop_frameOf (cb : List PacketType) (f : Nat) (body : Str) (t : Char)
    (rest : Str) (hb : 'B' ∉ body) :
    processLoop cb (f + 1) (frameOf body t ++ rest) =
      (processLoop cb f rest).map (fun r => (decodedOf cb (frameOf body t) :: r.1, r.2)) := by
  have hA : find (frameOf body t ++ rest) 'A' 0 = some 0 := find_cons_zero_self _ _
  have hB : find ((frameOf body t ++ rest).drop 0) 'B' 1 = some (body.length + 1) := by
    have : frameOf body t ++ rest = 'A' :: (body ++ 'B' :: (t :: rest)) := by
      simp [frameOf]
    rw [List.drop_zero, this, find_one_cons, find_zero_append_self hb]; rfl
  have hlen : ¬ body.length + 1 + 1 ≥ ((frameOf body t ++ rest).drop 0).length := by
    simp [frameOf]
  rw [processLoop_frame hA hB hlen]
  have h1 : ((frameOf body t ++ rest).drop 0).drop (body.length + 1 + 2) = rest := by
    have : (frameOf body t).length = body.length + 1 + 2 := by simp [frameOf]
    rw [List.drop_zero, ← this, List.drop_left]
  have h2 : ((frameOf body t ++ rest).drop 0).take (body.length + 1 + 2) = frameOf body t := by
    have : (frameOf body t).length = body.length + 1 + 2 := by simp [frameOf]
    rw [List.drop_zero, ← this, List.take_left]
  rw [h1, h2]

theorem processLoop_frames (cb : List PacketType) (fs : List (Str × Char))
    (h : ∀ f ∈ fs, 'B' ∉ f.1) :
    processLoop cb (fs.length + 1) (fs.map (fun f => frameOf f.1 f.2)).flatten
      = some (fs.map (fun f => decodedOf cb (frameOf f.1 f.2)), []) := by
  induction fs with
  | nil => exact processLoop_noA (find_nil _ _)
  | cons x fs ih =>
    have hx : 'B' ∉ x.1 := h x (by simp)
    have hfs : ∀ f ∈ fs, 'B' ∉ f.1 := fun f hf => h f (by simp [hf])
    simp only [List.map_cons, List.flatten_cons, List.length_cons]
    rw [processLoop_frameOf cb _ _ _ _ hx, ih hfs]
    rfl

/-- C4. Back-to-back frames: a buffer made of frames `'A' ++ body ++ 'B' ++ t`, whose bodies
hold no `B`, has exactly these frames passed to `parsePacket`, in order, and ends empty. What
each frame decodes to depends on that frame alone, so a frame of unknown type (`A199B9`)
leaves the decoding of the next one (`A303B3`, a WiFi confirmation) as it is. -/
theorem processReceivedData_frames (cb : List PacketType) (fs : List (Str × Char))
    (h : ∀ f ∈ fs, 'B' ∉ f.1) :
    processReceivedData cb (fs.map (fun f => frameOf f.1 f.2)).flatten
        = some (fs.map (fun f => decodedOf cb (frameOf f.1 f.2)), []) ∧
      (decodedOf cb "A199B9".toList).packetType = .PACKET_UNKNOWN ∧
      (decodedOf cb "A199B9".toList).calls = [] ∧
      processReceivedData cb "A199B9A303B3".toList
        = some ([decodedOf cb "A199B9".toList, decodedOf cb "A303B3".toList], []) ∧
      parsePacket cb "A303B3".toList
        = (.PACKET_WIFI_CONFIRM, handlePacket cb .PACKET_WIFI_CONFIRM []) := by
  refine ⟨processReceivedData_of_loop (processLoop_frames cb fs h), rfl, rfl, ?_, rfl⟩
  exact processReceivedData_of_loop
    (processLoop_frames cb [("199".toList, '9'), ("303".toList, '3')] (by decide))

/-- C4 at the two frames `A199B9` and `A303B3`. -/
theorem processReceivedData_frames_witness :
    (∀ f ∈ [("199".toList, '9'), ("303".toList, '3')], 'B' ∉ f.1) ∧
    processReceivedData openManager.callbacks "A199B9A303B3".toList
      = some ([{ packet := "A199B9".toList, packetType := .PACKET_UNKNOWN, calls := [] },
               { packet := "A303B3".toList, packetType := .PACKET_WIFI_CONFIRM,
                 calls := [{ packetType := .PACKET_WIFI_CONFIRM, params := [] }] }], []) :=
  ⟨by decide, (processReceivedData_frames openManager.callbacks
    [("199".toList, '9'), ("303".toList, '3')] (by decide)).1⟩

/-- C1. Split read: the chunk `A6` followed, in a second event, by the chunk `007B6` decodes
no frame in either event, whereas the same bytes in one event decode one light-control frame.
The partial frame left by the first event is not kept for the second. This holds whatever
the registered handlers do. -/
theorem onReadyRead_split_frame_lost :
    ∀ handlers : Handlers,
      (onReadyRead handlers openManager "A6".toList).2.decoded = [] ∧
      (onReadyRead handlers (onReadyRead handlers openManager "A6".toList).1
        "007B6".toList).2.decoded = [] ∧
      (onReadyRead handlers openManager "A6007B6".toList).2.decoded
        = [{ packet := "A6007B6".toList, packetType := .PACKET_LIGHT_CONTROL,
             calls := [] }] := by
  intro handlers
  exact ⟨rfl, rfl, rfl⟩

/-! ## Light control -/

/-- The packet built by `onSendBrightnessValue` has the brightness as three zero-padded
digits, for every brightness from 0 to 255. -/
theorem onSendBrightnessValue_padded (b : Nat) (hb : b ≤ 255) :
    onSendBrightnessValue (b : Int) = "A6".toList ++ zero_pad3 b ++ "B6".toList := by
  interval_cases b <;> rfl

/-- C5. Light-control encoding: for brightness 7 `sendLightControl` builds `A67B6`, which is
not `A6` followed by three zero-padded digits and `B6`; `onSendBrightnessValue` builds
`A6007B6`. -/
theorem sendLightControl_not_padded :
    sendLightControl 7 = "A67B6".toList ∧
    sendLightControl 7 ≠ "A6".toList ++ zero_pad3 7 ++ "B6".toList ∧
    "A6".toList ++ zero_pad3 7 ++ "B6".toList = "A6007B6".toList ∧
    onSendBrightnessValue 7 = "A6007B6".toList := by
  decide

/-- C6, as stated, fails: decoding `A6007B6` gives the type tag alone, no handler is called
even with one registered for every type, and the result is the same as for `A6008B6`, so it
does not carry the brightness. -/
theorem parsePacket_light_control_no_brightness :
    parsePacket openManager.callbacks "A6007B6".toList = (.PACKET_LIGHT_CONTROL, []) ∧
    parsePacket openManager.callbacks "A6007B6".toList
      = parsePacket openManager.callbacks "A6008B6".toList := by
  decide

/-- C6, amended. For every brightness `b` from 0 to 255 the frame `A6 ++ zero_pad3 b ++ B6`
matches the type-6 pattern with the sub-match `zero_pad3 b`, whose decimal value is `b`, and
`parsePacket` returns the light-control type without calling a handler. -/
theorem parsePacket_light_control (cb : List PacketType) (b : Nat) (hb : b ≤ 255) :
    regex_match ("A6".toList ++ zero_pad3 b ++ "B6".toList) re6 = some [zero_pad3 b] ∧
    stoi (zero_pad3 b) = some (b : Int) ∧
    parsePacket cb ("A6".toList ++ zero_pad3 b ++ "B6".toList) = (.PACKET_LIGHT_CONTROL, []) := by
  interval_cases b <;> exact ⟨rfl, rfl, rfl⟩

/-- C6, amended, at brightness 7. -/
theorem parsePacket_light_control_witness :
    7 ≤ 255 ∧
    regex_match "A6007B6".toList re6 = some ["007".toList] ∧
    stoi "007".toList = some 7 ∧
    parsePacket openManager.callbacks "A6007B6".toList = (.PACKET_LIGHT_CONTROL, []) :=
  ⟨by decide, parsePacket_light_control openManager.callbacks 7 (by decide)⟩

/-! ## Lemmas on the pattern matcher -/

theorem run_bol (p : List Tok) (rest : Str) (o c : List Str) :
    run (.bol :: p) ⟨0, rest, o, c⟩ = run p ⟨0, rest, o, c⟩ := by
  simp [run]

theorem run_eol_nil (pos : Nat) (rest : Str) (o c : List Str) :
    run [.eol] ⟨pos, rest, o, c⟩ = if rest = [] then some c else none := by
  cases rest <;> simp [run]

theorem run_chr_cons (a d : Char) (p : List Tok) (pos : Nat) (r : Str) (o c : List Str) :
    run (.chr a :: p) ⟨pos, d :: r, o, c⟩
      = if d = a then run p ⟨pos + 1, r, o, c⟩ else none := by
  rw [run]

theorem run_chr_nil (a : Char) (p : List Tok) (pos : Nat) (o c : List Str) :
    run (.chr a :: p) ⟨pos, [], o, c⟩ = none := by
  rw [run]

theorem run_chrs_append (cs : Str) (p : List Tok) :
    ∀ (pos : Nat) (r : Str) (o c : List Str),
      run (cs.map Tok.chr ++ p) ⟨pos, cs ++ r, o, c⟩ = run p ⟨pos + cs.length, r, o, c⟩ := by
  induction cs with
  | nil => intro pos r o c; rfl
  | cons a cs ih =>
    intro pos r o c
    rw [List.map_cons, List.cons_append, List.cons_append, run_chr_cons, if_pos rfl, ih,
      List.length_cons]
    congr 2
    omega

theorem run_chrs_eq_some (cs : Str) (p : List Tok) :
    ∀ (pos : Nat) (rest : Str) (o c : List Str) (m : List Str),
      run (cs.map Tok.chr ++ p) ⟨pos, rest, o, c⟩ = some m →
        ∃ r, rest = cs ++ r ∧ run p ⟨pos + cs.length, r, o, c⟩ = some m := by
  induction cs with
  | nil => intro pos rest o c m h; exact ⟨rest, rfl, h⟩
  | cons a cs ih =>
    intro pos rest o c m h
    rw [List.map_cons, List.cons_append] at h
    cases rest with
    | nil => rw [run_chr_nil] at h; simp at h
    | cons d r =>
      rw [run_chr_cons] at h
      by_cases hd : d = a
      · rw [if_pos hd] at h
        obtain ⟨r', hr', hrun⟩ := ih _ _ _ _ _ h
        refine ⟨r', by rw [hd, hr']; rfl, ?_⟩
        have : pos + (a :: cs).length = pos + 1 + cs.length := by
          rw [List.length_cons]; omega
        rw [this]; exact hrun
      · rw [if_neg hd] at h; simp at h

theorem run_chrs_not_prefix (cs : Str) (p : List Tok) (pos : Nat) (rest : Str)
    (o c : List Str) (h : ¬ cs <+: rest) : run (cs.map Tok.chr ++ p) ⟨pos, rest, o, c⟩ = none := by
  cases hr : run (cs.map Tok.chr ++ p) ⟨pos, rest, o, c⟩ with
  | none => rfl
  | some m =>
    obtain ⟨r, hr', _⟩ := run_chrs_eq_some cs p pos rest o c m hr
    exact absurd ⟨r, hr'.symm⟩ h

theorem mem_repCounts {cls : CharClass} {lo : Nat} {hi : Option Nat} {greedy : Bool}
    {rest : Str} {k : Nat} :
    k ∈ repCounts cls lo hi greedy rest ↔
      lo ≤ k ∧ k ≤ (rest.takeWhile cls.test).length ∧ (∀ h, hi = some h → k ≤ h) := by
  unfold repCounts
  cases greedy <;> cases hi <;> simp [List.mem_range'_1] <;> omega

theorem findSome?_congr_mem {α β : Type} {f g : α → Option β} {l : List α}
    (h : ∀ a ∈ l, f a = g a) : l.findSome? f = l.findSome? g := by
  induction l with
  | nil => rfl
  | cons a l ih =>
    simp only [List.findSome?_cons]
    rw [h a (by simp), ih (fun b hb => h b (by simp [hb]))]

theorem takeWhile_length_le (p : Char → Bool) (s : Str) : (s.takeWhile p).length ≤ s.length :=
  (List.takeWhile_prefix p).length_le

theorem run_group (cls : CharClass) (lo : Nat) (hi : Option Nat) (greedy : Bool)
    (p : List Tok) (pos : Nat) (rest : Str) (o c : List Str) :
    run (.gopen :: .rep cls lo hi greedy :: .gclose :: p) ⟨pos, rest, o, c⟩ =
      (repCounts cls lo hi greedy rest).findSome?
        (fun k => run p ⟨pos + k, rest.drop k, o, c ++ [rest.take k]⟩) := by
  simp only [run]
  apply findSome?_congr_mem
  intro k hk
  have hk' := (mem_repCounts.1 hk).2.1
  have hle : k ≤ rest.length := Nat.le_trans hk' (takeWhile_length_le _ _)
  have : rest.length - (rest.drop k).length = k := by
    simp only [List.length_drop]; omega
  rw [this]

theorem take_all_of_le_takeWhile {p : Char → Bool} {s : Str} {k : Nat}
    (h : k ≤ (s.takeWhile p).length) : ∀ c ∈ s.take k, p c = true := by
  intro c hc
  have hpre : s.take k <+: s.takeWhile p := by
    have h1 : (s.takeWhile p).take k = s.take k := by
      obtain ⟨t, ht⟩ := List.takeWhile_prefix p (l := s)
      conv_rhs => rw [← ht]
      rw [List.take_append_of_le_length h]
    rw [← h1]
    exact List.take_prefix _ _
  exact List.mem_takeWhile_imp (hpre.subset hc)

theorem run_group_eq_some {cls : CharClass} {lo : Nat} {hi : Option Nat} {greedy : Bool}
    {p : List Tok} {pos : Nat} {rest : Str} {o c m : List Str}
    (h : run (.gopen :: .rep cls lo hi greedy :: .gclose :: p) ⟨pos, rest, o, c⟩ = some m) :
    ∃ g r, rest = g ++ r ∧ lo ≤ g.length ∧ (∀ n, hi = some n → g.length ≤ n) ∧
      (∀ x ∈ g, cls.test x = true) ∧ run p ⟨pos + g.length, r, o, c ++ [g]⟩ = some m := by
  rw [run_group] at h
  obtain ⟨k, hk, hrun⟩ := List.exists_of_findSome?_eq_some h
  obtain ⟨h1, h2, h3⟩ := mem_repCounts.1 hk
  have hle : k ≤ rest.length := Nat.le_trans h2 (takeWhile_length_le _ _)
  have hlen : (rest.take k).length = k := by simp [List.length_take]; omega
  refine ⟨rest.take k, rest.drop k, (List.take_append_drop k rest).symm, ?_, ?_, ?_, ?_⟩
  · rw [hlen]; exact h1
  · intro n hn; rw [hlen]; exact h3 n hn
  · exact take_all_of_le_takeWhile h2
  · rw [hlen]; exact hrun

/-! ## Lemmas on `trim` and on the frame check of `parsePacket` -/

theorem trim_frame (a z : Char) (mid : Str) (ha : a ∉ whitespace) (hz : z ∉ whitespace) :
    trim (a :: (mid ++ [z])) = a :: (mid ++ [z]) := by
  have h1 : find_first_not_of (a :: (mid ++ [z])) whitespace = some 0 := by
    simp [find_first_not_of, List.findIdx_cons, ha]
  have h2 : find_last_not_of (a :: (mid ++ [z])) whitespace
      = some ((a :: (mid ++ [z])).length - 1) := by
    simp [find_last_not_of, List.findIdx_cons, hz]
  simp only [trim, h1, h2, substr, List.drop_zero]
  apply List.take_of_length_le
  simp

theorem frame_eq_concat (mid : Str) (d : Char) :
    'A' :: (mid ++ ['B', d]) = 'A' :: ((mid ++ ['B']) ++ [d]) := by simp

theorem frame_length (mid : Str) (d : Char) : ('A' :: (mid ++ ['B', d])).length = mid.length + 3 := by
  simp

theorem frame_getElem_last (mid : Str) (d : Char) :
    ('A' :: (mid ++ ['B', d]))[mid.length + 3 - 1]? = some d := by
  have : mid.length + 3 - 1 = (mid.length + 1) + 1 := by omega
  rw [this, List.getElem?_cons_succ, List.getElem?_append_right (by omega)]
  simp

theorem frame_getElem_prev (mid : Str) (d : Char) :
    ('A' :: (mid ++ ['B', d]))[mid.length + 3 - 2]? = some 'B' := by
  have : mid.length + 3 - 2 = mid.length + 1 := by omega
  rw [this, List.getElem?_cons_succ, List.getElem?_append_right (by omega)]
  simp

theorem parsePacket_check {cb : List PacketType} {packet mid : Str} {d : Char}
    (ht : trim packet = 'A' :: (mid ++ ['B', d])) :
    parsePacket cb packet =
      match (some d : Option Char) with
      | some '1' =>
        match regex_match (trim packet) re1 with
        | some _ => (.PACKET_WIFI_SETUP, handlePacket cb .PACKET_WIFI_SETUP [])
        | none => (.PACKET_UNKNOWN, [])
      | some '2' =>
        match regex_match (trim packet) re2 with
        | some m =>
          (.PACKET_WIFI_SSID_PWD,
            handlePacket cb .PACKET_WIFI_SETUP [.str (m.getD 0 []), .str (m.getD 1 [])])
        | none => (.PACKET_UNKNOWN, [])
      | some '3' =>
        match regex_match (trim packet) re3 with
        | some _ => (.PACKET_WIFI_CONFIRM, handlePacket cb .PACKET_WIFI_CONFIRM [])
        | none => (.PACKET_UNKNOWN, [])
      | some '4' =>
        match regex_match (trim packet) re4 with
        | some m =>
          (.PACKET_WIFI_ERROR,
            handlePacket cb .PACKET_WIFI_CONFIRM [.str (m.getD 0 []), .str (m.getD 1 [])])
        | none => (.PACKET_UNKNOWN, [])
      | some '5' =>
        match regex_match (trim packet) re5 with
        | some m => (.PACKET_DEVICE_STATUS, (decodeStatus cb m).2)
        | none => (.PACKET_UNKNOWN, [])
      | some '6' =>
        match regex_match (trim packet) re6 with
        | some _ => (.PACKET_LIGHT_CONTROL, [])
        | none => (.PACKET_UNKNOWN, [])
      | _ => (.PACKET_UNKNOWN, []) := by
  have hlen : (trim packet).length = mid.length + 3 := by rw [ht]; exact frame_length mid d
  have h0 : (trim packet)[0]? = some 'A' := by rw [ht]; simp
  have h1 : (trim packet)[(trim packet).length - 2]? = some 'B' := by
    rw [hlen, ht]; exact frame_getElem_prev mid d
  have h2 : (trim packet)[(trim packet).length - 1]? = some d := by
    rw [hlen, ht]; exact frame_getElem_last mid d
  have hc : ¬ ((trim packet).length < 3 ∨ (trim packet)[0]? ≠ some 'A' ∨
      (trim packet)[(trim packet).length - 2]? ≠ some 'B') := by
    rw [h0, h1, hlen]; simp
  unfold parsePacket
  simp only [hc, if_false, h2]

theorem parsePacket_type5 {cb : List PacketType} {packet mid : Str}
    (ht : trim packet = 'A' :: (mid ++ ['B', '5'])) :
    parsePacket cb packet =
      match regex_match (trim packet) re5 with
      | some m => (.PACKET_DEVICE_STATUS, (decodeStatus cb m).2)
      | none => (.PACKET_UNKNOWN, []) := by
  rw [parsePacket_check ht]; rfl

theorem parsePacket_type2 {cb : List PacketType} {packet mid : Str}
    (ht : trim packet = 'A' :: (mid ++ ['B', '2'])) :
    parsePacket cb packet =
      match regex_match (trim packet) re2 with
      | some m =>
        (.PACKET_WIFI_SSID_PWD,
          handlePacket cb .PACKET_WIFI_SETUP [.str (m.getD 0 []), .str (m.getD 1 [])])
      | none => (.PACKET_UNKNOWN, []) := by
  rw [parsePacket_check ht]; rfl

theorem parsePacket_type4 {cb : List PacketType} {packet mid : Str}
    (ht : trim packet = 'A' :: (mid ++ ['B', '4'])) :
    parsePacket cb packet =
      match regex_match (trim packet) re4 with
      | some m =>
        (.PACKET_WIFI_ERROR,
          handlePacket cb .PACKET_WIFI_CONFIRM [.str (m.getD 0 []), .str (m.getD 1 [])])
      | none => (.PACKET_UNKNOWN, []) := by
  rw [parsePacket_check ht]; rfl

/-! ## Lemmas on digits -/

theorem isDigit_toNat {c : Char} (h : c.isDigit = true) : 48 ≤ c.toNat ∧ c.toNat ≤ 57 := by
  simp only [Char.isDigit, Bool.and_eq_true, decide_eq_true_eq] at h
  exact h

theorem isDigit_cases {c : Char} (h : c.isDigit = true) :
    c = '0' ∨ c = '1' ∨ c = '2' ∨ c = '3' ∨ c = '4' ∨ c = '5' ∨ c = '6' ∨ c = '7' ∨ c = '8'
      ∨ c = '9' := by
  obtain ⟨h1, h2⟩ := isDigit_toNat h
  rw [← Char.ofNat_toNat c]
  generalize c.toNat = n at h1 h2
  interval_cases n <;> decide

set_option maxRecDepth 1000000 in
theorem decimal_lt_1000 :
    ∀ n < 1000, leftPadZeros 3 (decimal n) = zero_pad3 n ∧ '.' ∉ decimal n := by
  decide

theorem digitChar_sub {c : Char} (h : c.isDigit = true) : digitChar (c.toNat - 48) = c := by
  obtain ⟨h1, _⟩ := isDigit_toNat h
  have : 48 + (c.toNat - 48) = c.toNat := by omega
  rw [digitChar, this, Char.ofNat_toNat]

theorem digitsValue_three (a b c : Char) :
    digitsValue [a, b, c] = 100 * (a.toNat - 48) + 10 * (b.toNat - 48) + (c.toNat - 48) := by
  simp only [digitsValue, List.foldl_cons, List.foldl_nil]
  omega

theorem zero_pad3_digitsValue {a b c : Char} (ha : a.isDigit = true) (hb : b.isDigit = true)
    (hc : c.isDigit = true) : zero_pad3 (digitsValue [a, b, c]) = [a, b, c] := by
  have ha' := isDigit_toNat ha
  have hb' := isDigit_toNat hb
  have hc' := isDigit_toNat hc
  rw [digitsValue_three]
  have e1 : (100 * (a.toNat - 48) + 10 * (b.toNat - 48) + (c.toNat - 48)) / 100 % 10
      = a.toNat - 48 := by omega
  have e2 : (100 * (a.toNat - 48) + 10 * (b.toNat - 48) + (c.toNat - 48)) / 10 % 10
      = b.toNat - 48 := by omega
  have e3 : (100 * (a.toNat - 48) + 10 * (b.toNat - 48) + (c.toNat - 48)) % 10
      = c.toNat - 48 := by omega
  rw [zero_pad3, e1, e2, e3, digitChar_sub ha, digitChar_sub hb, digitChar_sub hc]

theorem digitsValue_three_lt {a b c : Char} (ha : a.isDigit = true) (hb : b.isDigit = true)
    (hc : c.isDigit = true) : digitsValue [a, b, c] < 1000 := by
  have ha' := isDigit_toNat ha
  have hb' := isDigit_toNat hb
  have hc' := isDigit_toNat hc
  rw [digitsValue_three]
  omega

theorem foldl_digits_lt (ds : Str) (hd : ∀ c ∈ ds, c.isDigit = true) :
    ∀ acc : Nat, ds.foldl (fun acc c => 10 * acc + (c.toNat - 48)) acc
      < (acc + 1) * 10 ^ ds.length := by
  induction ds with
  | nil => intro acc; simp
  | cons c cs ih =>
    intro acc
    have hc := isDigit_toNat (hd c (by simp))
    have h := ih (fun x hx => hd x (by simp [hx])) (10 * acc + (c.toNat - 48))
    simp only [List.foldl_cons, List.length_cons]
    have he : (acc + 1) * 10 ^ (cs.length + 1) = (10 * acc + 10) * 10 ^ cs.length := by
      rw [Nat.pow_succ]; ring
    rw [he]
    exact Nat.lt_of_lt_of_le h (Nat.mul_le_mul_right _ (by omega))

theorem digitsValue_lt (ds : Str) (hd : ∀ c ∈ ds, c.isDigit = true) :
    digitsValue ds < 10 ^ ds.length := by
  have := foldl_digits_lt ds hd 0
  simpa [digitsValue] using this

theorem isspace_of_isDigit {c : Char} (h : c.isDigit = true) :
    isspace c = false ∧ c ≠ '-' ∧ c ≠ '+' := by
  rcases isDigit_cases h with h | h | h | h | h | h | h | h | h | h <;> subst h <;> decide

theorem stoi_digits {ds : Str} (hne : ds ≠ []) (hd : ∀ c ∈ ds, c.isDigit = true)
    (hlen : ds.length ≤ 9) : stoi ds = some (digitsValue ds : Int) := by
  cases ds with
  | nil => exact absurd rfl hne
  | cons c cs =>
    obtain ⟨h1, h2, h3⟩ := isspace_of_isDigit (hd c (by simp))
    have hdrop : (c :: cs).dropWhile isspace = c :: cs := by
      simp [List.dropWhile_cons, h1]
    have htake : (c :: cs).takeWhile Char.isDigit = c :: cs := by
      rw [List.takeWhile_eq_self_iff]; exact hd
    have hval : digitsValue (c :: cs) < 10 ^ 9 :=
      Nat.lt_of_lt_of_le (digitsValue_lt _ hd) (Nat.pow_le_pow_right (by decide) hlen)
    have hsign : readSign (c :: cs) = (false, c :: cs) := by
      unfold readSign
      split
      · rename_i heq; simp only [List.cons.injEq] at heq; exact absurd heq.1 h2
      · rename_i heq; simp only [List.cons.injEq] at heq; exact absurd heq.1 h3
      · rfl
    have hv : (-2147483648 : Int) ≤ (digitsValue (c :: cs) : Int)
        ∧ (digitsValue (c :: cs) : Int) ≤ 2147483647 := by
      constructor <;> omega
    unfold stoi
    simp only [hdrop, hsign, htake, List.isEmpty_cons, Bool.false_eq_true, if_false]
    simp [hv]

theorem to_string_natCast (n : Nat) : to_string (n : Int) = decimal n := by
  simp [to_string, decimal]

theorem padLoop_eq (width : Nat) :
    ∀ (fuel : Nat) (s : Str), width - s.length ≤ fuel →
      padLoop width fuel s = leftPadZeros width s := by
  intro fuel
  induction fuel with
  | zero =>
    intro s h
    have : width - s.length = 0 := by omega
    simp [padLoop, leftPadZeros, this]
  | succ fuel ih =>
    intro s h
    rw [padLoop]
    split
    · rename_i hlt
      rw [ih ('0' :: s) (by simp only [List.length_cons]; omega)]
      simp only [leftPadZeros, List.length_cons]
      have : width - s.length = (width - (s.length + 1)) + 1 := by omega
      rw [this, List.replicate_succ', List.append_assoc]
      rfl
    · rename_i hge
      have : width - s.length = 0 := by omega
      simp [leftPadZeros, this]

theorem padZeros_eq (width : Nat) (s : Str) : padZeros width s = leftPadZeros width s :=
  padLoop_eq width width s (Nat.sub_le _ _)

/-! ## The type-5 pattern -/

theorem re5_shape :
    re5 = .bol :: ("A5".toList.map Tok.chr ++
      (.gopen :: .rep .digit 1 (some 3) true :: .gclose ::
      (.gopen :: .rep .digit 1 none true :: .gclose :: ("POWER".toList.map Tok.chr ++
      (.gopen :: .rep .digit 1 (some 3) true :: .gclose :: ("VERSION".toList.map Tok.chr ++
      (.gopen :: .rep .digit 1 (some 3) true :: .gclose :: ("B5".toList.map Tok.chr ++
      [.eol])))))))) := rfl

theorem re5_sound {t : Str} {m : List Str} (h : regex_match t re5 = some m) :
    ∃ br ip p v, t = "A5".toList ++ (br ++ (ip ++ ("POWER".toList ++ (p ++ ("VERSION".toList ++
        (v ++ "B5".toList)))))) ∧ m = [br, ip, p, v] ∧
      IsDigits13 br ∧ (1 ≤ ip.length ∧ ∀ c ∈ ip, c.isDigit = true) ∧
      IsDigits13 p ∧ IsDigits13 v := by
  unfold regex_match at h
  rw [re5_shape, run_bol] at h
  obtain ⟨r1, e1, h⟩ := run_chrs_eq_some _ _ _ _ _ _ _ h
  obtain ⟨br, r2, e2, hbr1, hbr2, hbr3, h⟩ := run_group_eq_some h
  obtain ⟨ip, r3, e3, hip1, _, hip3, h⟩ := run_group_eq_some h
  obtain ⟨r4, e4, h⟩ := run_chrs_eq_some _ _ _ _ _ _ _ h
  obtain ⟨p, r5, e5, hp1, hp2, hp3, h⟩ := run_group_eq_some h
  obtain ⟨r6, e6, h⟩ := run_chrs_eq_some _ _ _ _ _ _ _ h
  obtain ⟨v, r7, e7, hv1, hv2, hv3, h⟩ := run_group_eq_some h
  obtain ⟨r8, e8, h⟩ := run_chrs_eq_some _ _ _ _ _ _ _ h
  rw [run_eol_nil] at h
  split at h
  · rename_i hr8
    simp only [Option.some.injEq] at h
    refine ⟨br, ip, p, v, ?_, ?_, ⟨hbr1, hbr2 3 rfl, hbr3⟩, ⟨hip1, hip3⟩,
      ⟨hp1, hp2 3 rfl, hp3⟩, ⟨hv1, hv2 3 rfl, hv3⟩⟩
    · rw [e1, e2, e3, e4, e5, e6, e7, e8, hr8]; simp
    · rw [← h]; rfl
  · simp at h

theorem leftPadZeros_length (n : Nat) (s : Str) :
    (leftPadZeros n s).length = max n s.length := by
  simp only [leftPadZeros, List.length_append, List.length_replicate]
  omega

theorem leftPadZeros_digits (n : Nat) {s : Str} (h : ∀ c ∈ s, c.isDigit = true) :
    ∀ c ∈ leftPadZeros n s, c.isDigit = true := by
  intro c hc
  simp only [leftPadZeros, List.mem_append, List.mem_replicate] at hc
  rcases hc with ⟨_, rfl⟩ | hc
  · decide
  · exact h c hc

theorem stoi_group {q : Str} (hq : ∀ c ∈ q, c.isDigit = true) (i : Nat)
    (hi : i + 3 ≤ q.length) : stoi (substr q i 3) = some (digitsValue (substr q i 3) : Int) := by
  have hlen : (substr q i 3).length = 3 := by
    simp only [substr, List.length_take, List.length_drop]; omega
  apply stoi_digits
  · intro h; rw [h] at hlen; simp at hlen
  · intro c hc
    exact hq c (List.mem_of_mem_drop (List.mem_of_mem_take hc))
  · omega

theorem stoi_digits13 {g : Str} (h : IsDigits13 g) : stoi g = some (digitsValue g : Int) := by
  obtain ⟨h1, h2, h3⟩ := h
  apply stoi_digits
  · intro e; rw [e] at h1; simp at h1
  · exact h3
  · omega

theorem decodeStatus_eq (cb : List PacketType) {br ip p v : Str} (hbr : IsDigits13 br)
    (hip : ∀ c ∈ ip, c.isDigit = true) (hp : IsDigits13 p) (hv : IsDigits13 v) :
    decodeStatus cb [br, ip, p, v] =
      (decimal (digitsValue (substr (leftPadZeros 12 ip) 0 3)) ++ ['.'] ++
        decimal (digitsValue (substr (leftPadZeros 12 ip) 3 3)) ++ ['.'] ++
        decimal (digitsValue (substr (leftPadZeros 12 ip) 6 3)) ++ ['.'] ++
        decimal (digitsValue (substr (leftPadZeros 12 ip) 9 3)),
       handlePacket cb .PACKET_DEVICE_STATUS
        [.str (decimal (digitsValue (substr (leftPadZeros 12 ip) 0 3)) ++ ['.'] ++
          decimal (digitsValue (substr (leftPadZeros 12 ip) 3 3)) ++ ['.'] ++
          decimal (digitsValue (substr (leftPadZeros 12 ip) 6 3)) ++ ['.'] ++
          decimal (digitsValue (substr (leftPadZeros 12 ip) 9 3))),
         .int (digitsValue br), .int (digitsValue p), .int (digitsValue v)]) := by
  have hq := leftPadZeros_digits 12 hip
  have hl : 12 ≤ (leftPadZeros 12 ip).length := by rw [leftPadZeros_length]; omega
  have g0 := stoi_group hq 0 (by omega)
  have g1 := stoi_group hq 3 (by omega)
  have g2 := stoi_group hq 6 (by omega)
  have g3 := stoi_group hq 9 (by omega)
  unfold decodeStatus
  simp only [List.getD_cons_zero, List.getD_cons_succ, padZeros_eq, g0, g1, g2, g3,
    stoi_digits13 hbr, stoi_digits13 hp, stoi_digits13 hv, Option.bind_eq_bind,
    Option.some_bind, to_string_natCast, Option.pure_def]

theorem exists_cons_of_length {n : Nat} {q : Str} (h : q.length = n + 1) :
    ∃ a r, q = a :: r ∧ r.length = n := by
  cases q with
  | nil => simp at h
  | cons a r => exact ⟨a, r, rfl, by simpa using h⟩

theorem length_twelve {q : Str} (h : q.length = 12) :
    ∃ a0 a1 a2 a3 a4 a5 a6 a7 a8 a9 a10 a11,
      q = [a0, a1, a2, a3, a4, a5, a6, a7, a8, a9, a10, a11] := by
  obtain ⟨a0, q0, rfl, h0⟩ := exists_cons_of_length h
  obtain ⟨a1, q1, rfl, h1⟩ := exists_cons_of_length h0
  obtain ⟨a2, q2, rfl, h2⟩ := exists_cons_of_length h1
  obtain ⟨a3, q3, rfl, h3⟩ := exists_cons_of_length h2
  obtain ⟨a4, q4, rfl, h4⟩ := exists_cons_of_length h3
  obtain ⟨a5, q5, rfl, h5⟩ := exists_cons_of_length h4
  obtain ⟨a6, q6, rfl, h6⟩ := exists_cons_of_length h5
  obtain ⟨a7, q7, rfl, h7⟩ := exists_cons_of_length h6
  obtain ⟨a8, q8, rfl, h8⟩ := exists_cons_of_length h7
  obtain ⟨a9, q9, rfl, h9⟩ := exists_cons_of_length h8
  obtain ⟨a10, q10, rfl, h10⟩ := exists_cons_of_length h9
  obtain ⟨a11, q11, rfl, h11⟩ := exists_cons_of_length h10
  have : q11 = [] := List.length_eq_zero.1 h11
  subst this
  exact ⟨a0, a1, a2, a3, a4, a5, a6, a7, a8, a9, a10, a11, rfl⟩

theorem dottedQuad_eq {ip : Str} (h : ip.length ≤ 12) :
    dottedQuad ip =
      decimal (digitsValue (substr (leftPadZeros 12 ip) 0 3)) ++ ['.'] ++
        decimal (digitsValue (substr (leftPadZeros 12 ip) 3 3)) ++ ['.'] ++
        decimal (digitsValue (substr (leftPadZeros 12 ip) 6 3)) ++ ['.'] ++
        decimal (digitsValue (substr (leftPadZeros 12 ip) 9 3)) := by
  have hl : (leftPadZeros 12 ip).length = 12 := by rw [leftPadZeros_length]; omega
  obtain ⟨a0, a1, a2, a3, a4, a5, a6, a7, a8, a9, a10, a11, hq⟩ := length_twelve hl
  unfold dottedQuad
  rw [hq]
  simp [chunks3, substr, List.intercalate]

theorem re5_trim_frame {packet br ip p v : Str}
    (ht : trim packet = "A5".toList ++ (br ++ (ip ++ ("POWER".toList ++ (p ++
      ("VERSION".toList ++ (v ++ "B5".toList))))))) :
    trim packet = 'A' :: (('5' :: (br ++ (ip ++ ("POWER".toList ++ (p ++
      ("VERSION".toList ++ v)))))) ++ ['B', '5']) := by
  rw [ht]; simp

theorem formatIpAddress_digits {ip : Str} (hip : ∀ c ∈ ip, c.isDigit = true) :
    formatIpAddress ip = some
      (decimal (digitsValue (substr (leftPadZeros 12 ip) 0 3)) ++ ['.'] ++
        decimal (digitsValue (substr (leftPadZeros 12 ip) 3 3)) ++ ['.'] ++
        decimal (digitsValue (substr (leftPadZeros 12 ip) 6 3)) ++ ['.'] ++
        decimal (digitsValue (substr (leftPadZeros 12 ip) 9 3))) := by
  have hq := leftPadZeros_digits 12 hip
  have hl : 12 ≤ (leftPadZeros 12 ip).length := by rw [leftPadZeros_length]; omega
  have g0 := stoi_group hq 0 (by omega)
  have g1 := stoi_group hq 3 (by omega)
  have g2 := stoi_group hq 6 (by omega)
  have g3 := stoi_group hq 9 (by omega)
  unfold formatIpAddress
  simp only [padZeros_eq, g0, g1, g2, g3, Option.bind_eq_bind, Option.some_bind,
    to_string_natCast, Option.pure_def]

/-- Decoding of a packet whose trimmed form matches the type-5 pattern, with at most twelve IP
digits. -/
theorem parsePacket_re5_eq (cb : List PacketType) {packet br ip p v : Str}
    (hm : regex_match (trim packet) re5 = some [br, ip, p, v]) (hip : ip.length ≤ 12) :
    parsePacket cb packet = (.PACKET_DEVICE_STATUS, handlePacket cb .PACKET_DEVICE_STATUS
      [.str (dottedQuad ip), .int (digitsValue br), .int (digitsValue p),
        .int (digitsValue v)]) := by
  obtain ⟨br', ip', p', v', ht, hcaps, hbr, hipd, hp, hv⟩ := re5_sound hm
  simp only [List.cons.injEq, and_true] at hcaps
  obtain ⟨rfl, rfl, rfl, rfl⟩ := hcaps
  rw [parsePacket_type5 (re5_trim_frame ht), hm]
  simp only [decodeStatus_eq cb hbr hipd.2 hp hv, dottedQuad_eq hip]

/-- C7. Type-5 decoding: when the trimmed packet matches the type-5 pattern with sub-matches
`br`, `ip`, `p`, `v` and `ip` has at most 12 digits, the packet is
`A5 ++ br ++ ip ++ POWER ++ p ++ VERSION ++ v ++ B5`, `parsePacket` returns the device-status
type and hands to the device-status handler the dotted form of `ip` and the decimal values of
`br`, `p` and `v`; `formatIpAddress` gives the same dotted form. -/
theorem parsePacket_device_status (cb : List PacketType) (packet br ip p v : Str)
    (hm : regex_match (trim packet) re5 = some [br, ip, p, v]) (hip : ip.length ≤ 12) :
    trim packet = "A5".toList ++ br ++ ip ++ "POWER".toList ++ p ++ "VERSION".toList ++ v
        ++ "B5".toList ∧
      parsePacket cb packet = (.PACKET_DEVICE_STATUS, handlePacket cb .PACKET_DEVICE_STATUS
        [.str (dottedQuad ip), .int (digitsValue br), .int (digitsValue p),
          .int (digitsValue v)]) ∧
      (cb.contains .PACKET_DEVICE_STATUS = true →
        (parsePacket cb packet).2 = [HandlerCall.mk .PACKET_DEVICE_STATUS
          [.str (dottedQuad ip), .int (digitsValue br), .int (digitsValue p),
            .int (digitsValue v)]]) ∧
      formatIpAddress ip = some (dottedQuad ip) := by
  have hparse := parsePacket_re5_eq cb hm hip
  obtain ⟨br', ip', p', v', ht, hcaps, hbr, hipd, hp, hv⟩ := re5_sound hm
  simp only [List.cons.injEq, and_true] at hcaps
  obtain ⟨rfl, rfl, rfl, rfl⟩ := hcaps
  refine ⟨by rw [ht]; simp, hparse, ?_, ?_⟩
  · intro hreg
    rw [hparse]
    simp only [handlePacket, hreg, if_true]
  · rw [formatIpAddress_digits hipd.2, dottedQuad_eq hip]

/-- C7 at the packet `A5007192168001100POWER90VERSION1B5`: the handler receives the IP
`192.168.1.100`, brightness 7, power 90 and version 1. -/
theorem parsePacket_device_status_witness :
    regex_match (trim "A5007192168001100POWER90VERSION1B5".toList) re5
        = some ["007".toList, "192168001100".toList, "90".toList, "1".toList] ∧
      "192168001100".toList.length ≤ 12 ∧
      parsePacket openManager.callbacks "A5007192168001100POWER90VERSION1B5".toList
        = (.PACKET_DEVICE_STATUS, [HandlerCall.mk .PACKET_DEVICE_STATUS
            [.str "192.168.1.100".toList, .int 7, .int 90, .int 1]]) :=
  ⟨by decide, by decide,
    (parsePacket_device_status openManager.callbacks
      "A5007192168001100POWER90VERSION1B5".toList "007".toList "192168001100".toList
      "90".toList "1".toList (by decide) (by decide)).2.1.trans (by decide)⟩

/-! ## Telemetry delivery and the IP digit round trip -/

/-- C9. Telemetry is never dropped: when the trimmed packet matches the type-5 pattern with
sub-matches `m`, no `std::stoi` call of the `try` block throws, so the fallback to the raw
digits is never taken; `parsePacket` returns the device-status type and calls `handlePacket`
once, with a formatted IP and the decimal values of brightness, power and version, which
reaches the device-status handler exactly once when one is registered. -/
theorem parsePacket_telemetry_delivered (cb : List PacketType) (packet : Str) (m : List Str)
    (hm : regex_match (trim packet) re5 = some m) :
    (parsePacket cb packet).1 = .PACKET_DEVICE_STATUS ∧
      (∃ formattedIp, formatIpAddress (m.getD 1 []) = some formattedIp ∧
        decodeStatus cb m = (formattedIp, handlePacket cb .PACKET_DEVICE_STATUS
          [.str formattedIp, .int (digitsValue (m.getD 0 [])), .int (digitsValue (m.getD 2 [])),
            .int (digitsValue (m.getD 3 []))]) ∧
        (parsePacket cb packet).2 = handlePacket cb .PACKET_DEVICE_STATUS
          [.str formattedIp, .int (digitsValue (m.getD 0 [])), .int (digitsValue (m.getD 2 [])),
            .int (digitsValue (m.getD 3 []))] ∧
        (cb.contains .PACKET_DEVICE_STATUS = true →
          (parsePacket cb packet).2 = [HandlerCall.mk .PACKET_DEVICE_STATUS
            [.str formattedIp, .int (digitsValue (m.getD 0 [])),
              .int (digitsValue (m.getD 2 [])), .int (digitsValue (m.getD 3 []))]])) ∧
      (stoi (substr (padZeros 12 (m.getD 1 [])) 0 3)).isSome = true ∧
      (stoi (substr (padZeros 12 (m.getD 1 [])) 3 3)).isSome = true ∧
      (stoi (substr (padZeros 12 (m.getD 1 [])) 6 3)).isSome = true ∧
      (stoi (substr (padZeros 12 (m.getD 1 [])) 9 3)).isSome = true ∧
      (stoi (m.getD 0 [])).isSome = true ∧ (stoi (m.getD 2 [])).isSome = true ∧
      (stoi (m.getD 3 [])).isSome = true := by
  obtain ⟨br, ip, p, v, ht, rfl, hbr, hipd, hp, hv⟩ := re5_sound hm
  have hparse : parsePacket cb packet
      = (.PACKET_DEVICE_STATUS, (decodeStatus cb [br, ip, p, v]).2) := by
    rw [parsePacket_type5 (re5_trim_frame ht), hm]
  have hq := leftPadZeros_digits 12 hipd.2
  have hl : 12 ≤ (leftPadZeros 12 ip).length := by rw [leftPadZeros_length]; omega
  simp only [List.getD_cons_zero, List.getD_cons_succ, padZeros_eq]
  refine ⟨by rw [hparse], ⟨_, formatIpAddress_digits hipd.2, decodeStatus_eq cb hbr hipd.2 hp hv,
    ?_, ?_⟩, ?_, ?_, ?_, ?_, ?_, ?_, ?_⟩
  · rw [hparse, decodeStatus_eq cb hbr hipd.2 hp hv]
  · intro hreg
    rw [hparse, decodeStatus_eq cb hbr hipd.2 hp hv]
    simp only [handlePacket, hreg, if_true]
  · rw [stoi_group hq 0 (by omega)]; rfl
  · rw [stoi_group hq 3 (by omega)]; rfl
  · rw [stoi_group hq 6 (by omega)]; rfl
  · rw [stoi_group hq 9 (by omega)]; rfl
  · rw [stoi_digits13 hbr]; rfl
  · rw [stoi_digits13 hp]; rfl
  · rw [stoi_digits13 hv]; rfl

/-- C9 at two packets: one with twelve IP digits and one with thirteen, both delivered to the
registered handler. -/
theorem parsePacket_telemetry_delivered_witness :
    regex_match (trim "A5007192168001100POWER90VERSION1B5".toList) re5
        = some ["007".toList, "192168001100".toList, "90".toList, "1".toList] ∧
      (parsePacket openManager.callbacks "A5007192168001100POWER90VERSION1B5".toList).1
        = .PACKET_DEVICE_STATUS ∧
      (parsePacket openManager.callbacks "A5007192168001100POWER90VERSION1B5".toList).2
        = [HandlerCall.mk .PACKET_DEVICE_STATUS
            [.str "192.168.1.100".toList, .int 7, .int 90, .int 1]] ∧
      (parsePacket openManager.callbacks "A51231234567890123POWER1VERSION1B5".toList).2
        = [HandlerCall.mk .PACKET_DEVICE_STATUS
            [.str "123.456.789.12".toList, .int 123, .int 1, .int 1]] :=
  ⟨by decide,
    (parsePacket_telemetry_delivered openManager.callbacks
      "A5007192168001100POWER90VERSION1B5".toList
      ["007".toList, "192168001100".toList, "90".toList, "1".toList] (by decide)).1,
    by decide, by decide⟩

theorem splitDots_no_dot {a : Str} (h : '.' ∉ a) : splitDots a = [a] := by
  induction a with
  | nil => rfl
  | cons c a ih =>
    have hc : c ≠ '.' := fun e => h (by simp [e])
    have ha : '.' ∉ a := fun e => h (by simp [e])
    simp only [splitDots, hc, if_false, ih ha]

theorem splitDots_append {a : Str} (h : '.' ∉ a) (b : Str) :
    splitDots (a ++ '.' :: b) = a :: splitDots b := by
  induction a with
  | nil => simp [splitDots]
  | cons c a ih =>
    have hc : c ≠ '.' := fun e => h (by simp [e])
    have ha : '.' ∉ a := fun e => h (by simp [e])
    rw [List.cons_append, splitDots, if_neg hc, ih ha]

theorem group_round_trip {a b c : Char} (ha : a.isDigit = true) (hb : b.isDigit = true)
    (hc : c.isDigit = true) :
    leftPadZeros 3 (decimal (digitsValue [a, b, c])) = [a, b, c] ∧
      '.' ∉ decimal (digitsValue [a, b, c]) := by
  obtain ⟨h1, h2⟩ := decimal_lt_1000 _ (digitsValue_three_lt ha hb hc)
  exact ⟨by rw [h1, zero_pad3_digitsValue ha hb hc], h2⟩

theorem regroup_dottedQuad {ip : Str} (hd : ∀ c ∈ ip, c.isDigit = true) (h : ip.length ≤ 12) :
    regroup (dottedQuad ip) = leftPadZeros 12 ip := by
  have hl : (leftPadZeros 12 ip).length = 12 := by rw [leftPadZeros_length]; omega
  have hq := leftPadZeros_digits 12 hd
  obtain ⟨a0, a1, a2, a3, a4, a5, a6, a7, a8, a9, a10, a11, e⟩ := length_twelve hl
  rw [e] at hq
  have d : ∀ x ∈ [a0, a1, a2, a3, a4, a5, a6, a7, a8, a9, a10, a11], x.isDigit = true := hq
  obtain ⟨p0, n0⟩ := group_round_trip (d a0 (by simp)) (d a1 (by simp)) (d a2 (by simp))
  obtain ⟨p1, n1⟩ := group_round_trip (d a3 (by simp)) (d a4 (by simp)) (d a5 (by simp))
  obtain ⟨p2, n2⟩ := group_round_trip (d a6 (by simp)) (d a7 (by simp)) (d a8 (by simp))
  obtain ⟨p3, n3⟩ := group_round_trip (d a9 (by simp)) (d a10 (by simp)) (d a11 (by simp))
  have hdq : dottedQuad ip =
      decimal (digitsValue [a0, a1, a2]) ++ '.' :: (decimal (digitsValue [a3, a4, a5]) ++ '.' ::
        (decimal (digitsValue [a6, a7, a8]) ++ '.' :: decimal (digitsValue [a9, a10, a11]))) := by
    unfold dottedQuad
    rw [e]
    simp [chunks3, List.intercalate]
  rw [hdq, e, regroup, splitDots_append n0, splitDots_append n1, splitDots_append n2,
    splitDots_no_dot n3]
  simp only [List.map_cons, List.map_nil, p0, p1, p2, p3]
  rfl

/-- C8, as stated, fails: in `A51231234567890123POWER1VERSION1B5` the IP sub-match has thirteen
digits, the decoded IP is `123.456.789.12`, and regrouping it gives `123456789012`, which is
not the captured digit run: its last digit is lost. -/
theorem regroup_thirteen_digits_lost :
    regex_match (trim "A51231234567890123POWER1VERSION1B5".toList) re5
        = some ["123".toList, "1234567890123".toList, "1".toList, "1".toList] ∧
      parsePacket openManager.callbacks "A51231234567890123POWER1VERSION1B5".toList
        = (.PACKET_DEVICE_STATUS, [HandlerCall.mk .PACKET_DEVICE_STATUS
            [.str "123.456.789.12".toList, .int 123, .int 1, .int 1]]) ∧
      regroup "123.456.789.12".toList = "123456789012".toList ∧
      leftPadZeros 12 "1234567890123".toList = "1234567890123".toList ∧
      regroup "123.456.789.12".toList ≠ leftPadZeros 12 "1234567890123".toList := by
  decide

/-- C8, amended. When the trimmed packet matches the type-5 pattern and the IP sub-match has at
most twelve digits, the IP handed to the handler is the dotted form of the digits, and
zero-padding each of its groups to three digits and concatenating them gives back the captured
digits left-padded with `0` to length twelve. -/
theorem regroup_decoded_ip (cb : List PacketType) (packet br ip p v : Str)
    (hm : regex_match (trim packet) re5 = some [br, ip, p, v]) (hip : ip.length ≤ 12) :
    parsePacket cb packet = (.PACKET_DEVICE_STATUS, handlePacket cb .PACKET_DEVICE_STATUS
        [.str (dottedQuad ip), .int (digitsValue br), .int (digitsValue p),
          .int (digitsValue v)]) ∧
      regroup (dottedQuad ip) = leftPadZeros 12 ip ∧
      (leftPadZeros 12 ip).length = 12 := by
  obtain ⟨br', ip', p', v', _, hcaps, _, hipd, _, _⟩ := re5_sound hm
  simp only [List.cons.injEq, and_true] at hcaps
  obtain ⟨rfl, rfl, rfl, rfl⟩ := hcaps
  exact ⟨parsePacket_re5_eq cb hm hip, regroup_dottedQuad hipd.2 hip,
    by rw [leftPadZeros_length]; omega⟩

/-- C8, amended, at `A50071921681100POWER90VERSION1B5`, whose IP sub-match has ten digits:
the decoded IP is `1.921.681.100` and regrouping it gives `001921681100`. -/
theorem regroup_decoded_ip_witness :
    regex_match (trim "A50071921681100POWER90VERSION1B5".toList) re5
        = some ["007".toList, "1921681100".toList, "90".toList, "1".toList] ∧
      "1921681100".toList.length ≤ 12 ∧
      dottedQuad "1921681100".toList = "1.921.681.100".toList ∧
      regroup (dottedQuad "1921681100".toList) = "001921681100".toList :=
  ⟨by decide, by decide, by decide,
    (regroup_decoded_ip openManager.callbacks "A50071921681100POWER90VERSION1B5".toList
      "007".toList "1921681100".toList "90".toList "1".toList (by decide) (by decide)).2.1⟩

/-! ## The WiFi patterns (types 2 and 4) -/

theorem re2_shape : re2 = wifiPattern "A2SSID".toList ['B', '2'] := rfl

theorem re4_shape : re4 = wifiPattern "A4SSID".toList ['B', '4'] := rfl

theorem any_test_of_noLineTerminator {x : Str} (hx : NoLineTerminator x) :
    ∀ c ∈ x, CharClass.any.test c = true := by
  intro c hc
  obtain ⟨h1, h2⟩ := hx c hc
  simp [CharClass.test, h1, h2]

theorem findSome?_range'_first {β : Type} {f : Nat → Option β} {k n : Nat} {r : β}
    (hk : k < n) (hf : f k = some r) (hnone : ∀ j < k, f j = none) :
    (List.range' 0 n).findSome? f = some r := by
  have e1 : List.range' 0 n = List.range' 0 k ++ List.range' k (n - k) := by
    have h := List.range'_append_1 0 k (n - k)
    rw [Nat.zero_add] at h
    rw [h]
    congr 1
    omega
  have e2 : List.range' k (n - k) = k :: List.range' (k + 1) (n - k - 1) := by
    have h : n - k = (n - k - 1) + 1 := by omega
    conv_lhs => rw [h, List.range'_succ]
  have hsplit : List.range' 0 n = List.range' 0 k ++ k :: List.range' (k + 1) (n - k - 1) := by
    rw [e1, e2]
  rw [hsplit, List.findSome?_append]
  have h0 : (List.range' 0 k).findSome? f = none := by
    rw [List.findSome?_eq_none_iff]
    intro j hj
    exact hnone j (by simpa [List.mem_range'_1] using hj)
  rw [h0, List.findSome?_cons, hf]
  rfl

theorem repCounts_lazy_any (rest : Str) :
    repCounts .any 0 none false rest
      = List.range' 0 ((rest.takeWhile CharClass.any.test).length + 1) := by
  simp [repCounts]

theorem takeWhile_append_length {x : Str} (hx : NoLineTerminator x) (b : Str) :
    x.length ≤ ((x ++ b).takeWhile CharClass.any.test).length := by
  rw [List.takeWhile_append_of_pos (any_test_of_noLineTerminator hx)]
  simp

/-- The second group `(.*?)` followed by the closing text and `$`: on `pw ++ closing` the
group takes `pw`. -/
theorem run_lazy_tail (closing pw : Str) (hpw : NoLineTerminator pw) (pos : Nat)
    (c : List Str) :
    run (.gopen :: .rep .any 0 none false :: .gclose :: (closing.map Tok.chr ++ [.eol]))
      ⟨pos, pw ++ closing, [], c⟩ = some (c ++ [pw]) := by
  rw [run_group, repCounts_lazy_any]
  apply findSome?_range'_first (k := pw.length)
  · have := takeWhile_append_length hpw closing; omega
  · have h1 : (pw ++ closing).drop pw.length = closing ++ [] := by
      rw [List.drop_left, List.append_nil]
    have h2 : (pw ++ closing).take pw.length = pw := List.take_left _ _
    rw [h1, h2, run_chrs_append, run_eol_nil, if_pos rfl]
  · intro j hj
    cases hr : run (closing.map Tok.chr ++ [.eol])
        ⟨pos + j, (pw ++ closing).drop j, [], c ++ [(pw ++ closing).take j]⟩ with
    | none => rfl
    | some m =>
      obtain ⟨r, hr1, hr2⟩ := run_chrs_eq_some _ _ _ _ _ _ _ hr
      rw [run_eol_nil] at hr2
      split at hr2
      · rename_i hnil
        have hlen := congrArg List.length hr1
        rw [hnil] at hlen
        simp only [List.length_drop, List.length_append, List.length_nil] at hlen
        omega
      · simp at hr2

/-- An occurrence of `PWD` in `x ++ ['B', d]` lies inside `x`. -/
theorem pwd_occurrence (d : Char) :
    ∀ (x : Str) (k : Nat), "PWD".toList <+: (x ++ ['B', d]).drop k →
      ∃ s p, x = s ++ "PWD".toList ++ p ∧ s.length = k := by
  intro x
  induction x with
  | nil =>
    intro k h
    have h1 := h.length_le
    simp only [List.nil_append, List.length_drop, List.length_cons, List.length_nil] at h1
    have : ("PWD".toList).length = 3 := rfl
    omega
  | cons c x ih =>
    intro k h
    cases k with
    | zero =>
      rw [List.drop_zero] at h
      have e : "PWD".toList = ['P', 'W', 'D'] := rfl
      rw [e, List.cons_append, List.cons_prefix_cons] at h
      obtain ⟨rfl, h⟩ := h
      cases x with
      | nil =>
        rw [List.nil_append, List.cons_prefix_cons] at h
        exact absurd h.1 (by decide)
      | cons c2 x =>
        rw [List.cons_append, List.cons_prefix_cons] at h
        obtain ⟨rfl, h⟩ := h
        cases x with
        | nil =>
          rw [List.nil_append, List.cons_prefix_cons] at h
          exact absurd h.1 (by decide)
        | cons c3 x =>
          rw [List.cons_append, List.cons_prefix_cons] at h
          obtain ⟨rfl, _⟩ := h
          exact ⟨[], x, rfl, rfl⟩
    | succ k =>
      rw [List.cons_append, List.drop_succ_cons] at h
      obtain ⟨s, p, hs, hk⟩ := ih k h
      exact ⟨c :: s, p, by rw [hs]; rfl, by simp [hk]⟩

theorem wifi_unfold (opening closing x : Str) :
    regex_match (opening ++ (x ++ closing)) (wifiPattern opening closing) =
      (List.range' 0 (((x ++ closing).takeWhile CharClass.any.test).length + 1)).findSome?
        (fun k => run ("PWD".toList.map Tok.chr ++
            (.gopen :: .rep .any 0 none false :: .gclose :: (closing.map Tok.chr ++ [.eol])))
          ⟨0 + opening.length + k, (x ++ closing).drop k, [], [] ++ [(x ++ closing).take k]⟩) := by
  unfold regex_match wifiPattern
  rw [run_bol, run_chrs_append, run_group, repCounts_lazy_any]

theorem wifi_cont_some (closing : Str) {x s p : Str} (hx : NoLineTerminator x)
    (hs : x = s ++ "PWD".toList ++ p) (pos : Nat) :
    run ("PWD".toList.map Tok.chr ++
        (.gopen :: .rep .any 0 none false :: .gclose :: (closing.map Tok.chr ++ [.eol])))
      ⟨pos + s.length, (x ++ closing).drop s.length, [], [] ++ [(x ++ closing).take s.length]⟩
      = some [s, p] := by
  have hp : NoLineTerminator p := fun c hc => hx c (by rw [hs]; simp [hc])
  have e : x ++ closing = s ++ ("PWD".toList ++ (p ++ closing)) := by
    rw [hs]; simp only [List.append_assoc]
  rw [e, List.drop_left, List.take_left, run_chrs_append, run_lazy_tail closing p hp]
  rfl

theorem wifi_cont_none (d : Char) {x : Str} {k : Nat}
    (h : ¬ ∃ s p, x = s ++ "PWD".toList ++ p ∧ s.length = k) (pos : Nat) (c : List Str) :
    run ("PWD".toList.map Tok.chr ++
        (.gopen :: .rep .any 0 none false :: .gclose :: (['B', d].map Tok.chr ++ [.eol])))
      ⟨pos, (x ++ ['B', d]).drop k, [], c⟩ = none :=
  run_chrs_not_prefix _ _ _ _ _ _ (fun hpre => h (pwd_occurrence d x k hpre))

theorem no_earlier_occurrence {x s p s' p' : Str} (hs : x = s ++ "PWD".toList ++ p)
    (hfirst : ¬ "PWD".toList <:+: s ++ "PW".toList) (hs' : x = s' ++ "PWD".toList ++ p')
    (hlt : s'.length < s.length) : False := by
  apply hfirst
  have h1 : s' ++ "PWD".toList <+: x := ⟨p', hs'.symm⟩
  have h2 : s ++ "PW".toList <+: x := ⟨'D' :: p, by rw [hs]; simp⟩
  have hlen : (s' ++ "PWD".toList).length ≤ (s ++ "PW".toList).length := by
    simp only [List.length_append]
    have e1 : ("PWD".toList).length = 3 := rfl
    have e2 : ("PW".toList).length = 2 := rfl
    omega
  obtain ⟨t, ht⟩ := List.prefix_of_prefix_length_le h1 h2 hlen
  exact ⟨s', t, ht⟩

/-- The type-2 and type-4 patterns on `opening ++ x ++ ['B', d]`, for `x` without line
terminators: the first group stops at the first `PWD` of `x`. -/
theorem wifi_match_first (opening : Str) (d : Char) {x s p : Str} (hx : NoLineTerminator x)
    (hs : x = s ++ "PWD".toList ++ p) (hfirst : ¬ "PWD".toList <:+: s ++ "PW".toList) :
    regex_match (opening ++ (x ++ ['B', d])) (wifiPattern opening ['B', d]) = some [s, p] := by
  rw [wifi_unfold]
  apply findSome?_range'_first (k := s.length)
  · have h1 := takeWhile_append_length hx ['B', d]
    have h2 : s.length ≤ x.length := by rw [hs]; simp only [List.length_append]; omega
    omega
  · exact wifi_cont_some ['B', d] hx hs _
  · intro j hj
    apply wifi_cont_none
    rintro ⟨s', p', hs', hj'⟩
    exact no_earlier_occurrence hs hfirst hs' (by omega)

theorem wifi_match_isSome (opening : Str) (d : Char) {x : Str} (hx : NoLineTerminator x) :
    (regex_match (opening ++ (x ++ ['B', d])) (wifiPattern opening ['B', d])).isSome = true
      ↔ "PWD".toList <:+: x := by
  rw [wifi_unfold, List.findSome?_isSome_iff]
  constructor
  · rintro ⟨k, _, hk⟩
    by_cases h : ∃ s p, x = s ++ "PWD".toList ++ p ∧ s.length = k
    · obtain ⟨s, p, hs, _⟩ := h
      exact ⟨s, p, hs.symm⟩
    · rw [wifi_cont_none d h] at hk
      simp at hk
  · rintro ⟨s, p, hs⟩
    refine ⟨s.length, ?_, ?_⟩
    · rw [List.mem_range'_1]
      have h1 := takeWhile_append_length hx ['B', d]
      have h2 : s.length ≤ x.length := by rw [← hs]; simp only [List.length_append]; omega
      omega
    · rw [wifi_cont_some ['B', d] hx hs.symm]
      rfl

theorem wifi_match_none (opening : Str) (d : Char) {x : Str} (hx : NoLineTerminator x)
    (h : ¬ "PWD".toList <:+: x) :
    regex_match (opening ++ (x ++ ['B', d])) (wifiPattern opening ['B', d]) = none := by
  have := (wifi_match_isSome opening d hx).not.2 h
  cases hr : regex_match (opening ++ (x ++ ['B', d])) (wifiPattern opening ['B', d]) with
  | none => rfl
  | some m => rw [hr] at this; simp at this

theorem trim_wifi (n : Char) (x : Str) (d : Char) (hd : d ∉ whitespace) :
    trim ('A' :: n :: 'S' :: 'S' :: 'I' :: 'D' :: (x ++ ['B', d]))
      = 'A' :: ((n :: 'S' :: 'S' :: 'I' :: 'D' :: x) ++ ['B', d]) := by
  have e : 'A' :: n :: 'S' :: 'S' :: 'I' :: 'D' :: (x ++ ['B', d])
      = 'A' :: ((n :: 'S' :: 'S' :: 'I' :: 'D' :: (x ++ ['B'])) ++ [d]) := by simp
  rw [e, trim_frame 'A' d _ (by decide) hd]
  simp

/-- C10. Non-greedy WiFi captures: for `x` without line terminators, the frames
`A2SSID ++ x ++ B2` and `A4SSID ++ x ++ B4` match their patterns exactly when `x` contains
`PWD`; the decoded ssid is then what precedes the first `PWD` of `x` and the decoded pwd is
all that follows it, and without `PWD` in `x` the frame is Unknown and no handler is called. -/
theorem parsePacket_wifi_lazy (cb : List PacketType) (x : Str) (hx : NoLineTerminator x) :
    ((regex_match ("A2SSID".toList ++ x ++ "B2".toList) re2).isSome = true
        ↔ "PWD".toList <:+: x) ∧
      ((regex_match ("A4SSID".toList ++ x ++ "B4".toList) re4).isSome = true
        ↔ "PWD".toList <:+: x) ∧
      (∀ s p, x = s ++ "PWD".toList ++ p → ¬ "PWD".toList <:+: s ++ "PW".toList →
        regex_match ("A2SSID".toList ++ x ++ "B2".toList) re2 = some [s, p] ∧
        parsePacket cb ("A2SSID".toList ++ x ++ "B2".toList)
          = (.PACKET_WIFI_SSID_PWD, handlePacket cb .PACKET_WIFI_SETUP [.str s, .str p]) ∧
        regex_match ("A4SSID".toList ++ x ++ "B4".toList) re4 = some [s, p] ∧
        parsePacket cb ("A4SSID".toList ++ x ++ "B4".toList)
          = (.PACKET_WIFI_ERROR, handlePacket cb .PACKET_WIFI_CONFIRM [.str s, .str p])) ∧
      (¬ "PWD".toList <:+: x →
        parsePacket cb ("A2SSID".toList ++ x ++ "B2".toList) = (.PACKET_UNKNOWN, []) ∧
        parsePacket cb ("A4SSID".toList ++ x ++ "B4".toList) = (.PACKET_UNKNOWN, [])) := by
  have e2 : "A2SSID".toList ++ x ++ "B2".toList = "A2SSID".toList ++ (x ++ ['B', '2']) := by
    simp
  have e4 : "A4SSID".toList ++ x ++ "B4".toList = "A4SSID".toList ++ (x ++ ['B', '4']) := by
    simp
  have t2 : trim ("A2SSID".toList ++ (x ++ ['B', '2']))
      = 'A' :: (('2' :: 'S' :: 'S' :: 'I' :: 'D' :: x) ++ ['B', '2']) :=
    trim_wifi '2' x '2' (by decide)
  have t4 : trim ("A4SSID".toList ++ (x ++ ['B', '4']))
      = 'A' :: (('4' :: 'S' :: 'S' :: 'I' :: 'D' :: x) ++ ['B', '4']) :=
    trim_wifi '4' x '4' (by decide)
  have u2 : trim ("A2SSID".toList ++ (x ++ ['B', '2']))
      = "A2SSID".toList ++ (x ++ ['B', '2']) := by rw [t2]; rfl
  have u4 : trim ("A4SSID".toList ++ (x ++ ['B', '4']))
      = "A4SSID".toList ++ (x ++ ['B', '4']) := by rw [t4]; rfl
  rw [e2, e4, re2_shape, re4_shape]
  refine ⟨wifi_match_isSome _ _ hx, wifi_match_isSome _ _ hx, ?_, ?_⟩
  · intro s p hs hfirst
    have m2 := wifi_match_first "A2SSID".toList '2' hx hs hfirst
    have m4 := wifi_match_first "A4SSID".toList '4' hx hs hfirst
    refine ⟨m2, ?_, m4, ?_⟩
    · rw [parsePacket_type2 t2, u2, re2_shape, m2]; rfl
    · rw [parsePacket_type4 t4, u4, re4_shape, m4]; rfl
  · intro hno
    constructor
    · rw [parsePacket_type2 t2, u2, re2_shape, wifi_match_none _ _ hx hno]
    · rw [parsePacket_type4 t4, u4, re4_shape, wifi_match_none _ _ hx hno]

/-- C10 at `x = abPWDcdPWDef`: the ssid is `ab` and the pwd is `cdPWDef`. -/
theorem parsePacket_wifi_lazy_witness :
    NoLineTerminator "abPWDcdPWDef".toList ∧
      parsePacket openManager.callbacks "A2SSIDabPWDcdPWDefB2".toList
        = (.PACKET_WIFI_SSID_PWD, [HandlerCall.mk .PACKET_WIFI_SETUP
            [.str "ab".toList, .str "cdPWDef".toList]]) ∧
      parsePacket openManager.callbacks "A4SSIDabPWDcdPWDefB4".toList
        = (.PACKET_WIFI_ERROR, [HandlerCall.mk .PACKET_WIFI_CONFIRM
            [.str "ab".toList, .str "cdPWDef".toList]]) :=
  have hx : NoLineTerminator "abPWDcdPWDef".toList := by
    unfold NoLineTerminator; decide
  have h := (parsePacket_wifi_lazy openManager.callbacks "abPWDcdPWDef".toList hx).2.2.1
    "ab".toList "cdPWDef".toList rfl (by decide)
  ⟨hx, h.2.1, h.2.2.2⟩

/-! ## Unknown packets -/

theorem run_gopen (p : List Tok) (pos : Nat) (rest : Str) (o c : List Str) :
    run (.gopen :: p) ⟨pos, rest, o, c⟩ = run p ⟨pos, rest, rest :: o, c⟩ := by
  rw [run]

theorem run_gclose (p : List Tok) (pos : Nat) (rest top : Str) (o c : List Str) :
    run (.gclose :: p) ⟨pos, rest, top :: o, c⟩
      = run p ⟨pos, rest, o, c ++ [top.take (top.length - rest.length)]⟩ := by
  rw [run]

theorem re1_sound {t : Str} {m : List Str} (h : regex_match t re1 = some m) :
    t = "A101B1".toList := by
  have e : re1 = .bol :: ("A1".toList.map Tok.chr ++ (.gopen :: ("01".toList.map Tok.chr ++
      (.gclose :: ("B1".toList.map Tok.chr ++ [.eol]))))) := rfl
  unfold regex_match at h
  rw [e, run_bol] at h
  obtain ⟨r1, e1, h⟩ := run_chrs_eq_some _ _ _ _ _ _ _ h
  rw [run_gopen] at h
  obtain ⟨r2, e2, h⟩ := run_chrs_eq_some _ _ _ _ _ _ _ h
  rw [run_gclose] at h
  obtain ⟨r3, e3, h⟩ := run_chrs_eq_some _ _ _ _ _ _ _ h
  rw [run_eol_nil] at h
  split at h
  · rename_i hr3
    rw [e1, e2, e3, hr3]; rfl
  · simp at h

theorem re3_sound {t : Str} {m : List Str} (h : regex_match t re3 = some m) :
    t = "A303B3".toList := by
  have e : re3 = .bol :: ("A303B3".toList.map Tok.chr ++ [.eol]) := rfl
  unfold regex_match at h
  rw [e, run_bol] at h
  obtain ⟨r1, e1, h⟩ := run_chrs_eq_some _ _ _ _ _ _ _ h
  rw [run_eol_nil] at h
  split at h
  · rename_i hr1
    rw [e1, hr1]; rfl
  · simp at h

theorem regex_match_none_of_ne {t target : Str} {re : List Tok}
    (hs : ∀ m, regex_match t re = some m → t = target) (h : t ≠ target) :
    regex_match t re = none := by
  cases hr : regex_match t re with
  | none => rfl
  | some m => exact absurd (hs m hr) h

theorem basicCheck_eq_true {t : Str} :
    basicCheck t = true ↔
      ¬ (t.length < 3 ∨ t[0]? ≠ some 'A' ∨ t[t.length - 2]? ≠ some 'B') := by
  simp only [basicCheck, Bool.and_eq_true, decide_eq_true_eq, beq_iff_eq, not_or, not_lt,
    ne_eq, not_not, and_assoc]

theorem parsePacket_basic_fail {cb : List PacketType} {packet : Str}
    (h : basicCheck (trim packet) = false) : parsePacket cb packet = (.PACKET_UNKNOWN, []) := by
  have hc : (trim packet).length < 3 ∨ (trim packet)[0]? ≠ some 'A' ∨
      (trim packet)[(trim packet).length - 2]? ≠ some 'B' := by
    by_contra hn
    rw [basicCheck_eq_true.2 hn] at h
    exact Bool.noConfusion h
  unfold parsePacket
  simp only [hc, if_true]

theorem parsePacket_dispatch {cb : List PacketType} {packet : Str} {d : Char}
    (hb : basicCheck (trim packet) = true)
    (hl : (trim packet)[(trim packet).length - 1]? = some d) :
    parsePacket cb packet =
      match (some d : Option Char) with
      | some '1' =>
        match regex_match (trim packet) re1 with
        | some _ => (.PACKET_WIFI_SETUP, handlePacket cb .PACKET_WIFI_SETUP [])
        | none => (.PACKET_UNKNOWN, [])
      | some '2' =>
        match regex_match (trim packet) re2 with
        | some m =>
          (.PACKET_WIFI_SSID_PWD,
            handlePacket cb .PACKET_WIFI_SETUP [.str (m.getD 0 []), .str (m.getD 1 [])])
        | none => (.PACKET_UNKNOWN, [])
      | some '3' =>
        match regex_match (trim packet) re3 with
        | some _ => (.PACKET_WIFI_CONFIRM, handlePacket cb .PACKET_WIFI_CONFIRM [])
        | none => (.PACKET_UNKNOWN, [])
      | some '4' =>
        match regex_match (trim packet) re4 with
        | some m =>
          (.PACKET_WIFI_ERROR,
            handlePacket cb .PACKET_WIFI_CONFIRM [.str (m.getD 0 []), .str (m.getD 1 [])])
        | none => (.PACKET_UNKNOWN, [])
      | some '5' =>
        match regex_match (trim packet) re5 with
        | some m => (.PACKET_DEVICE_STATUS, (decodeStatus cb m).2)
        | none => (.PACKET_UNKNOWN, [])
      | some '6' =>
        match regex_match (trim packet) re6 with
        | some _ => (.PACKET_LIGHT_CONTROL, [])
        | none => (.PACKET_UNKNOWN, [])
      | _ => (.PACKET_UNKNOWN, []) := by
  have hc := basicCheck_eq_true.1 hb
  unfold parsePacket
  simp only [hc, if_false, hl]

theorem patternOf_eq_none {c : Char} :
    patternOf c = none ↔ c ∉ ['1', '2', '3', '4', '5', '6'] := by
  unfold patternOf
  simp only [List.mem_cons, List.mem_singleton, List.not_mem_nil, or_false, not_or]
  constructor
  · intro h
    by_cases h1 : c = '1'
    · rw [if_pos h1] at h; exact absurd h (by simp)
    · rw [if_neg h1] at h
      by_cases h2 : c = '2'
      · rw [if_pos h2] at h; exact absurd h (by simp)
      · rw [if_neg h2] at h
        by_cases h3 : c = '3'
        · rw [if_pos h3] at h; exact absurd h (by simp)
        · rw [if_neg h3] at h
          by_cases h4 : c = '4'
          · rw [if_pos h4] at h; exact absurd h (by simp)
          · rw [if_neg h4] at h
            by_cases h5 : c = '5'
            · rw [if_pos h5] at h; exact absurd h (by simp)
            · rw [if_neg h5] at h
              by_cases h6 : c = '6'
              · rw [if_pos h6] at h; exact absurd h (by simp)
              · exact ⟨h1, h2, h3, h4, h5, h6⟩
  · rintro ⟨h1, h2, h3, h4, h5, h6⟩
    simp [h1, h2, h3, h4, h5, h6]

/-- The outcome of the type switch of `parsePacket` when no pattern matches. -/
theorem parsePacket_no_match {cb : List PacketType} {packet : Str} {d : Char}
    (hb : basicCheck (trim packet) = true)
    (hl : (trim packet)[(trim packet).length - 1]? = some d)
    (h : ∀ re, patternOf d = some re → regex_match (trim packet) re = none) :
    parsePacket cb packet = (.PACKET_UNKNOWN, []) := by
  rw [parsePacket_dispatch hb hl]
  split
  · rename_i heq; cases heq; rw [h re1 rfl]
  · rename_i heq; cases heq; rw [h re2 rfl]
  · rename_i heq; cases heq; rw [h re3 rfl]
  · rename_i heq; cases heq; rw [h re4 rfl]
  · rename_i heq; cases heq; rw [h re5 rfl]
  · rename_i heq; cases heq; rw [h re6 rfl]
  · rfl

/-- A packet that `parsePacket` classifies as unknown makes no handler call. -/
theorem parsePacket_unknown_calls (cb : List PacketType) (packet : Str)
    (h : (parsePacket cb packet).1 = .PACKET_UNKNOWN) : (parsePacket cb packet).2 = [] := by
  cases hb : basicCheck (trim packet) with
  | false => rw [parsePacket_basic_fail hb]
  | true =>
    have hlen : (trim packet).length - 1 < (trim packet).length := by
      have := (basicCheck_eq_true.1 hb)
      simp only [not_or, not_lt] at this
      omega
    have hl : (trim packet)[(trim packet).length - 1]?
        = some ((trim packet)[(trim packet).length - 1]) := List.getElem?_eq_getElem hlen
    rw [parsePacket_dispatch hb hl] at h ⊢
    split at h <;> (try split at h) <;> simp_all

theorem parsePacket_unknown_of_last {cb : List PacketType} {packet : Str} {d : Char}
    (hl : (trim packet)[(trim packet).length - 1]? = some d)
    (h : ∀ re, patternOf d = some re → regex_match (trim packet) re = none) :
    parsePacket cb packet = (.PACKET_UNKNOWN, []) := by
  cases hb : basicCheck (trim packet) with
  | false => exact parsePacket_basic_fail hb
  | true => exact parsePacket_no_match hb hl h

/-- C11. Unknown frames have no effect. A packet whose trimmed form fails the basic frame
check, or whose type character is not one of `1` to `6`, or is `1` without the frame being
`A101B1`, or is `3` without the frame being `A303B3`, or whose pattern does not match, is
classified `PACKET_UNKNOWN` with no handler call; and whenever `parsePacket` returns
`PACKET_UNKNOWN` no handler is called and the manager (status and heartbeat counter included)
is left as it was. -/
theorem parsePacket_unknown_no_effect (cb : List PacketType) (packet : Str) :
    (basicCheck (trim packet) = false → parsePacket cb packet = (.PACKET_UNKNOWN, [])) ∧
    (∀ d, (trim packet)[(trim packet).length - 1]? = some d →
      d ∉ ['1', '2', '3', '4', '5', '6'] → parsePacket cb packet = (.PACKET_UNKNOWN, [])) ∧
    ((trim packet)[(trim packet).length - 1]? = some '1' → trim packet ≠ "A101B1".toList →
      parsePacket cb packet = (.PACKET_UNKNOWN, [])) ∧
    ((trim packet)[(trim packet).length - 1]? = some '3' → trim packet ≠ "A303B3".toList →
      parsePacket cb packet = (.PACKET_UNKNOWN, [])) ∧
    (∀ d re, (trim packet)[(trim packet).length - 1]? = some d → patternOf d = some re →
      regex_match (trim packet) re = none → parsePacket cb packet = (.PACKET_UNKNOWN, [])) ∧
    ((parsePacket cb packet).1 = .PACKET_UNKNOWN → (parsePacket cb packet).2 = []) ∧
    (∀ (effect : HandlerCall → SerialPortManager → SerialPortManager)
      (self : SerialPortManager),
      (parsePacketOn effect self packet).2 = .PACKET_UNKNOWN →
        (parsePacketOn effect self packet).1 = self ∧
        (parsePacketOn effect self packet).1.m_status = self.m_status ∧
        (parsePacketOn effect self packet).1.timeout_count = self.timeout_count) := by
  refine ⟨parsePacket_basic_fail, ?_, ?_, ?_, ?_, parsePacket_unknown_calls cb packet, ?_⟩
  · intro d hl hd
    apply parsePacket_unknown_of_last hl
    intro re hre
    rw [patternOf_eq_none.2 hd] at hre
    exact Option.noConfusion hre
  · intro hl hne
    apply parsePacket_unknown_of_last hl
    intro re hre
    have : re = re1 := by
      have h1 : patternOf '1' = some re1 := rfl
      rw [h1] at hre
      exact (Option.some.inj hre).symm
    rw [this]
    exact regex_match_none_of_ne (fun m hm => re1_sound hm) hne
  · intro hl hne
    apply parsePacket_unknown_of_last hl
    intro re hre
    have : re = re3 := by
      have h1 : patternOf '3' = some re3 := rfl
      rw [h1] at hre
      exact (Option.some.inj hre).symm
    rw [this]
    exact regex_match_none_of_ne (fun m hm => re3_sound hm) hne
  · intro d re hl hre hnone
    apply parsePacket_unknown_of_last hl
    intro re' hre'
    rw [hre] at hre'
    rw [← Option.some.inj hre']
    exact hnone
  · intro effect self h
    have hcalls : (parsePacket self.callbacks packet).2 = [] :=
      parsePacket_unknown_calls self.callbacks packet h
    have hself : (parsePacketOn effect self packet).1 = self := by
      simp only [parsePacketOn, hcalls, runHandlers, List.foldl_nil]
    exact ⟨hself, by rw [hself], by rw [hself]⟩

/-- C11 at the frames `A199B9` (type character `9`), `A102B1` (type 1, not `A101B1`) and `AB`
(too short): each is `PACKET_UNKNOWN` without a handler call, and the manager is unchanged even
if a handler would stop the link. -/
theorem parsePacket_unknown_no_effect_witness :
    parsePacket openManager.callbacks "A199B9".toList = (.PACKET_UNKNOWN, []) ∧
    parsePacket openManager.callbacks "A102B1".toList = (.PACKET_UNKNOWN, []) ∧
    parsePacket openManager.callbacks "AB".toList = (.PACKET_UNKNOWN, []) ∧
    (parsePacketOn (fun _ s => (stop s).1) openManager "A199B9".toList).1 = openManager :=
  have h := parsePacket_unknown_no_effect openManager.callbacks "A199B9".toList
  have h1 := parsePacket_unknown_no_effect openManager.callbacks "A102B1".toList
  have h2 := parsePacket_unknown_no_effect openManager.callbacks "AB".toList
  ⟨h.2.1 '9' (by decide) (by decide), h1.2.2.1 (by decide) (by decide), h2.1 (by decide),
    (h.2.2.2.2.2.2 (fun _ s => (stop s).1) openManager (by decide)).1⟩

/-! ## Whitespace trimming -/

theorem find_first_not_of_cons_ws {c : Char} (hc : c ∈ whitespace) (s : Str) :
    find_first_not_of (c :: s) whitespace = (find_first_not_of s whitespace).map (· + 1) := by
  have hp : (!whitespace.contains c) = false := by simp [hc]
  simp only [find_first_not_of, List.findIdx_cons, hp, cond_false, List.length_cons,
    Nat.add_lt_add_iff_right]
  split <;> rfl

theorem find_last_not_of_cons_ws {c : Char} (hc : c ∈ whitespace) (s : Str) :
    find_last_not_of (c :: s) whitespace = (find_last_not_of s whitespace).map (· + 1) := by
  have hp : (!whitespace.contains c) = false := by simp [hc]
  have h1 : List.findIdx (fun c => !whitespace.contains c) [c] = 1 := by
    simp [List.findIdx_cons, hc]
  simp only [find_last_not_of, List.reverse_cons, List.findIdx_append, List.length_reverse,
    List.length_cons, h1]
  by_cases hj : List.findIdx (fun c => !whitespace.contains c) s.reverse < s.length
  · simp only [hj, if_true, Option.map_some']
    rw [if_pos (by omega)]
    congr 1
    omega
  · simp only [hj, if_false, Option.map_none']
    rw [if_neg (by omega)]

theorem trim_cons_ws {c : Char} (hc : c ∈ whitespace) (s : Str) : trim (c :: s) = trim s := by
  unfold trim
  rw [find_first_not_of_cons_ws hc, find_last_not_of_cons_ws hc]
  cases find_first_not_of s whitespace with
  | none => rfl
  | some i =>
    cases find_last_not_of s whitespace with
    | none => rfl
    | some j =>
      simp only [Option.map_some', substr, List.drop_succ_cons]
      congr 1
      omega

theorem find_first_not_of_concat_ws {c : Char} (hc : c ∈ whitespace) (s : Str) :
    find_first_not_of (s ++ [c]) whitespace = find_first_not_of s whitespace := by
  have hp : (!whitespace.contains c) = false := by simp [hc]
  have h1 : List.findIdx (fun c => !whitespace.contains c) [c] = 1 := by
    simp [List.findIdx_cons, hc]
  simp only [find_first_not_of, List.findIdx_append, List.length_append, List.length_cons,
    List.length_nil, h1]
  by_cases hi : List.findIdx (fun c => !whitespace.contains c) s < s.length
  · simp only [hi, if_true]
    rw [if_pos (by omega)]
  · simp only [hi, if_false]
    rw [if_neg (by omega)]

theorem find_last_not_of_concat_ws {c : Char} (hc : c ∈ whitespace) (s : Str) :
    find_last_not_of (s ++ [c]) whitespace = find_last_not_of s whitespace := by
  have hp : (!whitespace.contains c) = false := by simp [hc]
  simp only [find_last_not_of, List.reverse_append, List.reverse_cons, List.reverse_nil,
    List.nil_append, List.singleton_append, List.findIdx_cons, hp, cond_false,
    List.length_append, List.length_cons, List.length_nil, Nat.add_lt_add_iff_right]
  split
  · congr 1
    omega
  · rfl

theorem find_first_not_of_lt {s set : Str} {i : Nat} (h : find_first_not_of s set = some i) :
    i < s.length := by
  simp only [find_first_not_of] at h
  split at h
  · simp only [Option.some.injEq] at h; omega
  · exact Option.noConfusion h

theorem find_last_not_of_lt {s set : Str} {j : Nat} (h : find_last_not_of s set = some j) :
    j < s.length := by
  simp only [find_last_not_of] at h
  split at h
  · simp only [Option.some.injEq] at h; omega
  · exact Option.noConfusion h

theorem trim_concat_ws {c : Char} (hc : c ∈ whitespace) (s : Str) : trim (s ++ [c]) = trim s := by
  unfold trim
  rw [find_first_not_of_concat_ws hc, find_last_not_of_concat_ws hc]
  cases hi : find_first_not_of s whitespace with
  | none => rfl
  | some i =>
    cases hj : find_last_not_of s whitespace with
    | none => rfl
    | some j =>
      have h1 := find_first_not_of_lt hi
      have h2 := find_last_not_of_lt hj
      simp only [substr]
      rw [List.drop_append_of_le_length (by omega), List.take_append_of_le_length]
      simp only [List.length_drop]
      omega

theorem trim_append_ws_left {w : Str} (hw : ∀ c ∈ w, c ∈ whitespace) (s : Str) :
    trim (w ++ s) = trim s := by
  induction w with
  | nil => rfl
  | cons c w ih =>
    rw [List.cons_append, trim_cons_ws (hw c (by simp)), ih (fun x hx => hw x (by simp [hx]))]

theorem trim_append_ws_right (s : Str) :
    ∀ w : Str, (∀ c ∈ w, c ∈ whitespace) → trim (s ++ w) = trim s := by
  intro w
  induction w using List.reverseRecOn with
  | nil => intro _; rw [List.append_nil]
  | append_singleton w c ih =>
    intro hw
    rw [← List.append_assoc, trim_concat_ws (hw c (by simp)),
      ih (fun x hx => hw x (by simp [hx]))]

theorem trim_singleton {a : Char} (ha : a ∉ whitespace) : trim [a] = [a] := by
  have h1 : find_first_not_of [a] whitespace = some 0 := by
    simp [find_first_not_of, List.findIdx_cons, ha]
  have h2 : find_last_not_of [a] whitespace = some 0 := by
    simp [find_last_not_of, List.findIdx_cons, ha]
  simp [trim, h1, h2, substr]

theorem trim_trim_of_head {a : Char} (ha : a ∉ whitespace) :
    ∀ s : Str, trim (trim (a :: s)) = trim (a :: s) := by
  intro s
  induction s using List.reverseRecOn with
  | nil => rw [trim_singleton ha, trim_singleton ha]
  | append_singleton s z ih =>
    by_cases hz : z ∈ whitespace
    · rw [← List.cons_append, trim_concat_ws hz]
      exact ih
    · rw [trim_frame a z s ha hz, trim_frame a z s ha hz]

theorem trim_trim (s : Str) : trim (trim s) = trim s := by
  induction s with
  | nil => rfl
  | cons c s ih =>
    by_cases hc : c ∈ whitespace
    · rw [trim_cons_ws hc]; exact ih
    · exact trim_trim_of_head hc s

theorem parsePacket_congr_trim (cb : List PacketType) {a b : Str} (h : trim a = trim b) :
    parsePacket cb a = parsePacket cb b := by
  unfold parsePacket
  rw [h]

/-- C12. Whitespace trim before match: for strings `w1` and `w2` made of space, tab, carriage
return and line feed only, `parsePacket` gives for `w1 ++ s ++ w2` the same type and the same
handler calls as for `trim s`, and also as for `s`. -/
theorem parsePacket_trim (cb : List PacketType) (s w1 w2 : Str)
    (h1 : ∀ c ∈ w1, c ∈ whitespace) (h2 : ∀ c ∈ w2, c ∈ whitespace) :
    trim (w1 ++ s ++ w2) = trim s ∧
    parsePacket cb (w1 ++ s ++ w2) = parsePacket cb (trim s) ∧
    parsePacket cb (w1 ++ s ++ w2) = parsePacket cb s := by
  have ht : trim (w1 ++ s ++ w2) = trim s := by
    rw [trim_append_ws_right _ w2 h2, trim_append_ws_left h1]
  exact ⟨ht, parsePacket_congr_trim cb (by rw [ht, trim_trim]), parsePacket_congr_trim cb ht⟩

/-- C12 at the packet made of a space, `A303B3`, a carriage return and a line feed: it decodes
to the WiFi confirmation, as `A303B3` does. -/
theorem parsePacket_trim_witness :
    (∀ c ∈ [' '], c ∈ whitespace) ∧ (∀ c ∈ ['\r', '\n'], c ∈ whitespace) ∧
    parsePacket openManager.callbacks ([' '] ++ "A303B3".toList ++ ['\r', '\n'])
      = parsePacket openManager.callbacks (trim "A303B3".toList) ∧
    parsePacket openManager.callbacks ([' '] ++ "A303B3".toList ++ ['\r', '\n'])
      = (.PACKET_WIFI_CONFIRM, [HandlerCall.mk .PACKET_WIFI_CONFIRM []]) :=
  ⟨by decide, by decide,
    (parsePacket_trim openManager.callbacks "A303B3".toList [' '] ['\r', '\n']
      (by decide) (by decide)).2.1,
    by decide⟩

/-! ## Connection manager -/

theorem stop_timeout_count (self : SerialPortManager) :
    (stop self).1.timeout_count = self.timeout_count := by
  obtain ⟨st, tc, sp, cb, raw, po, hb, cp⟩ := self
  cases st <;> cases sp <;> cases po <;> rfl

theorem stop_status (self : SerialPortManager) : (stop self).1.m_status = .CLOSED := by
  obtain ⟨st, tc, sp, cb, raw, po, hb, cp⟩ := self
  cases st <;> cases sp <;> cases po <;> rfl

theorem stop_closed {self : SerialPortManager} (h : self.m_status = .CLOSED) :
    stop self = (self, []) := by
  unfold stop
  rw [if_pos h]

theorem init_status (self : SerialPortManager) (env : InitEnv) :
    (init self env).1.m_status = if env.openOk then .OPENED else .FAILED := by
  obtain ⟨st, tc, sp, cb, raw, po, hb, cp⟩ := self
  obtain ⟨pn, ok⟩ := env
  cases ok <;> cases pn <;> rcases hb with _ | _ | _ <;> rfl

theorem init_timeout_count (self : SerialPortManager) (env : InitEnv) :
    (init self env).1.timeout_count = self.timeout_count := by
  obtain ⟨st, tc, sp, cb, raw, po, hb, cp⟩ := self
  obtain ⟨pn, ok⟩ := env
  cases ok <;> cases pn <;> rcases hb with _ | _ | _ <;> rfl

theorem init_timer (self : SerialPortManager) (env : InitEnv) :
    (init self env).1.heartBeatTimer = some true := by
  obtain ⟨st, tc, sp, cb, raw, po, hb, cp⟩ := self
  obtain ⟨pn, ok⟩ := env
  cases ok <;> cases pn <;> rcases hb with _ | _ | _ <;> rfl

theorem init_ops (self : SerialPortManager) (env : InitEnv) :
    ∃ tail, (init self env).2 = [TransportOp.create, .configure, .lowerLines,
      .setPortName (if env.portName = [] then COM_PORT else env.portName),
      .open env.openOk] ++ tail := by
  obtain ⟨st, tc, sp, cb, raw, po, hb, cp⟩ := self
  obtain ⟨pn, ok⟩ := env
  cases ok <;> cases pn <;> rcases hb with _ | _ | _ <;>
    first | exact ⟨[], rfl⟩ | exact ⟨[.startTimer], rfl⟩

theorem heartBeatTimeout_quiet {self : SerialPortManager} (env : InitEnv)
    (h : self.timeout_count ≤ 100) :
    heartBeatTimeout self env = ({ self with timeout_count := self.timeout_count + 1 }, []) := by
  unfold heartBeatTimeout
  simp only [gt_iff_lt]
  rw [if_neg (by omega)]

theorem heartBeatTimeout_fire {self : SerialPortManager} (env : InitEnv)
    (h : 100 < self.timeout_count) :
    heartBeatTimeout self env =
      ((init (stop { self with timeout_count := 0 }).1 env).1,
        [.stop (stop { self with timeout_count := 0 }).2,
          .init (init (stop { self with timeout_count := 0 }).1 env).2]) := by
  unfold heartBeatTimeout
  simp only [gt_iff_lt]
  rw [if_pos h]

theorem heartBeatTimeout_fire_count {self : SerialPortManager} (env : InitEnv)
    (h : 100 < self.timeout_count) : (heartBeatTimeout self env).1.timeout_count = 0 := by
  rw [heartBeatTimeout_fire env h, init_timeout_count, stop_timeout_count]

theorem heartBeatTimeout_steps (self : SerialPortManager) (env : InitEnv) :
    (heartBeatTimeout self env).2 ≠ [] → 100 < self.timeout_count := by
  intro h
  by_contra hn
  rw [heartBeatTimeout_quiet env (by omega)] at h
  exact h rfl

theorem ticks_quiet :
    ∀ (envs : List InitEnv) (self : SerialPortManager),
      self.timeout_count + envs.length ≤ 101 →
        ticks envs self = ({ self with timeout_count := self.timeout_count + envs.length },
          List.replicate envs.length []) := by
  intro envs
  induction envs with
  | nil => intro self _; simp [ticks]
  | cons env envs ih =>
    intro self h
    simp only [List.length_cons, Nat.cast_add, Nat.cast_one] at h
    have hq := @heartBeatTimeout_quiet self env (by omega)
    rw [ticks, hq]
    simp only
    rw [ih _ (by simp only; omega)]
    simp only [List.length_cons, List.replicate_succ, Nat.cast_add, Nat.cast_one]
    congr 2
    omega

theorem ticks_append (xs ys : List InitEnv) :
    ∀ self : SerialPortManager,
      ticks (xs ++ ys) self = ((ticks ys (ticks xs self).1).1,
        (ticks xs self).2 ++ (ticks ys (ticks xs self).1).2) := by
  induction xs with
  | nil => intro self; simp [ticks]
  | cons x xs ih =>
    intro self
    rw [List.cons_append, ticks, ih]
    rfl

/-! ## Heartbeat -/

/-- C13, as stated, fails: from a counter of 0, 101 heartbeat ticks without read activity make
no step at all, so `stop()` and `init()` are not triggered on the 101st tick; the first
trigger is on the 102nd. -/
theorem heartbeat_silent_for_101_ticks :
    openManager.timeout_count = 0 ∧
    (ticks (List.replicate 101 { portName := [], openOk := true }) openManager).2
      = List.replicate 101 [] ∧
    ((ticks (List.replicate 102 { portName := [], openOk := true }) openManager).2.drop 101).map
      (fun steps => steps.map Step.isInit) = [[false, true]] := by
  decide

/-- C13, amended. From a counter of 0 and without read activity, whatever the host answers,
the first 101 heartbeat ticks trigger nothing and the 102nd tick triggers `stop()` followed by
`init()`, once; the counter is 0 afterwards. -/
theorem heartbeat_fires_on_tick_102 (self : SerialPortManager) (envs : List InitEnv)
    (env : InitEnv) (h0 : self.timeout_count = 0) (hlen : envs.length = 101) :
    (ticks envs self).2 = List.replicate 101 [] ∧
    (∃ o1 o2, (ticks (envs ++ [env]) self).2
      = List.replicate 101 [] ++ [[Step.stop o1, Step.init o2]]) ∧
    (ticks (envs ++ [env]) self).1.timeout_count = 0 := by
  have hq := ticks_quiet envs self (by rw [h0, hlen]; decide)
  have h101 : 100 < (ticks envs self).1.timeout_count := by
    rw [hq, h0, hlen]; simp only; omega
  have hfire := heartBeatTimeout_fire env h101
  have hlast : ticks [env] (ticks envs self).1
      = ((heartBeatTimeout (ticks envs self).1 env).1,
          [(heartBeatTimeout (ticks envs self).1 env).2]) := rfl
  have h2 : (ticks envs self).2 = List.replicate 101 [] := by rw [hq, hlen]
  refine ⟨h2, ?_, ?_⟩
  · refine ⟨(stop { (ticks envs self).1 with timeout_count := 0 }).2,
      (init (stop { (ticks envs self).1 with timeout_count := 0 }).1 env).2, ?_⟩
    rw [ticks_append, hlast, hfire, h2]
  · rw [ticks_append, hlast]
    exact heartBeatTimeout_fire_count env h101

/-- C13, amended, for a manager with an open port and a device that stays reachable. -/
theorem heartbeat_fires_on_tick_102_witness :
    openManager.timeout_count = 0 ∧
    (List.replicate 101 ({ portName := [], openOk := true } : InitEnv)).length = 101 ∧
    (ticks (List.replicate 101 { portName := [], openOk := true } ++
      [{ portName := "COM3".toList, openOk := true }]) openManager).1.timeout_count = 0 :=
  ⟨rfl, by decide,
    (heartbeat_fires_on_tick_102 openManager
      (List.replicate 101 { portName := [], openOk := true })
      { portName := "COM3".toList, openOk := true } rfl (by decide)).2.2⟩

/-- C14. No reinit storms: a heartbeat tick that triggers anything triggers exactly `stop()`
followed by `init()`, once, and leaves the counter at 0; without read activity none of the
following 100 ticks triggers again (nor does the 101st), in particular not the next one. -/
theorem heartbeat_no_storm (self : SerialPortManager) (env : InitEnv)
    (h : (heartBeatTimeout self env).2 ≠ []) :
    (heartBeatTimeout self env).1.timeout_count = 0 ∧
    (∃ o1 o2, (heartBeatTimeout self env).2 = [Step.stop o1, Step.init o2]) ∧
    (∀ envs : List InitEnv, envs.length ≤ 100 →
      (ticks envs (heartBeatTimeout self env).1).2 = List.replicate envs.length []) ∧
    (∀ envs : List InitEnv, envs.length ≤ 101 →
      (ticks envs (heartBeatTimeout self env).1).2 = List.replicate envs.length []) ∧
    (∀ env' : InitEnv, (heartBeatTimeout (heartBeatTimeout self env).1 env').2 = []) := by
  have hgt := heartBeatTimeout_steps self env h
  have hc := heartBeatTimeout_fire_count env hgt
  have hquiet : ∀ envs : List InitEnv, envs.length ≤ 101 →
      (ticks envs (heartBeatTimeout self env).1).2 = List.replicate envs.length [] := by
    intro envs hl
    rw [ticks_quiet envs _ (by rw [hc]; omega)]
  refine ⟨hc, ⟨(stop { self with timeout_count := 0 }).2,
    (init (stop { self with timeout_count := 0 }).1 env).2,
    by rw [heartBeatTimeout_fire env hgt]⟩, ?_, hquiet, ?_⟩
  · intro envs hl
    exact hquiet envs (by omega)
  · intro env'
    rw [heartBeatTimeout_quiet env' (by rw [hc]; decide)]

/-- C14 for a manager whose counter has reached 101. -/
theorem heartbeat_no_storm_witness :
    (heartBeatTimeout { openManager with timeout_count := 101 }
      { portName := [], openOk := false }).2 ≠ [] ∧
    (heartBeatTimeout { openManager with timeout_count := 101 }
      { portName := [], openOk := false }).1.timeout_count = 0 :=
  ⟨by decide,
    (heartbeat_no_storm { openManager with timeout_count := 101 }
      { portName := [], openOk := false } (by decide)).1⟩

/-! ## Data arrival, `stop`, `init` and the state machine -/

theorem runHandlers_append (e : HandlerCall → SerialPortManager → SerialPortManager)
    (a b : List HandlerCall) (s : SerialPortManager) :
    runHandlers e (a ++ b) s = runHandlers e b (runHandlers e a s) :=
  List.foldl_append _ _ _ _

theorem runHandlers_callbacks {e : HandlerCall → SerialPortManager → SerialPortManager}
    (hcb : ∀ c s, (e c s).callbacks = s.callbacks) :
    ∀ (calls : List HandlerCall) (s : SerialPortManager),
      (runHandlers e calls s).callbacks = s.callbacks := by
  intro calls
  induction calls with
  | nil => intro s; rfl
  | cons c calls ih =>
    intro s
    have h : runHandlers e (c :: calls) s = runHandlers e calls (e c s) := rfl
    rw [h, ih, hcb]

theorem handlerCalls_cons (d : Decoded) (ds : List Decoded) :
    handlerCalls (d :: ds) = d.calls ++ handlerCalls ds := rfl

theorem processLoopOn_succ (h : Handlers) (f : Nat) (self : SerialPortManager) (buf : Str) :
    processLoopOn h (f + 1) self buf =
      match find buf 'A' 0 with
      | none => some (self, [], [])
      | some startPos =>
        match find (buf.drop startPos) 'B' 1 with
        | none => some (self, [], buf.drop startPos)
        | some endPos =>
          if endPos + 1 ≥ (buf.drop startPos).length then some (self, [], buf.drop startPos)
          else (processLoopOn h f
              (parsePacketOn h.onPacket self ((buf.drop startPos).take (endPos + 2))).1
              ((buf.drop startPos).drop (endPos + 2))).map
            (fun r => (r.1,
              decodedOf self.callbacks ((buf.drop startPos).take (endPos + 2)) :: r.2.1,
              r.2.2)) := by
  rw [processLoopOn]
  cases hA : find buf 'A' 0 with
  | none => rfl
  | some startPos =>
    simp only [drop_if_pos]
    cases hB : find (buf.drop startPos) 'B' 1 with
    | none => rfl
    | some endPos =>
      simp only [substrFrom, substr, List.drop_zero]
      split
      · rfl
      · cases processLoopOn h f
            (parsePacketOn h.onPacket self (List.take (endPos + 2) (List.drop startPos buf))).1
            (List.drop (endPos + 2) (List.drop startPos buf)) with
        | none => rfl
        | some r => rfl

/-- The loop on a manager returns when the fuel exceeds the length of the buffer, and the
manager it returns is the one that the handler calls of the decoded frames, run in order,
leave. -/
theorem processLoopOn_state (h : Handlers) :
    ∀ (f : Nat) (self : SerialPortManager) (buf : Str), buf.length < f →
      ∃ r, processLoopOn h f self buf = some r ∧
        r.1 = runHandlers h.onPacket (handlerCalls r.2.1) self := by
  intro f
  induction f with
  | zero => intro self buf hlt; omega
  | succ f ih =>
    intro self buf hlt
    cases hA : find buf 'A' 0 with
    | none =>
      rw [processLoopOn_succ, hA]
      exact ⟨_, rfl, rfl⟩
    | some startPos =>
      cases hB : find (buf.drop startPos) 'B' 1 with
      | none =>
        rw [processLoopOn_succ, hA]
        simp only [hB]
        exact ⟨_, rfl, rfl⟩
      | some endPos =>
        by_cases hl : endPos + 1 ≥ (buf.drop startPos).length
        · rw [processLoopOn_succ, hA]
          simp only [hB, if_pos hl]
          exact ⟨_, rfl, rfl⟩
        · have hshort : ((buf.drop startPos).drop (endPos + 2)).length < f := by
            simp only [List.length_drop] at hl ⊢; omega
          obtain ⟨r, hr, hst⟩ := ih
            (parsePacketOn h.onPacket self ((buf.drop startPos).take (endPos + 2))).1
            ((buf.drop startPos).drop (endPos + 2)) hshort
          rw [processLoopOn_succ, hA]
          simp only [hB, if_neg hl, hr, Option.map_some']
          refine ⟨_, rfl, ?_⟩
          simp only
          rw [hst, handlerCalls_cons, runHandlers_append]
          rfl

/-- With handlers that leave the handler map alone, the loop on a manager decodes what the
loop on the handler keys decodes. -/
theorem processLoopOn_eq (h : Handlers)
    (hcb : ∀ c s, (h.onPacket c s).callbacks = s.callbacks) :
    ∀ (f : Nat) (self : SerialPortManager) (buf : Str),
      processLoopOn h f self buf = (processLoop self.callbacks f buf).map
        (fun r => (runHandlers h.onPacket (handlerCalls r.1) self, r.1, r.2)) := by
  intro f
  induction f with
  | zero => intro self buf; rfl
  | succ f ih =>
    intro self buf
    cases hA : find buf 'A' 0 with
    | none =>
      rw [processLoopOn_succ, hA, processLoop_noA hA]
      rfl
    | some startPos =>
      cases hB : find (buf.drop startPos) 'B' 1 with
      | none =>
        rw [processLoopOn_succ, hA, processLoop_noB hA hB]
        simp only [hB]
        rfl
      | some endPos =>
        by_cases hl : endPos + 1 ≥ (buf.drop startPos).length
        · rw [processLoopOn_succ, hA, processLoop_short hA hB hl]
          simp only [hB, if_pos hl]
          rfl
        · have hcb' : (parsePacketOn h.onPacket self
              ((buf.drop startPos).take (endPos + 2))).1.callbacks = self.callbacks :=
            runHandlers_callbacks hcb _ _
          rw [processLoopOn_succ, hA, processLoop_frame hA hB hl]
          simp only [hB, if_neg hl]
          rw [ih, hcb']
          cases processLoop self.callbacks f ((buf.drop startPos).drop (endPos + 2)) with
          | none => rfl
          | some r =>
            simp only [Option.map_some', handlerCalls_cons, runHandlers_append]
            rfl

theorem stop_stop (s : SerialPortManager) : (stop (stop s).1).1 = (stop s).1 := by
  rw [stop_closed (stop_status s)]

theorem stop_callbacks (s : SerialPortManager) : (stop s).1.callbacks = s.callbacks := by
  obtain ⟨st, tc, sp, cb, raw, po, hb, cp⟩ := s
  cases st <;> cases sp <;> cases po <;> rfl

/-- The packet handler of the window stops the link on a device-status call with a version
other than 1 and does nothing on any other call. -/
theorem windowHandlers_onPacket (c : HandlerCall) (s : SerialPortManager) :
    windowHandlers.onPacket c s = if wrongVersion c = true then (stop s).1 else s := by
  obtain ⟨t, ps⟩ := c
  unfold windowHandlers wrongVersion deviceStatusCallback
  simp only
  split <;> split <;> simp_all

theorem windowHandlers_callbacks (c : HandlerCall) (s : SerialPortManager) :
    (windowHandlers.onPacket c s).callbacks = s.callbacks := by
  rw [windowHandlers_onPacket]
  split
  · exact stop_callbacks s
  · rfl

theorem runHandlers_window :
    ∀ (calls : List HandlerCall) (s : SerialPortManager),
      runHandlers windowHandlers.onPacket calls s
        = if calls.any wrongVersion = true then (stop s).1 else s := by
  intro calls
  induction calls with
  | nil => intro s; rfl
  | cons c calls ih =>
    intro s
    have h : runHandlers windowHandlers.onPacket (c :: calls) s
        = runHandlers windowHandlers.onPacket calls (windowHandlers.onPacket c s) := rfl
    rw [h, ih, windowHandlers_onPacket, List.any_cons]
    cases hc : wrongVersion c <;> cases ha : calls.any wrongVersion <;>
      simp [stop_stop]

theorem isEmpty_eq_false_of_ne_nil {data : Str} (hd : data ≠ []) : data.isEmpty = false := by
  cases data with
  | nil => exact absurd rfl hd
  | cons c cs => rfl

/-- The slot on a non-empty read: the loop runs on the manager that the two assignments and
the raw-data observer leave. -/
theorem onReadyRead_nonempty (h : Handlers) {self : SerialPortManager} {data : Str}
    (hp : self.serialPort = true) (hd : data ≠ []) :
    ∃ r, processReceivedDataOn h
        (if self.rawDataCallback = true then h.onRawData data (dataArrived self)
          else dataArrived self) data = some r ∧
      onReadyRead h self data
        = (r.1, { raw := if self.rawDataCallback = true then [data] else [],
                  decoded := r.2.1, forwarded := [data] }) ∧
      r.1 = runHandlers h.onPacket (handlerCalls r.2.1)
        (if self.rawDataCallback = true then h.onRawData data (dataArrived self)
          else dataArrived self) := by
  obtain ⟨st, tc, sp, cb, raw, po, hb, cp⟩ := self
  simp only at hp
  subst hp
  obtain ⟨r, hr, hst⟩ := processLoopOn_state h (data.length + 1)
    (if raw = true then h.onRawData data (dataArrived ⟨st, tc, true, cb, raw, po, hb, cp⟩)
      else dataArrived ⟨st, tc, true, cb, raw, po, hb, cp⟩) data (Nat.lt_succ_self _)
  refine ⟨r, hr, ?_, hst⟩
  have he := isEmpty_eq_false_of_ne_nil hd
  unfold onReadyRead
  simp only [he, Bool.not_true, Bool.not_false, Bool.false_eq_true, if_false, if_true]
  unfold processReceivedDataOn
  unfold dataArrived at hr
  simp only at hr
  rw [hr]

theorem onReadyRead_empty (h : Handlers) (self : SerialPortManager) :
    (onReadyRead h self []).1.m_status = .FAILED ∧
    (onReadyRead h self []).2 = { raw := [], decoded := [], forwarded := [] } := by
  unfold onReadyRead
  cases self.serialPort <;> exact ⟨rfl, rfl⟩

theorem any_handlerCalls (ds : List Decoded) :
    (handlerCalls ds).any wrongVersion = ds.any (fun d => d.calls.any wrongVersion) := by
  induction ds with
  | nil => rfl
  | cons d ds ih => rw [handlerCalls_cons, List.any_append, ih, List.any_cons]

/-- The slot on a non-empty read with the handlers of the window: the frames decoded are
those of `processReceivedData`, and the manager is stopped when one of them is a device
status with a version other than 1. -/
theorem onReadyRead_window {self : SerialPortManager} {data : Str}
    (hp : self.serialPort = true) (hd : data ≠ []) :
    ∃ r, processReceivedData self.callbacks data = some r ∧
      onReadyRead windowHandlers self data
        = (if r.1.any (fun d => d.calls.any wrongVersion) = true
            then (stop (dataArrived self)).1 else dataArrived self,
           { raw := if self.rawDataCallback = true then [data] else [],
             decoded := r.1, forwarded := [data] }) := by
  obtain ⟨r, hr⟩ := processReceivedData_total self.callbacks data
  refine ⟨r, hr, ?_⟩
  obtain ⟨q, hq, hread, _⟩ := onReadyRead_nonempty windowHandlers hp hd
  have hraw : (if self.rawDataCallback = true then
      windowHandlers.onRawData data (dataArrived self) else dataArrived self)
      = dataArrived self := by
    split <;> rfl
  rw [hraw] at hq
  unfold processReceivedDataOn at hq
  rw [processLoopOn_eq windowHandlers windowHandlers_callbacks] at hq
  have hcb : (dataArrived self).callbacks = self.callbacks := rfl
  unfold processReceivedData at hr
  rw [hcb, hr] at hq
  simp only [Option.map_some', Option.some.injEq] at hq
  rw [hread, ← hq, runHandlers_window, any_handlerCalls]

/-- C16. `stop()` in state `CLOSED` changes nothing and makes no transport operation; in any
other state it ends in `CLOSED`; a second `stop()` changes nothing more, so `stop()` is
idempotent. -/
theorem stop_idempotent (self : SerialPortManager) :
    (self.m_status = .CLOSED → stop self = (self, [])) ∧
    (self.m_status = .OPENED ∨ self.m_status = .FAILED → (stop self).1.m_status = .CLOSED) ∧
    stop (stop self).1 = ((stop self).1, []) ∧
    (stop (stop self).1).1 = (stop self).1 := by
  have h2 : stop (stop self).1 = ((stop self).1, []) := stop_closed (stop_status self)
  exact ⟨stop_closed, fun _ => stop_status self, h2, by rw [h2]⟩

/-- C16 at the newly constructed manager (state `CLOSED`) and at a manager with an open port. -/
theorem stop_idempotent_witness :
    SerialPortManager.new.m_status = .CLOSED ∧
    stop SerialPortManager.new = (SerialPortManager.new, []) ∧
    (stop openManager).1.m_status = .CLOSED ∧
    (stop openManager).2 = [.lowerLines, .settle, .close, .destroy] :=
  ⟨rfl, (stop_idempotent SerialPortManager.new).1 rfl,
    (stop_idempotent openManager).2.1 (Or.inl rfl), by decide⟩

/-- C17. `init()`: from any state and whatever discovery returns, the status afterwards is
`OPENED` when the transport open succeeds and `FAILED` when it does not, never `CLOSED`; the
port opened is the discovered one, or `COM_PORT` when discovery finds none; and the heartbeat
timer is active afterwards. -/
theorem init_ends_opened_or_failed (self : SerialPortManager) (env : InitEnv) :
    (env.openOk = true → (init self env).1.m_status = .OPENED) ∧
    (env.openOk = false → (init self env).1.m_status = .FAILED) ∧
    (init self env).1.m_status ≠ .CLOSED ∧
    (init self env).1.heartBeatTimer = some true ∧
    (∃ tail, (init self env).2 = [TransportOp.create, .configure, .lowerLines,
      .setPortName (if env.portName = [] then COM_PORT else env.portName),
      .open env.openOk] ++ tail) := by
  have hs := init_status self env
  refine ⟨?_, ?_, ?_, init_timer self env, init_ops self env⟩
  · intro h; rw [hs, h]; rfl
  · intro h; rw [hs, h]; rfl
  · rw [hs]; cases env.openOk <;> simp

/-- C17 at the newly constructed manager when no device is found and the default port cannot
be opened: the status is `FAILED` and the heartbeat timer runs. -/
theorem init_ends_opened_or_failed_witness :
    (init SerialPortManager.new { portName := [], openOk := false }).1.m_status = .FAILED ∧
    (init SerialPortManager.new { portName := [], openOk := false }).1.heartBeatTimer
      = some true ∧
    (init SerialPortManager.new { portName := [], openOk := false }).2
      = [.create, .configure, .lowerLines, .setPortName "COM111".toList, .open false,
          .startTimer] :=
  ⟨(init_ends_opened_or_failed SerialPortManager.new { portName := [], openOk := false }).2.1
      rfl,
    (init_ends_opened_or_failed SerialPortManager.new
      { portName := [], openOk := false }).2.2.2.1,
    by decide⟩

/-- C18, as stated, fails: the newly constructed manager is `CLOSED`, and `init()` with a
transport open that fails takes it to `FAILED`, a change from `CLOSED` to `FAILED` that is not
among the listed transitions under any cause; `init()` with a failing open also takes an
`OPENED` manager to `FAILED`; and from the state `FAILED` with the port still open, which an
empty read leaves, a read with data and an acknowledged write each lead to `OPENED` without a
transport open. -/
theorem init_closed_to_failed :
    SerialPortManager.new.m_status = .CLOSED ∧
    (init SerialPortManager.new { portName := [], openOk := false }).1.m_status = .FAILED ∧
    ([Cause.openSucceeded, .openFailed, .writeAcked, .writeTimeout, .readData, .readEmpty,
      .explicitStop].all (fun c => !listedTransition .CLOSED c .FAILED)) = true ∧
    openManager.m_status = .OPENED ∧
    (init openManager { portName := [], openOk := false }).1.m_status = .FAILED ∧
    listedTransition .OPENED .openFailed .FAILED = false ∧
    (onReadyRead windowHandlers openManager []).1.m_status = .FAILED ∧
    (onReadyRead windowHandlers openManager []).1.portOpen = true ∧
    (onReadyRead windowHandlers (onReadyRead windowHandlers openManager []).1
      "A303B3".toList).1.m_status = .OPENED ∧
    listedTransition .FAILED .readData .OPENED = false ∧
    (write_data (onReadyRead windowHandlers openManager []).1 "A101B1".toList true).1.m_status
      = .OPENED ∧
    listedTransition .FAILED .writeAcked .OPENED = false := by
  decide

theorem write_data_status (self : SerialPortManager) (data : Str) (acked : Bool) :
    (write_data self data acked).1.m_status = self.m_status ∨
      (self.portOpen = true ∧
        (write_data self data acked).1.m_status = (if acked then .OPENED else .FAILED)) := by
  obtain ⟨st, tc, sp, cb, raw, po, hb, cp⟩ := self
  cases sp <;> cases po <;> cases acked <;>
    first | exact Or.inl rfl | exact Or.inr ⟨rfl, rfl⟩

theorem portInvariant_init (self : SerialPortManager) (env : InitEnv) :
    portInvariant (init self env).1 := by
  obtain ⟨st, tc, sp, cb, raw, po, hb, cp⟩ := self
  obtain ⟨pn, ok⟩ := env
  cases ok <;> cases pn <;> rcases hb with _ | _ | _ <;>
    exact ⟨rfl, fun h => by cases h⟩

theorem portInvariant_stop {self : SerialPortManager} (h : portInvariant self) :
    portInvariant (stop self).1 := by
  obtain ⟨st, tc, sp, cb, raw, po, hb, cp⟩ := self
  obtain ⟨h1, h2⟩ := h
  simp only at h1 h2
  subst h1
  cases st <;> cases po <;> first
    | exact ⟨rfl, fun _ => rfl⟩
    | exact ⟨rfl, fun _ => h2 rfl⟩

theorem portInvariant_write_data {self : SerialPortManager} (h : portInvariant self)
    (data : Str) (acked : Bool) : portInvariant (write_data self data acked).1 := by
  obtain ⟨st, tc, sp, cb, raw, po, hb, cp⟩ := self
  obtain ⟨h1, h2⟩ := h
  simp only at h1 h2
  subst h1
  cases po <;> cases acked <;> first
    | exact ⟨rfl, h2⟩
    | exact ⟨rfl, fun h => by cases h⟩

theorem onReadyRead_empty_state (h : Handlers) {self : SerialPortManager}
    (hp : self.serialPort = true) :
    (onReadyRead h self []).1 = { self with timeout_count := 0, m_status := .FAILED } := by
  unfold onReadyRead
  simp [hp]

theorem portInvariant_onReadyRead {self : SerialPortManager} (h : portInvariant self)
    (data : Str) : portInvariant (onReadyRead windowHandlers self data).1 := by
  by_cases hd : data = []
  · subst hd
    rw [onReadyRead_empty_state windowHandlers h.1]
    exact ⟨h.1, fun hc => by cases hc⟩
  · obtain ⟨r, _, hread⟩ := onReadyRead_window h.1 hd
    have harr : portInvariant (dataArrived self) := ⟨h.1, fun hc => by cases hc⟩
    rw [hread]
    simp only
    split
    · exact portInvariant_stop harr
    · exact harr

theorem portInvariant_heartBeatTimeout {self : SerialPortManager} (h : portInvariant self)
    (env : InitEnv) : portInvariant (heartBeatTimeout self env).1 := by
  by_cases hq : self.timeout_count ≤ 100
  · rw [heartBeatTimeout_quiet env hq]
    exact h
  · rw [heartBeatTimeout_fire env (by omega)]
    exact portInvariant_init _ _

/-- The state after a readiness event on an open port with the handlers of the window: the
read changes it along a transition of the code, and the handler's `stop()`, if it runs, along
another. -/
theorem onReadyRead_transitions {self : SerialPortManager} (hinv : portInvariant self)
    (hopen : self.portOpen = true) (data : Str) :
    ∃ mid, (mid = self.m_status ∨
        codeTransition self.m_status (if data.isEmpty then .readEmpty else .readData) mid
          = true) ∧
      ((onReadyRead windowHandlers self data).1.m_status = mid ∨
        codeTransition mid .explicitStop (onReadyRead windowHandlers self data).1.m_status
          = true) := by
  have hnc : self.m_status ≠ .CLOSED := by
    intro hc
    have := hinv.2 hc
    rw [hopen] at this
    cases this
  by_cases hd : data = []
  · subst hd
    refine ⟨.FAILED, ?_, Or.inl (onReadyRead_empty windowHandlers self).1⟩
    cases hs : self.m_status
    · exact absurd hs hnc
    · exact Or.inr rfl
    · exact Or.inl rfl
  · obtain ⟨r, _, hread⟩ := onReadyRead_window hinv.1 hd
    have he := isEmpty_eq_false_of_ne_nil hd
    refine ⟨.OPENED, ?_, ?_⟩
    · rw [he]
      cases hs : self.m_status
      · exact absurd hs hnc
      · exact Or.inl rfl
      · exact Or.inr rfl
    · rw [hread]
      simp only
      split
      · right
        rw [stop_status]
        rfl
      · exact Or.inl rfl

/-- C18, amended. The status is `CLOSED` after construction, and on every manager that the
operations reach (pointer to the port set, port not open in state `CLOSED`) each operation
leaves the status alone or changes it along a transition of the code, or along two of them in
a row: `init` on a successful or failed open; `stop`; a write on its acknowledgement or
timeout; a readiness event of the open port on a read with or without data, followed by the
`stop()` of the window's device-status handler if it runs; a heartbeat tick by `stop` then
`init`. The transitions of the code are the listed ones and four more: `CLOSED` or `OPENED`
to `FAILED` on a failed open, and `FAILED` to `OPENED` on an acknowledged write or a read with
data. Only `stop` ends in `CLOSED`. -/
theorem status_transitions (self : SerialPortManager) (env : InitEnv) (data : Str)
    (acked : Bool) (hinv : portInvariant self) :
    SerialPortManager.new.m_status = .CLOSED ∧ portInvariant SerialPortManager.new ∧
    ((init self env).1.m_status = self.m_status ∨
      codeTransition self.m_status (if env.openOk then .openSucceeded else .openFailed)
        (init self env).1.m_status = true) ∧
    ((stop self).1.m_status = self.m_status ∨
      codeTransition self.m_status .explicitStop (stop self).1.m_status = true) ∧
    ((write_data self data acked).1.m_status = self.m_status ∨
      codeTransition self.m_status (if acked then .writeAcked else .writeTimeout)
        (write_data self data acked).1.m_status = true) ∧
    (self.portOpen = true →
      ∃ mid, (mid = self.m_status ∨
          codeTransition self.m_status (if data.isEmpty then .readEmpty else .readData) mid
            = true) ∧
        ((onReadyRead windowHandlers self data).1.m_status = mid ∨
          codeTransition mid .explicitStop (onReadyRead windowHandlers self data).1.m_status
            = true)) ∧
    ((heartBeatTimeout self env).1.m_status = self.m_status ∨
      ((∃ o1 o2, (heartBeatTimeout self env).2 = [Step.stop o1, Step.init o2]) ∧
        (self.m_status = .CLOSED ∨ codeTransition self.m_status .explicitStop .CLOSED = true) ∧
        codeTransition .CLOSED (if env.openOk then .openSucceeded else .openFailed)
          (heartBeatTimeout self env).1.m_status = true)) ∧
    (portInvariant (init self env).1 ∧ portInvariant (stop self).1 ∧
      portInvariant (write_data self data acked).1 ∧
      portInvariant (onReadyRead windowHandlers self data).1 ∧
      portInvariant (heartBeatTimeout self env).1) ∧
    (∀ a c b, listedTransition a c b = true → codeTransition a c b = true) ∧
    (∀ a c b, codeTransition a c b = true →
      a ≠ b ∧ (listedTransition a c b = true ∨ (a, c, b) ∈ addedTransitions)) ∧
    (∀ a c b, codeTransition a c b = true → b = .CLOSED → c = .explicitStop ∧ a ≠ .CLOSED) := by
  refine ⟨rfl, ⟨rfl, fun _ => rfl⟩, ?_, ?_, ?_, ?_, ?_, ?_, ?_, ?_, ?_⟩
  · rw [init_status]
    cases self.m_status <;> cases env.openOk <;> first | exact Or.inl rfl | exact Or.inr rfl
  · rw [stop_status]
    cases hs : self.m_status
    · exact Or.inl rfl
    · exact Or.inr rfl
    · exact Or.inr rfl
  · rcases write_data_status self data acked with h | ⟨hopen, h⟩
    · exact Or.inl h
    · rw [h]
      have hnc : self.m_status ≠ .CLOSED := by
        intro hc
        have := hinv.2 hc
        rw [hopen] at this
        cases this
      cases hs : self.m_status
      · exact absurd hs hnc
      · cases acked
        · exact Or.inr rfl
        · exact Or.inl rfl
      · cases acked
        · exact Or.inl rfl
        · exact Or.inr rfl
  · intro hopen
    exact onReadyRead_transitions hinv hopen data
  · by_cases h : 100 < self.timeout_count
    · right
      refine ⟨⟨(stop { self with timeout_count := 0 }).2,
        (init (stop { self with timeout_count := 0 }).1 env).2,
        by rw [heartBeatTimeout_fire env h]⟩, ?_, ?_⟩
      · cases self.m_status
        · exact Or.inl rfl
        · exact Or.inr rfl
        · exact Or.inr rfl
      · rw [heartBeatTimeout_fire env h]
        simp only
        rw [init_status]
        cases env.openOk <;> rfl
    · left
      rw [heartBeatTimeout_quiet env (by omega)]
  · exact ⟨portInvariant_init self env, portInvariant_stop hinv,
      portInvariant_write_data hinv data acked, portInvariant_onReadyRead hinv data,
      portInvariant_heartBeatTimeout hinv env⟩
  · intro a c b
    cases a <;> cases c <;> cases b <;> decide
  · intro a c b
    cases a <;> cases c <;> cases b <;> decide
  · intro a c b
    cases a <;> cases c <;> cases b <;> decide

/-- C18, amended, at the manager with an open port: the port invariant holds, an empty read
takes it from `OPENED` to `FAILED`, and the device-status frame of a version-2 device takes it
to `CLOSED` through `OPENED` by the handler's `stop()`. -/
theorem status_transitions_witness :
    portInvariant openManager ∧ openManager.portOpen = true ∧
    portInvariant (onReadyRead windowHandlers openManager
      "A5007192168001100POWER90VERSION2B5".toList).1 ∧
    (∃ mid, (mid = openManager.m_status ∨
        codeTransition openManager.m_status
          (if "A5007192168001100POWER90VERSION2B5".toList.isEmpty
            then .readEmpty else .readData) mid = true) ∧
      ((onReadyRead windowHandlers openManager
          "A5007192168001100POWER90VERSION2B5".toList).1.m_status = mid ∨
        codeTransition mid .explicitStop (onReadyRead windowHandlers openManager
          "A5007192168001100POWER90VERSION2B5".toList).1.m_status = true)) :=
  have hinv : portInvariant openManager := ⟨rfl, fun h => by cases h⟩
  have h := status_transitions openManager { portName := [], openOk := true }
    "A5007192168001100POWER90VERSION2B5".toList true hinv
  ⟨hinv, rfl, h.2.2.2.2.2.2.2.1.2.2.2.1, h.2.2.2.2.2.1 rfl⟩

/-! ## Firmware routines -/

/-- C19. When the external tool fails to start, `flashESP32` and `restartESP32` return after
`stop()` without a call of `init()`: the status is left `CLOSED`. When the tool starts and
exits, with code 1 here, `init()` is called. -/
theorem flash_start_failure_skips_init :
    (flashESP32 openManager "face_tracker".toList toolNotStarted).1.m_status = .CLOSED ∧
    (flashESP32 openManager "face_tracker".toList toolNotStarted).2.map Step.isInit
      = [false, false, false] ∧
    (restartESP32 openManager toolNotStarted).1.m_status = .CLOSED ∧
    (restartESP32 openManager toolNotStarted).2.map Step.isInit = [false, false, false] ∧
    (flashESP32 openManager "face_tracker".toList toolExitsOne).2.map Step.isInit
      = [false, false, false, true] ∧
    (restartESP32 openManager toolExitsOne).2.map Step.isInit = [false, false, false, true] := by
  decide

/-- C20. Failed flash still recovers: when the manager is not `FAILED` at entry, so that the
tool is launched, and the tool starts and exits with a code other than 0, `flashESP32` shows
the failure message, calls `init()` last, and returns with status `OPENED` or `FAILED`, not
`CLOSED`. -/
theorem flash_failure_recovers (self : SerialPortManager) (firmwareType : Str) (env : ToolEnv)
    (hs : self.m_status ≠ .FAILED) (hstart : env.started = true) (hexit : env.exitCode ≠ 0) :
    Step.critical "刷写失败" ∈ (flashESP32 self firmwareType env).2 ∧
    (∃ o, (flashESP32 self firmwareType env).2.getLast? = some (Step.init o)) ∧
    ((flashESP32 self firmwareType env).1.m_status = .OPENED ∨
      (flashESP32 self firmwareType env).1.m_status = .FAILED) ∧
    (flashESP32 self firmwareType env).1.m_status ≠ .CLOSED ∧
    (flashESP32 self firmwareType env).1.m_status
      = (if env.reinit.openOk then .OPENED else .FAILED) := by
  have hrun : flashESP32 self firmwareType env =
      ((init (stop self).1 env.reinit).1,
        [.stop (stop self).2,
          .launch (flashCommand env.appDir (if env.port.isEmpty then "COM2".toList else env.port)
            firmwareType),
          .critical "刷写失败", .init (init (stop self).1 env.reinit).2]) := by
    unfold flashESP32
    simp only [hs, hstart, hexit, if_false, Bool.not_true, Bool.false_eq_true]
  have hst := init_status (stop self).1 env.reinit
  rw [hrun]
  refine ⟨by simp, ⟨_, rfl⟩, ?_, ?_, hst⟩
  · simp only
    rw [hst]
    cases env.reinit.openOk
    · exact Or.inr rfl
    · exact Or.inl rfl
  · simp only
    rw [hst]
    cases env.reinit.openOk <;> simp

/-- C20 for a manager with an open port and a tool that exits with code 1. -/
theorem flash_failure_recovers_witness :
    openManager.m_status ≠ .FAILED ∧ toolExitsOne.started = true ∧ toolExitsOne.exitCode ≠ 0 ∧
    Step.critical "刷写失败" ∈ (flashESP32 openManager "left_eye".toList toolExitsOne).2 ∧
    (flashESP32 openManager "left_eye".toList toolExitsOne).1.m_status = .OPENED :=
  ⟨by decide, rfl, by decide,
    (flash_failure_recovers openManager "left_eye".toList toolExitsOne (by decide) rfl
      (by decide)).1,
    (flash_failure_recovers openManager "left_eye".toList toolExitsOne (by decide) rfl
      (by decide)).2.2.2.2⟩

/-! ## The command line of the flashing tool -/

theorem firmwareImage_eq_specImage (tag : Str) : firmwareImage tag = specImage tag := by
  unfold firmwareImage specImage
  simp only [List.mem_cons, List.mem_singleton, List.not_mem_nil, or_false]
  by_cases h1 : tag = "left_eye".toList
  · rw [if_pos h1, if_pos (Or.inl h1)]; exact h1.symm
  · rw [if_neg h1]
    by_cases h2 : tag = "right_eye".toList
    · rw [if_pos h2, if_pos (Or.inr (Or.inl h2))]; exact h2.symm
    · rw [if_neg h2]
      by_cases h3 : tag = "light_right_eye".toList
      · rw [if_pos h3, if_pos (Or.inr (Or.inr (Or.inl h3)))]; exact h3.symm
      · rw [if_neg h3]
        by_cases h4 : tag = "light_left_eye".toList
        · rw [if_pos h4, if_pos (Or.inr (Or.inr (Or.inr (Or.inl h4))))]; exact h4.symm
        · rw [if_neg h4]
          by_cases h5 : tag = "light_face_tracker".toList
          · rw [if_pos h5, if_pos (Or.inr (Or.inr (Or.inr (Or.inr (Or.inl h5)))))]
            exact h5.symm
          · rw [if_neg h5]
            by_cases h6 : tag = "old_face_tracker".toList
            · rw [if_pos h6, if_pos (Or.inr (Or.inr (Or.inr (Or.inr (Or.inr h6)))))]
              exact h6.symm
            · rw [if_neg h6, if_neg]
              rintro (h | h | h | h | h | h)
              exacts [h1 h, h2 h, h3 h, h4 h, h5 h, h6 h]

set_option maxRecDepth 100000 in
theorem flashCommand_eq (D P tag : Str) :
    flashCommand D P tag = specFlashCommand D P (specImage tag) := by
  rw [← firmwareImage_eq_specImage]
  simp [flashCommand, specFlashCommand, quotedPath, qArg]

/-- C21. Flash command: when the manager is not in the failed state, `flashESP32` launches
exactly one command, and it is the specified one: the quoted tool path in the application
directory, the fixed options, the discovered port or `COM2` when none was found, and the
three images at their offsets, the firmware image being the tag itself for the six named
variants and `face_tracker` otherwise. -/
theorem flashESP32_command (self : SerialPortManager) (firmwareType : Str) (env : ToolEnv)
    (hs : self.m_status ≠ .FAILED) :
    (flashESP32 self firmwareType env).2.filterMap Step.command
      = [specFlashCommand env.appDir (if env.port = [] then "COM2".toList else env.port)
          (specImage firmwareType)] := by
  have hp : (if env.port.isEmpty then "COM2".toList else env.port)
      = (if env.port = [] then "COM2".toList else env.port) := by
    cases env.port <;> rfl
  unfold flashESP32
  rw [if_neg hs]
  simp only [hp, flashCommand_eq]
  cases env.started
  · rfl
  · by_cases he : env.exitCode = 0
    · simp only [he, if_true]; rfl
    · simp only [he, if_false]; rfl

theorem flashESP32_command_witness :
    openManager.m_status ≠ .FAILED ∧
    (flashESP32 openManager "light_left_eye".toList toolExitsOne).2.filterMap Step.command
      = [specFlashCommand toolExitsOne.appDir
          (if toolExitsOne.port = [] then "COM2".toList else toolExitsOne.port)
          (specImage "light_left_eye".toList)] :=
  ⟨by decide, flashESP32_command openManager "light_left_eye".toList toolExitsOne (by decide)⟩

/-! ## Region of interest -/

/-- C30. ROI clamping: for every dragged rectangle, with arithmetic over the integers, the
rectangle stored by the ROI callback has width and height at least 0, and when both are
positive it lies inside the 280x280 image: `0 ≤ x`, `0 ≤ y`, `x + width ≤ 280` and
`y + height ≤ 280`. -/
theorem roiFilter_clamped (x y width height : Int) :
    0 ≤ (roiFilter x y width height).width ∧ 0 ≤ (roiFilter x y width height).height ∧
    (0 < (roiFilter x y width height).width → 0 < (roiFilter x y width height).height →
      0 ≤ (roiFilter x y width height).x ∧ 0 ≤ (roiFilter x y width height).y ∧
      (roiFilter x y width height).x + (roiFilter x y width height).width ≤ 280 ∧
      (roiFilter x y width height).y + (roiFilter x y width height).height ≤ 280) := by
  unfold roiFilter
  by_cases h1 : width < 0 <;> by_cases h2 : height < 0 <;>
    simp only [h1, h2, if_true, if_false] <;>
    split_ifs <;> simp only [] <;> omega

/-- C30 at a rectangle dragged from (300, 40) up and to the left by (-100, -70): the stored
rectangle is (200, 0, 80, 40). -/
theorem roiFilter_clamped_witness :
    roiFilter 300 40 (-100) (-70) = { x := 200, y := 0, width := 80, height := 40 } ∧
    0 ≤ (roiFilter 300 40 (-100) (-70)).x ∧
    (roiFilter 300 40 (-100) (-70)).x + (roiFilter 300 40 (-100) (-70)).width ≤ 280 :=
  ⟨by decide,
    ((roiFilter_clamped 300 40 (-100) (-70)).2.2 (by decide) (by decide)).1,
    ((roiFilter_clamped 300 40 (-100) (-70)).2.2 (by decide) (by decide)).2.2.1⟩

/-! ## Port discovery -/

theorem strstr_iff (haystack needle : Str) :
    strstr haystack needle = true ↔ needle <:+: haystack := by
  unfold strstr
  rw [List.any_eq_true, List.infix_iff_prefix_suffix]
  constructor
  · rintro ⟨t, ht, hp⟩
    exact ⟨t, List.isPrefixOf_iff_prefix.mp hp, (List.mem_tails _ _).mp ht⟩
  · rintro ⟨t, hp, ht⟩
    exact ⟨t, (List.mem_tails _ _).mpr ht, List.isPrefixOf_iff_prefix.mpr hp⟩

theorem isTargetDevice_iff (instanceId : Str) :
    isTargetDevice instanceId = true ↔
      "USB\\VID_303A&PID_1001&REV_0101&MI_00".toList <:+: instanceId ∨
      "USB\\VID_303A&PID_1001&MI_00".toList <:+: instanceId := by
  unfold isTargetDevice targetDeviceIds
  simp only [List.any_cons, List.any_nil, Bool.or_false, Bool.or_eq_true, strstr_iff]

theorem findPortLoop_skip {d : Device} (devices : List Device)
    (h : (d.isMatch && d.regKey) = false) :
    findPortLoop (d :: devices) = findPortLoop devices := by
  obtain ⟨id, key, name⟩ := d
  cases id with
  | none => rfl
  | some id =>
    simp only [Device.isMatch] at h
    simp only [findPortLoop]
    cases ht : isTargetDevice id
    · simp
    · cases key
      · simp
      · rw [ht] at h; simp at h

theorem findPortLoop_take {d : Device} (devices : List Device)
    (h : (d.isMatch && d.regKey) = true) :
    findPortLoop (d :: devices) = d.portName.getD [] := by
  obtain ⟨id, key, name⟩ := d
  cases id with
  | none => simp [Device.isMatch] at h
  | some id =>
    simp only [Device.isMatch, Bool.and_eq_true] at h
    simp only [findPortLoop, h.1, h.2, if_true]
    cases name <;> rfl

theorem findPortLoop_eq (devices : List Device) :
    findPortLoop devices =
      match devices.find? (fun d => d.isMatch && d.regKey) with
      | some d => d.portName.getD []
      | none => [] := by
  induction devices with
  | nil => rfl
  | cons d devices ih =>
    cases h : (d.isMatch && d.regKey)
    · rw [findPortLoop_skip devices h, ih]
      simp only [List.find?_cons, h]
    · rw [findPortLoop_take devices h]
      simp only [List.find?_cons, h]

/-- C22, as stated, fails: a tracker is enumerated and its instance identifier contains an
accepted signature, but its `PortName` value cannot be read, and the result is the empty
"not found" string; and when the registry key of the first matching device cannot be opened,
the port of a later matching device is returned. -/
theorem FindEsp32S3Port_match_but_empty :
    unreadableDevice.isMatch = true ∧
    FindEsp32S3Port (some [otherDevice, unreadableDevice, trackerOnCom7]) = [] ∧
    lockedDevice.isMatch = true ∧
    [lockedDevice, trackerOnCom7].find? Device.isMatch = some lockedDevice ∧
    FindEsp32S3Port (some [lockedDevice, trackerOnCom7]) = "COM7".toList := by
  decide

/-- C22, amended. `FindEsp32S3Port` returns the `PortName` value of the first device, in
enumeration order, whose instance identifier can be read and contains one of the two accepted
signature strings and whose registry key can be opened; the result is empty when that value
cannot be read, when there is no such device and when the enumeration itself fails. The
result is a function of the enumerated list. -/
theorem FindEsp32S3Port_first_usable (devices : List Device) :
    FindEsp32S3Port (some devices) =
      (match devices.find? (fun d => d.isMatch && d.regKey) with
        | some d => d.portName.getD []
        | none => []) ∧
    FindEsp32S3Port none = [] ∧
    (∀ d : Device, d.isMatch = true ↔ ∃ instanceId, d.instanceId = some instanceId ∧
      ("USB\\VID_303A&PID_1001&REV_0101&MI_00".toList <:+: instanceId ∨
        "USB\\VID_303A&PID_1001&MI_00".toList <:+: instanceId)) := by
  refine ⟨findPortLoop_eq devices, rfl, ?_⟩
  intro d
  obtain ⟨id, key, name⟩ := d
  cases id with
  | none => simp [Device.isMatch]
  | some id => simp [Device.isMatch, isTargetDevice_iff]

/-! ## The shape of the extracted frames and the length of the loop -/

theorem find_zero_split {ch : Char} :
    ∀ {s : Str} {i : Nat}, find s ch 0 = some i →
      ∃ u v, s = u ++ ch :: v ∧ ch ∉ u ∧ u.length = i := by
  intro s
  induction s with
  | nil => intro i h; rw [find_nil] at h; cases h
  | cons c s ih =>
    intro i h
    by_cases hc : c = ch
    · subst hc
      rw [find_cons_zero_self] at h
      cases h
      exact ⟨[], s, rfl, by simp, rfl⟩
    · rw [find_cons_zero_ne hc] at h
      cases hf : find s ch 0 with
      | none => rw [hf] at h; cases h
      | some j =>
        rw [hf] at h
        cases h
        obtain ⟨u, v, rfl, hu, hl⟩ := ih hf
        refine ⟨c :: u, v, rfl, ?_, by simp [hl]⟩
        intro hm
        rcases List.mem_cons.mp hm with e | e
        · exact hc e.symm
        · exact hu e

/-- One round of the loop that extracts a frame: the buffer is a prefix without `A`, the frame
`A body B t` with no `B` in `body`, and the rest, which is the next buffer. -/
theorem frame_step {buf : Str} {startPos endPos : Nat}
    (hA : find buf 'A' 0 = some startPos) (hB : find (buf.drop startPos) 'B' 1 = some endPos)
    (hlen : ¬ endPos + 1 ≥ (buf.drop startPos).length) :
    ∃ pre body t rest, buf = pre ++ (frameOf body t ++ rest) ∧ 'A' ∉ pre ∧ 'B' ∉ body ∧
      (buf.drop startPos).take (endPos + 2) = frameOf body t ∧
      (buf.drop startPos).drop (endPos + 2) = rest := by
  obtain ⟨pre, v, rfl, hpre, hl⟩ := find_zero_split hA
  have hd : (pre ++ 'A' :: v).drop startPos = 'A' :: v := by
    rw [← hl]; exact List.drop_left _ _
  rw [hd] at hB hlen ⊢
  rw [find_one_cons] at hB
  cases hf : find v 'B' 0 with
  | none => rw [hf] at hB; cases hB
  | some j =>
    rw [hf] at hB
    cases hB
    obtain ⟨body, w, rfl, hbody, hj⟩ := find_zero_split hf
    cases w with
    | nil =>
      exfalso
      apply hlen
      simp only [List.length_cons, List.length_append, List.length_nil]
      omega
    | cons t rest =>
      refine ⟨pre, body, t, rest, by simp [frameOf], hpre, hbody, ?_, ?_⟩
      · have e : 'A' :: (body ++ 'B' :: t :: rest) = frameOf body t ++ rest := by
          simp [frameOf]
        have l : (frameOf body t).length = j + 1 + 2 := by
          simp [frameOf, hj]
        rw [e, ← l]
        exact List.take_left _ _
      · have e : 'A' :: (body ++ 'B' :: t :: rest) = frameOf body t ++ rest := by
          simp [frameOf]
        have l : (frameOf body t).length = j + 1 + 2 := by
          simp [frameOf, hj]
        rw [e, ← l]
        exact List.drop_left _ _

theorem frameOf_length (body : Str) (t : Char) : (frameOf body t).length = body.length + 3 := by
  simp [frameOf]

/-- What the loop returns: every decoded entry is the decoding of a frame `A body B t` with no
`B` in `body` that occurs in the buffer, every frame costs at least three characters, and what
is left is a suffix of the buffer. -/
theorem processLoop_shape (cb : List PacketType) :
    ∀ (f : Nat) (buf : Str) (r : List Decoded × Str), processLoop cb f buf = some r →
      (∀ d ∈ r.1, ∃ body t, 'B' ∉ body ∧ d = decodedOf cb (frameOf body t) ∧
        frameOf body t <:+: buf) ∧
      3 * r.1.length + r.2.length ≤ buf.length ∧ r.2 <:+ buf := by
  intro f
  induction f with
  | zero => intro buf r h; cases h
  | succ f ih =>
    intro buf r h
    cases hA : find buf 'A' 0 with
    | none =>
      rw [processLoop_noA hA] at h
      cases h
      exact ⟨by simp, by simp, List.nil_suffix⟩
    | some startPos =>
      cases hB : find (buf.drop startPos) 'B' 1 with
      | none =>
        rw [processLoop_noB hA hB] at h
        cases h
        refine ⟨by simp, ?_, List.drop_suffix _ _⟩
        simp only [List.length_nil, List.length_drop]
        omega
      | some endPos =>
        by_cases hlen : endPos + 1 ≥ (buf.drop startPos).length
        · rw [processLoop_short hA hB hlen] at h
          cases h
          refine ⟨by simp, ?_, List.drop_suffix _ _⟩
          simp only [List.length_nil, List.length_drop]
          omega
        · rw [processLoop_frame hA hB hlen] at h
          obtain ⟨pre, body, t, rest, hbuf, _, hbody, htake, hdrop⟩ := frame_step hA hB hlen
          rw [htake, hdrop] at h
          cases hr : processLoop cb f rest with
          | none => rw [hr] at h; cases h
          | some r' =>
            rw [hr] at h
            simp only [Option.map_some', Option.some.injEq] at h
            subst h
            obtain ⟨h1, h2, h3⟩ := ih rest r' hr
            have hsuf : rest <:+ buf := ⟨pre ++ frameOf body t, by rw [hbuf]; simp⟩
            refine ⟨?_, ?_, h3.trans hsuf⟩
            · intro d hd
              rcases List.mem_cons.mp hd with e | e
              · exact ⟨body, t, hbody, e, ⟨pre, rest, by rw [hbuf]; simp⟩⟩
              · obtain ⟨b', t', hb', e', hin⟩ := h1 d e
                exact ⟨b', t', hb', e', hin.trans hsuf.isInfix⟩
            · have hl : buf.length = pre.length + (body.length + 3 + rest.length) := by
                rw [hbuf]
                simp only [List.length_append, frameOf_length]
              simp only [List.length_cons]
              omega

/-- Fuel for one round per three characters, and one more, is enough. -/
theorem processLoop_fuel3 (cb : List PacketType) :
    ∀ (f : Nat) (buf : Str), buf.length < 3 * f → ∃ r, processLoop cb f buf = some r := by
  intro f
  induction f with
  | zero => intro buf h; omega
  | succ f ih =>
    intro buf hlt
    cases hA : find buf 'A' 0 with
    | none => exact ⟨_, processLoop_noA hA⟩
    | some startPos =>
      cases hB : find (buf.drop startPos) 'B' 1 with
      | none => exact ⟨_, processLoop_noB hA hB⟩
      | some endPos =>
        by_cases hlen : endPos + 1 ≥ (buf.drop startPos).length
        · exact ⟨_, processLoop_short hA hB hlen⟩
        · obtain ⟨pre, body, t, rest, hbuf, _, _, htake, hdrop⟩ := frame_step hA hB hlen
          have hl : buf.length = pre.length + (body.length + 3 + rest.length) := by
            rw [hbuf]
            simp only [List.length_append, frameOf_length]
          obtain ⟨r', hr'⟩ := ih rest (by omega)
          rw [processLoop_frame hA hB hlen, hdrop, hr']
          exact ⟨_, rfl⟩

theorem frameOf_getElem_zero (body : Str) (t : Char) : (frameOf body t)[0]? = some 'A' := by
  simp [frameOf]

theorem frameOf_getElem_prev (body : Str) (t : Char) :
    (frameOf body t)[(frameOf body t).length - 2]? = some 'B' := by
  rw [frameOf_length]
  exact frame_getElem_prev body t

/-- C25, as stated, fails: from the buffer `ABB` the loop extracts the string `ABB`, whose
last character, the type character, is a second `B` after the first character. -/
theorem processReceivedData_type_char_B :
    (processReceivedData [] "ABB".toList).map (fun r => r.1.map Decoded.packet)
      = some ["ABB".toList] ∧
    ("ABB".toList.drop 1).count 'B' = 2 := by
  decide

/-- C25, amended. For every input buffer, every string that `processReceivedData` extracts
and passes to `parsePacket` has the form `A body B t` where `body` contains no `B` and `t` is
any character (also `B`): it begins with `A`, has length at least 3, has `B` as its
second-to-last character and no `B` between its first character and that one; and it is a
contiguous substring of the buffer. -/
theorem processReceivedData_frame_shape (cb : List PacketType) (buf : Str) :
    ∃ r, processReceivedData cb buf = some r ∧
      ∀ d ∈ r.1, d = decodedOf cb d.packet ∧ d.packet <:+: buf ∧ 3 ≤ d.packet.length ∧
        d.packet[0]? = some 'A' ∧ d.packet[d.packet.length - 2]? = some 'B' ∧
        ∃ body t, d.packet = frameOf body t ∧ 'B' ∉ body := by
  obtain ⟨r, hr⟩ := processReceivedData_total cb buf
  refine ⟨r, hr, ?_⟩
  intro d hd
  obtain ⟨body, t, hb, rfl, hin⟩ := (processLoop_shape cb _ buf r hr).1 d hd
  have hp : (decodedOf cb (frameOf body t)).packet = frameOf body t := rfl
  rw [hp]
  exact ⟨rfl, hin, by rw [frameOf_length]; omega, frameOf_getElem_zero body t,
    frameOf_getElem_prev body t, body, t, rfl, hb⟩

/-- C26. Reassembly terminates: for every buffer of length `n` the loop of
`processReceivedData` returns, within `n / 3 + 1` rounds; a round that extracts a frame leaves
a buffer at least 3 characters shorter, so three times the number of frames plus the length
of what is left is at most `n`, and at most `n / 3` frames are extracted. -/
theorem processReceivedData_terminates (cb : List PacketType) (buf : Str) :
    ∃ r, processReceivedData cb buf = some r ∧
      processLoop cb (buf.length / 3 + 1) buf = some r ∧
      3 * r.1.length + r.2.length ≤ buf.length ∧ r.1.length ≤ buf.length / 3 ∧
      ∀ startPos endPos, find buf 'A' 0 = some startPos →
        find (buf.drop startPos) 'B' 1 = some endPos →
        ¬ endPos + 1 ≥ (buf.drop startPos).length →
        (substrFrom (buf.drop startPos) (endPos + 2)).length + 3 ≤ buf.length := by
  obtain ⟨r, hr⟩ := processLoop_fuel3 cb (buf.length / 3 + 1) buf (by omega)
  have hshape := processLoop_shape cb _ buf r hr
  refine ⟨r, processReceivedData_of_loop hr, hr, hshape.2.1, by omega, ?_⟩
  intro startPos endPos hA hB hlen
  have h1 := (find_some_lt hB).1
  simp only [substrFrom, List.length_drop] at hlen ⊢
  omega

/-- C26 on the buffer `xxA1B1A2B`: one frame is extracted in the first round and the next
buffer, `A2B`, is 6 characters shorter. -/
theorem processReceivedData_terminates_witness :
    find "xxA1B1A2B".toList 'A' 0 = some 2 ∧
    find ("xxA1B1A2B".toList.drop 2) 'B' 1 = some 2 ∧
    (substrFrom ("xxA1B1A2B".toList.drop 2) (2 + 2)).length + 3 ≤ "xxA1B1A2B".toList.length :=
  ⟨by decide, by decide,
    (processReceivedData_terminates [] "xxA1B1A2B".toList).choose_spec.2.2.2.2 2 2
      (by decide) (by decide) (by decide)⟩

/-! ## An explicit stop and the heartbeat -/

theorem stop_timer (self : SerialPortManager) :
    (stop self).1.heartBeatTimer = self.heartBeatTimer := by
  obtain ⟨st, tc, sp, cb, raw, po, hb, cp⟩ := self
  cases st <;> cases sp <;> cases po <;> rfl

/-- Silent ticks up to a counter of 101, then one tick that runs `stop()` and `init()`. -/
theorem ticks_then_fire (self : SerialPortManager) (envs : List InitEnv) (env : InitEnv)
    (h : self.timeout_count + envs.length = 101) :
    (ticks (envs ++ [env]) self).2
      = List.replicate envs.length [] ++
        [[Step.stop (stop { self with timeout_count := 0 }).2,
          Step.init (init (stop { self with timeout_count := 0 }).1 env).2]] ∧
    (ticks (envs ++ [env]) self).1.m_status = (if env.openOk then .OPENED else .FAILED) ∧
    (ticks envs self).1.m_status = self.m_status := by
  have hq := ticks_quiet envs self (by omega)
  have h101 : 100 < (ticks envs self).1.timeout_count := by
    rw [hq]; simp only; omega
  have hlast : ticks [env] (ticks envs self).1
      = ((heartBeatTimeout (ticks envs self).1 env).1,
          [(heartBeatTimeout (ticks envs self).1 env).2]) := rfl
  have hfire := heartBeatTimeout_fire env h101
  refine ⟨?_, ?_, by rw [hq]⟩
  · rw [ticks_append, hlast, hfire, hq]
  · rw [ticks_append, hlast, hfire]
    exact init_status _ _

theorem ticks_one_fire (self : SerialPortManager) (env : InitEnv)
    (h : 100 < self.timeout_count) :
    (ticks [env] self).2
      = [[Step.stop (stop { self with timeout_count := 0 }).2,
          Step.init (init (stop { self with timeout_count := 0 }).1 env).2]] ∧
    (ticks [env] self).1.m_status = (if env.openOk then .OPENED else .FAILED) := by
  have hlast : ticks [env] self
      = ((heartBeatTimeout self env).1, [(heartBeatTimeout self env).2]) := rfl
  rw [hlast, heartBeatTimeout_fire env h]
  exact ⟨rfl, init_status _ _⟩

/-- The heartbeat counter is never negative: it is 0 after construction, and `init`, `stop`,
`write_data`, the heartbeat slot and the read slot (with the handlers of the window) keep it
at 0 or above. -/
theorem timeout_count_nonneg (self : SerialPortManager) (env : InitEnv) (data : Str)
    (acked : Bool) (h : 0 ≤ self.timeout_count) :
    SerialPortManager.new.timeout_count = 0 ∧
    0 ≤ (init self env).1.timeout_count ∧ 0 ≤ (stop self).1.timeout_count ∧
    0 ≤ (write_data self data acked).1.timeout_count ∧
    0 ≤ (heartBeatTimeout self env).1.timeout_count ∧
    0 ≤ (onReadyRead windowHandlers self data).1.timeout_count := by
  refine ⟨rfl, by rw [init_timeout_count]; exact h, by rw [stop_timeout_count]; exact h,
    ?_, ?_, ?_⟩
  · unfold write_data
    split_ifs <;> exact h
  · by_cases hq : self.timeout_count ≤ 100
    · rw [heartBeatTimeout_quiet env hq]
      simp only
      omega
    · rw [heartBeatTimeout_fire_count env (by omega)]
  · cases hp : self.serialPort with
    | false =>
      unfold onReadyRead
      simp only [hp, Bool.not_false, if_true]
      exact h
    | true =>
      by_cases hd : data = []
      · subst hd
        rw [onReadyRead_empty_state windowHandlers hp]
      · obtain ⟨r, _, hread⟩ := onReadyRead_window hp hd
        rw [hread]
        simp only
        split
        · rw [stop_timeout_count]
          exact le_refl _
        · exact le_refl _

/-- C29. An explicit stop is undone by the heartbeat: `stop()` leaves the heartbeat timer and
its counter as they are and ends in `CLOSED`; with the counter at some value `c ≥ 0`, the timer
ticking and no read activity, the ticks that follow make no step and leave the state `CLOSED`
until tick number `n`, with `1 ≤ n ≤ 102`, which runs `stop()` followed by `init()`; after that
tick the state is `OPENED` or `FAILED`, whatever the host answers. -/
theorem stop_undone_by_heartbeat (self : SerialPortManager) (answers : List InitEnv)
    (hc : 0 ≤ self.timeout_count) (hlen : answers.length = 102) :
    (stop self).1.heartBeatTimer = self.heartBeatTimer ∧
    (stop self).1.timeout_count = self.timeout_count ∧
    (stop self).1.m_status = .CLOSED ∧
    ∃ n, 1 ≤ n ∧ n ≤ 102 ∧
      (ticks (answers.take (n - 1)) (stop self).1).2 = List.replicate (n - 1) [] ∧
      (ticks (answers.take (n - 1)) (stop self).1).1.m_status = .CLOSED ∧
      (∃ o1 o2, (ticks (answers.take n) (stop self).1).2
        = List.replicate (n - 1) [] ++ [[Step.stop o1, Step.init o2]]) ∧
      ((ticks (answers.take n) (stop self).1).1.m_status = .OPENED ∨
        (ticks (answers.take n) (stop self).1).1.m_status = .FAILED) := by
  have hcnt := stop_timeout_count self
  have hst := stop_status self
  refine ⟨stop_timer self, hcnt, hst, ?_⟩
  obtain ⟨env, rest, rfl⟩ : ∃ env rest, answers = env :: rest := by
    cases answers with
    | nil => simp at hlen
    | cons a as => exact ⟨a, as, rfl⟩
  have hor : ∀ e : InitEnv, ((if e.openOk then SerialStatus.OPENED else .FAILED) = .OPENED ∨
      (if e.openOk then SerialStatus.OPENED else .FAILED) = .FAILED) := by
    intro e
    cases e.openOk
    · exact Or.inr rfl
    · exact Or.inl rfl
  by_cases hbig : 100 < self.timeout_count
  · refine ⟨1, le_refl _, by omega, rfl, hst, ?_, ?_⟩
    · have h1 := (ticks_one_fire (stop self).1 env (by rw [hcnt]; exact hbig)).1
      exact ⟨_, _, h1⟩
    · have h2 := (ticks_one_fire (stop self).1 env (by rw [hcnt]; exact hbig)).2
      have e : List.take 1 (env :: rest) = [env] := rfl
      rw [e, h2]
      exact hor env
  · obtain ⟨k, hk⟩ : ∃ k : Nat, self.timeout_count + k = 101 :=
      ⟨(101 - self.timeout_count).toNat, by omega⟩
    have hk102 : k ≤ 101 := by omega
    have hlen' : (env :: rest).length = 102 := hlen
    have htake : ((env :: rest).take k).length = k := by
      rw [List.length_take, hlen']; omega
    obtain ⟨last, hlast⟩ : ∃ last, (env :: rest).take (k + 1) = (env :: rest).take k ++ [last] := by
      have hlt : k < (env :: rest).length := by rw [hlen']; omega
      exact ⟨(env :: rest).get ⟨k, hlt⟩, by rw [List.take_succ, List.getElem?_eq_getElem hlt]; rfl⟩
    have hfire := ticks_then_fire (stop self).1 ((env :: rest).take k) last
      (by rw [hcnt, htake]; exact hk)
    have hq := ticks_quiet ((env :: rest).take k) (stop self).1 (by rw [hcnt, htake]; omega)
    rw [htake] at hfire
    refine ⟨k + 1, by omega, by omega, ?_, ?_, ?_, ?_⟩
    · rw [Nat.add_sub_cancel, hq, htake]
    · rw [Nat.add_sub_cancel, hfire.2.2, hst]
    · rw [Nat.add_sub_cancel, hlast]
      exact ⟨_, _, hfire.1⟩
    · rw [hlast, hfire.2.1]
      exact hor last

/-- C29 for a manager with an open port whose counter is at 40 when `stop()` is called, and
a host that does not find the device again: the timer keeps running in state `CLOSED`. -/
theorem stop_undone_by_heartbeat_witness :
    (0 : Int) ≤ ({ openManager with timeout_count := 40 } : SerialPortManager).timeout_count ∧
    (List.replicate 102 ({ portName := [], openOk := false } : InitEnv)).length = 102 ∧
    (stop { openManager with timeout_count := 40 }).1.heartBeatTimer = some true ∧
    (stop { openManager with timeout_count := 40 }).1.m_status = .CLOSED :=
  ⟨by decide, by decide,
    (stop_undone_by_heartbeat { openManager with timeout_count := 40 }
      (List.replicate 102 { portName := [], openOk := false }) (by decide) (by decide)).1,
    (stop_undone_by_heartbeat { openManager with timeout_count := 40 }
      (List.replicate 102 { portName := [], openOk := false }) (by decide) (by decide)).2.2.1⟩

/-! ## Dispatch by decoded type -/

/-- The seven outcomes of `parsePacket`. -/
theorem parsePacket_cases (cb : List PacketType) (packet : Str) :
    parsePacket cb packet = (.PACKET_UNKNOWN, []) ∨
    parsePacket cb packet = (.PACKET_WIFI_SETUP, handlePacket cb .PACKET_WIFI_SETUP []) ∨
    (∃ m, regex_match (trim packet) re2 = some m ∧ parsePacket cb packet =
      (.PACKET_WIFI_SSID_PWD,
        handlePacket cb .PACKET_WIFI_SETUP [.str (m.getD 0 []), .str (m.getD 1 [])])) ∨
    parsePacket cb packet = (.PACKET_WIFI_CONFIRM, handlePacket cb .PACKET_WIFI_CONFIRM []) ∨
    (∃ m, regex_match (trim packet) re4 = some m ∧ parsePacket cb packet =
      (.PACKET_WIFI_ERROR,
        handlePacket cb .PACKET_WIFI_CONFIRM [.str (m.getD 0 []), .str (m.getD 1 [])])) ∨
    (∃ m, regex_match (trim packet) re5 = some m ∧ parsePacket cb packet =
      (.PACKET_DEVICE_STATUS, (decodeStatus cb m).2)) ∨
    parsePacket cb packet = (.PACKET_LIGHT_CONTROL, []) := by
  cases hb : basicCheck (trim packet) with
  | false => exact Or.inl (parsePacket_basic_fail hb)
  | true =>
    have hlen : (trim packet).length - 1 < (trim packet).length := by
      have := (basicCheck_eq_true.1 hb)
      simp only [not_or, not_lt] at this
      omega
    have hl : (trim packet)[(trim packet).length - 1]?
        = some ((trim packet)[(trim packet).length - 1]) := List.getElem?_eq_getElem hlen
    rw [parsePacket_dispatch hb hl]
    split
    · cases hm : regex_match (trim packet) re1 with
      | none => exact Or.inl rfl
      | some m => exact Or.inr (Or.inl rfl)
    · cases hm : regex_match (trim packet) re2 with
      | none => exact Or.inl rfl
      | some m => exact Or.inr (Or.inr (Or.inl ⟨m, rfl, rfl⟩))
    · cases hm : regex_match (trim packet) re3 with
      | none => exact Or.inl rfl
      | some m => exact Or.inr (Or.inr (Or.inr (Or.inl rfl)))
    · cases hm : regex_match (trim packet) re4 with
      | none => exact Or.inl rfl
      | some m => exact Or.inr (Or.inr (Or.inr (Or.inr (Or.inl ⟨m, rfl, rfl⟩))))
    · cases hm : regex_match (trim packet) re5 with
      | none => exact Or.inl rfl
      | some m => exact Or.inr (Or.inr (Or.inr (Or.inr (Or.inr (Or.inl ⟨m, rfl, rfl⟩)))))
    · cases hm : regex_match (trim packet) re6 with
      | none => exact Or.inl rfl
      | some m => exact Or.inr (Or.inr (Or.inr (Or.inr (Or.inr (Or.inr rfl)))))
    · exact Or.inl rfl

/-- C23, as stated, fails: the frame `A6128B6` is classified as light control and no handler
is invoked although one is registered for that type. -/
theorem light_control_handler_not_invoked :
    openManager.callbacks.contains .PACKET_LIGHT_CONTROL = true ∧
    (parsePacket openManager.callbacks "A6128B6".toList).1 = .PACKET_LIGHT_CONTROL ∧
    (parsePacket openManager.callbacks "A6128B6".toList).2 = [] := by
  decide

/-- C23, amended. For every frame that `parsePacket` classifies as WiFi setup (type 1), WiFi
confirm (type 3) or device status (type 5), the handler invoked is the one registered for that
same type, with that type's payload (none for types 1 and 3; the dotted IP, brightness, power
and version of the frame for type 5), and it is invoked exactly once; when no handler is
registered for the type nothing is invoked and the type is still returned. A frame classified
as light control (type 6) invokes no handler, registered or not. -/
theorem parsePacket_dispatch_same_type (cb : List PacketType) (packet : Str) :
    ((parsePacket cb packet).1 = .PACKET_WIFI_SETUP →
      (parsePacket cb packet).2 = handlePacket cb .PACKET_WIFI_SETUP []) ∧
    ((parsePacket cb packet).1 = .PACKET_WIFI_CONFIRM →
      (parsePacket cb packet).2 = handlePacket cb .PACKET_WIFI_CONFIRM []) ∧
    ((parsePacket cb packet).1 = .PACKET_DEVICE_STATUS →
      ∃ br ip p v, trim packet = "A5".toList ++ (br ++ (ip ++ ("POWER".toList ++ (p ++
          ("VERSION".toList ++ (v ++ "B5".toList)))))) ∧
        IsDigits13 br ∧ IsDigits13 p ∧ IsDigits13 v ∧
        formatIpAddress ip = some (decodeStatus cb [br, ip, p, v]).1 ∧
        (parsePacket cb packet).2 = handlePacket cb .PACKET_DEVICE_STATUS
          [.str (decodeStatus cb [br, ip, p, v]).1, .int (digitsValue br),
            .int (digitsValue p), .int (digitsValue v)]) ∧
    ((parsePacket cb packet).1 = .PACKET_LIGHT_CONTROL → (parsePacket cb packet).2 = []) ∧
    (∀ (T : PacketType) (params : List Param),
      (cb.contains T = true → handlePacket cb T params = [HandlerCall.mk T params]) ∧
      (cb.contains T = false → handlePacket cb T params = [])) := by
  refine ⟨?_, ?_, ?_, ?_, ?_⟩
  · intro h
    rcases parsePacket_cases cb packet with e | e | ⟨m, _, e⟩ | e | ⟨m, _, e⟩ | ⟨m, _, e⟩ | e <;>
      rw [e] at h ⊢ <;> first | rfl | cases h
  · intro h
    rcases parsePacket_cases cb packet with e | e | ⟨m, _, e⟩ | e | ⟨m, _, e⟩ | ⟨m, _, e⟩ | e <;>
      rw [e] at h ⊢ <;> first | rfl | cases h
  · intro h
    rcases parsePacket_cases cb packet with e | e | ⟨m, _, e⟩ | e | ⟨m, _, e⟩ | ⟨m, hm, e⟩ | e
    · rw [e] at h; cases h
    · rw [e] at h; cases h
    · rw [e] at h; cases h
    · rw [e] at h; cases h
    · rw [e] at h; cases h
    · obtain ⟨br, ip, p, v, ht, rfl, hbr, hip, hp, hv⟩ := re5_sound hm
      refine ⟨br, ip, p, v, ht, hbr, hp, hv, ?_, ?_⟩
      · rw [decodeStatus_eq cb hbr hip.2 hp hv, formatIpAddress_digits hip.2]
      · rw [e, decodeStatus_eq cb hbr hip.2 hp hv]
    · rw [e] at h; cases h
  · intro h
    rcases parsePacket_cases cb packet with e | e | ⟨m, _, e⟩ | e | ⟨m, _, e⟩ | ⟨m, _, e⟩ | e <;>
      rw [e] at h ⊢ <;> first | rfl | cases h
  · intro T params
    constructor
    · intro hreg
      simp only [handlePacket, hreg, if_true]
    · intro hreg
      simp only [handlePacket, hreg, Bool.false_eq_true, if_false]

/-- C23, amended, at the frames `A101B1` and `A6128B6` with a handler registered for every
type. -/
theorem parsePacket_dispatch_same_type_witness :
    (parsePacket openManager.callbacks "A101B1".toList).1 = .PACKET_WIFI_SETUP ∧
    (parsePacket openManager.callbacks "A101B1".toList).2
      = handlePacket openManager.callbacks .PACKET_WIFI_SETUP [] ∧
    handlePacket openManager.callbacks .PACKET_WIFI_SETUP []
      = [HandlerCall.mk .PACKET_WIFI_SETUP []] ∧
    (parsePacket openManager.callbacks "A6128B6".toList).2 = [] :=
  ⟨by decide,
    (parsePacket_dispatch_same_type openManager.callbacks "A101B1".toList).1 (by decide),
    ((parsePacket_dispatch_same_type openManager.callbacks "A101B1".toList).2.2.2.2
      .PACKET_WIFI_SETUP []).1 (by decide),
    (parsePacket_dispatch_same_type openManager.callbacks "A6128B6".toList).2.2.2.1
      (by decide)⟩

/-! ## The greedy split of brightness and IP digits -/

/-- The first success of a search that tries the counts of a range from the largest down. -/
theorem findSome?_reverse_range'_first {β : Type} {f : Nat → Option β} {lo cnt k : Nat} {r : β}
    (hlo : lo ≤ k) (hk : k < lo + cnt) (hf : f k = some r)
    (hnone : ∀ j, k < j → j < lo + cnt → f j = none) :
    (List.range' lo cnt).reverse.findSome? f = some r := by
  have e1 : List.range' lo cnt = List.range' lo (k - lo) ++ List.range' k (cnt - (k - lo)) := by
    have h := List.range'_append_1 lo (k - lo) (cnt - (k - lo))
    have h1 : lo + (k - lo) = k := by omega
    have h2 : cnt - (k - lo) + (k - lo) = cnt := by omega
    rw [h1, h2] at h
    exact h.symm
  have e2 : List.range' k (cnt - (k - lo)) = k :: List.range' (k + 1) (cnt - (k - lo) - 1) := by
    have h : cnt - (k - lo) = (cnt - (k - lo) - 1) + 1 := by omega
    conv_lhs => rw [h, List.range'_succ]
  rw [e1, e2, List.reverse_append, List.reverse_cons, List.append_assoc, List.findSome?_append]
  have h0 : (List.range' (k + 1) (cnt - (k - lo) - 1)).reverse.findSome? f = none := by
    rw [List.findSome?_eq_none_iff]
    intro j hj
    rw [List.mem_reverse, List.mem_range'_1] at hj
    exact hnone j (by omega) (by omega)
  rw [h0, List.singleton_append, List.findSome?_cons, hf]
  rfl

theorem takeWhile_digits_append {g tail : Str} (hg : ∀ c ∈ g, c.isDigit = true)
    (ht : tail.takeWhile CharClass.digit.test = []) :
    ((g ++ tail).takeWhile CharClass.digit.test).length = g.length := by
  have hg' : ∀ c ∈ g, CharClass.digit.test c = true := hg
  rw [List.takeWhile_append_of_pos hg', ht, List.append_nil]

/-- A greedy digit group in front of text that does not start with a digit takes the whole
run of digits when the rest of the pattern then matches. -/
theorem run_digits_greedy_full {lo : Nat} {hi : Option Nat} {p : List Tok} {pos : Nat}
    (g tail : Str) {o c m : List Str} (hg : ∀ c ∈ g, c.isDigit = true)
    (ht : tail.takeWhile CharClass.digit.test = []) (hlo : lo ≤ g.length)
    (hhi : ∀ h, hi = some h → g.length ≤ h)
    (hcont : run p ⟨pos + g.length, tail, o, c ++ [g]⟩ = some m) :
    run (.gopen :: .rep .digit lo hi true :: .gclose :: p) ⟨pos, g ++ tail, o, c⟩ = some m := by
  rw [run_group]
  have havail := takeWhile_digits_append hg ht
  have hrc : repCounts .digit lo hi true (g ++ tail)
      = (List.range' lo (g.length + 1 - lo)).reverse := by
    unfold repCounts
    rw [havail]
    cases hi with
    | none => rfl
    | some h => simp only [Nat.min_eq_right (hhi h rfl), if_true]
  rw [hrc]
  apply findSome?_reverse_range'_first (k := g.length) hlo (by omega)
  · simp only [List.drop_left, List.take_left]
    exact hcont
  · intro j h1 h2
    omega

/-- The part of the type-5 pattern from `POWER` on, on a text of that form. -/
theorem run_status_tail {p v : Str} (hp : IsDigits13 p) (hv : IsDigits13 v) (pos : Nat)
    (o c : List Str) :
    run ("POWER".toList.map Tok.chr ++
        (.gopen :: .rep .digit 1 (some 3) true :: .gclose :: ("VERSION".toList.map Tok.chr ++
        (.gopen :: .rep .digit 1 (some 3) true :: .gclose :: ("B5".toList.map Tok.chr ++
        [.eol])))))
      ⟨pos, "POWER".toList ++ (p ++ ("VERSION".toList ++ (v ++ "B5".toList))), o, c⟩
      = some (c ++ [p] ++ [v]) := by
  rw [run_chrs_append]
  apply run_digits_greedy_full p ("VERSION".toList ++ (v ++ "B5".toList)) hp.2.2 rfl hp.1
    (fun h e => by cases e; exact hp.2.1)
  rw [run_chrs_append]
  apply run_digits_greedy_full v "B5".toList hv.2.2 rfl hv.1
    (fun h e => by cases e; exact hv.2.1)
  have hfin := run_chrs_append "B5".toList [.eol]
    (pos + "POWER".toList.length + p.length + "VERSION".toList.length + v.length) [] o
    (c ++ [p] ++ [v])
  rw [List.append_nil] at hfin
  rw [hfin, run_eol_nil, if_pos rfl]

/-- The type-5 pattern on a frame with the digit run `ds` between `A5` and `POWER`: the first
group takes `min 3 (n - 1)` digits and the second group all the others. -/
theorem re5_greedy_split {ds p v : Str} (hds : ∀ c ∈ ds, c.isDigit = true)
    (hn : 2 ≤ ds.length) (hp : IsDigits13 p) (hv : IsDigits13 v) :
    regex_match ("A5".toList ++ (ds ++ ("POWER".toList ++ (p ++ ("VERSION".toList ++
        (v ++ "B5".toList)))))) re5
      = some [ds.take (min 3 (ds.length - 1)), ds.drop (min 3 (ds.length - 1)), p, v] := by
  have htl : ("POWER".toList ++ (p ++ ("VERSION".toList ++ (v ++ "B5".toList)))).takeWhile
      CharClass.digit.test = [] := rfl
  unfold regex_match
  rw [re5_shape, run_bol, run_chrs_append, run_group]
  have havail := takeWhile_digits_append hds htl
  unfold repCounts
  simp only [havail, if_true]
  have hK : min 3 (ds.length - 1) ≤ ds.length := by omega
  apply findSome?_reverse_range'_first (k := min 3 (ds.length - 1)) (by omega) (by omega)
  · rw [List.take_append_of_le_length hK, List.drop_append_of_le_length hK]
    apply run_digits_greedy_full (ds.drop (min 3 (ds.length - 1)))
      ("POWER".toList ++ (p ++ ("VERSION".toList ++ (v ++ "B5".toList))))
      (fun c hc => hds c (List.mem_of_mem_drop hc)) htl
      (by rw [List.length_drop]; omega) (fun h e => by cases e)
    rw [run_status_tail hp hv]
    rfl
  · intro j h1 h2
    have hj : j = ds.length := by omega
    subst hj
    rw [List.drop_left, run_group]
    have h0 : repCounts .digit 1 none true
        ("POWER".toList ++ (p ++ ("VERSION".toList ++ (v ++ "B5".toList)))) = [] := rfl
    rw [h0]
    rfl

/-- C27. The split of brightness and IP digits is greedy: for a type-5 frame whose run of
digits `ds` between `A5` and `POWER` has `n ≥ 2` digits, the pattern gives the first
`min 3 (n - 1)` digits as brightness and all the others as IP digits, so the first three when
`n ≥ 4`; `parsePacket` hands the device-status handler the formatted IP of those other digits
and the decimal value of those first digits. -/
theorem parsePacket_greedy_split (cb : List PacketType) (ds p v : Str)
    (hds : ∀ c ∈ ds, c.isDigit = true) (hn : 2 ≤ ds.length) (hp : IsDigits13 p)
    (hv : IsDigits13 v) :
    regex_match ("A5".toList ++ ds ++ "POWER".toList ++ p ++ "VERSION".toList ++ v
        ++ "B5".toList) re5
      = some [ds.take (min 3 (ds.length - 1)), ds.drop (min 3 (ds.length - 1)), p, v] ∧
    (∃ formattedIp, formatIpAddress (ds.drop (min 3 (ds.length - 1))) = some formattedIp ∧
      parsePacket cb ("A5".toList ++ ds ++ "POWER".toList ++ p ++ "VERSION".toList ++ v
          ++ "B5".toList)
        = (.PACKET_DEVICE_STATUS, handlePacket cb .PACKET_DEVICE_STATUS
            [.str formattedIp, .int (digitsValue (ds.take (min 3 (ds.length - 1)))),
              .int (digitsValue p), .int (digitsValue v)])) ∧
    (4 ≤ ds.length →
      regex_match ("A5".toList ++ ds ++ "POWER".toList ++ p ++ "VERSION".toList ++ v
          ++ "B5".toList) re5 = some [ds.take 3, ds.drop 3, p, v]) := by
  have e : "A5".toList ++ ds ++ "POWER".toList ++ p ++ "VERSION".toList ++ v ++ "B5".toList
      = "A5".toList ++ (ds ++ ("POWER".toList ++ (p ++ ("VERSION".toList ++
        (v ++ "B5".toList))))) := by simp
  have hm := re5_greedy_split hds hn hp hv
  have hK : min 3 (ds.length - 1) ≤ ds.length := by omega
  have hbr : IsDigits13 (ds.take (min 3 (ds.length - 1))) := by
    refine ⟨?_, ?_, fun c hc => hds c (List.mem_of_mem_take hc)⟩
    · rw [List.length_take]; omega
    · rw [List.length_take]; omega
  have hip : ∀ c ∈ ds.drop (min 3 (ds.length - 1)), c.isDigit = true :=
    fun c hc => hds c (List.mem_of_mem_drop hc)
  have hfr : "A5".toList ++ (ds ++ ("POWER".toList ++ (p ++ ("VERSION".toList ++
        (v ++ "B5".toList)))))
      = 'A' :: ((('5' :: (ds ++ ("POWER".toList ++ (p ++ ("VERSION".toList ++ v))))) ++ ['B'])
        ++ ['5']) := by simp
  have ht : trim ("A5".toList ++ (ds ++ ("POWER".toList ++ (p ++ ("VERSION".toList ++
        (v ++ "B5".toList))))))
      = "A5".toList ++ (ds ++ ("POWER".toList ++ (p ++ ("VERSION".toList ++
        (v ++ "B5".toList))))) := by
    rw [hfr]
    exact trim_frame 'A' '5' _ (by decide) (by decide)
  have ht5 : trim ("A5".toList ++ (ds ++ ("POWER".toList ++ (p ++ ("VERSION".toList ++
        (v ++ "B5".toList))))))
      = 'A' :: (('5' :: (ds ++ ("POWER".toList ++ (p ++ ("VERSION".toList ++ v))))) ++
        ['B', '5']) := by
    rw [ht]; simp
  rw [e]
  refine ⟨hm, ⟨_, formatIpAddress_digits hip, ?_⟩, ?_⟩
  · rw [parsePacket_type5 ht5, ht, hm]
    simp only [decodeStatus_eq cb hbr hip hp hv]
  · intro h4
    rw [hm]
    have : min 3 (ds.length - 1) = 3 := by omega
    rw [this]

/-- C27 at the frame `A57192168001100POWER90VERSION1B5`, a brightness 7 sent without padding
in front of the IP digits `192168001100`: the handler receives brightness 719 and the IP
`2.168.1.100`. -/
theorem parsePacket_greedy_split_witness :
    (∀ c ∈ "7192168001100".toList, c.isDigit = true) ∧
    2 ≤ "7192168001100".toList.length ∧ IsDigits13 "90".toList ∧ IsDigits13 "1".toList ∧
    regex_match "A57192168001100POWER90VERSION1B5".toList re5
      = some ["719".toList, "2168001100".toList, "90".toList, "1".toList] ∧
    parsePacket openManager.callbacks "A57192168001100POWER90VERSION1B5".toList
      = (.PACKET_DEVICE_STATUS, [HandlerCall.mk .PACKET_DEVICE_STATUS
          [.str "2.168.1.100".toList, .int 719, .int 90, .int 1]]) :=
  ⟨by decide, by decide, by unfold IsDigits13; decide, by unfold IsDigits13; decide,
    (parsePacket_greedy_split openManager.callbacks "7192168001100".toList "90".toList
      "1".toList (by decide) (by decide) (by unfold IsDigits13; decide)
      (by unfold IsDigits13; decide)).1,
    by decide⟩

/-! ## The WiFi configuration frame through reassembly and decoding -/

theorem first_split {ch : Char} :
    ∀ {s : Str}, ch ∈ s → ∃ u v, s = u ++ ch :: v ∧ ch ∉ u := by
  intro s
  induction s with
  | nil => intro h; cases h
  | cons c s ih =>
    intro h
    by_cases hc : c = ch
    · exact ⟨[], s, by rw [hc]; rfl, by simp⟩
    · have hs : ch ∈ s := by
        rcases List.mem_cons.mp h with e | e
        · exact absurd e.symm hc
        · exact e
      obtain ⟨u, v, rfl, hu⟩ := ih hs
      refine ⟨c :: u, v, rfl, ?_⟩
      intro hm
      rcases List.mem_cons.mp hm with e | e
      · exact hc e.symm
      · exact hu e

/-- An occurrence of `PWD` in `s ++ PW` lies in `s`. -/
theorem pwd_infix_of_append_pw {s : Str} (h : "PWD".toList <:+: s ++ "PW".toList) :
    "PWD".toList <:+: s := by
  obtain ⟨a, b, hab⟩ := h
  rcases List.eq_nil_or_concat b with rfl | ⟨b1, c1, rfl⟩
  · exfalso
    have e : (a ++ ['P', 'W']) ++ ['D'] = (s ++ ['P']) ++ ['W'] := by
      simpa using hab
    have := (List.append_inj' e rfl).2
    simp at this
  · rcases List.eq_nil_or_concat b1 with rfl | ⟨b2, c2, rfl⟩
    · exfalso
      have e : (a ++ ['P', 'W']) ++ ['D', c1] = s ++ ['P', 'W'] := by
        simpa using hab
      have := (List.append_inj' e rfl).2
      simp at this
    · have e : (a ++ "PWD".toList ++ b2) ++ [c2, c1] = s ++ ['P', 'W'] := by
        simpa using hab
      have := (List.append_inj' e rfl).1
      exact ⟨a, b2, this⟩

/-- What a match of the type-2 or type-4 pattern says about the text and the captures. -/
theorem wifi_sound {opening closing t : Str} {m : List Str}
    (h : regex_match t (wifiPattern opening closing) = some m) :
    ∃ s p, t = opening ++ (s ++ ("PWD".toList ++ (p ++ closing))) ∧ m = [s, p] := by
  unfold regex_match wifiPattern at h
  rw [run_bol] at h
  obtain ⟨r1, e1, h⟩ := run_chrs_eq_some _ _ _ _ _ _ _ h
  obtain ⟨s, r2, e2, _, _, _, h⟩ := run_group_eq_some h
  obtain ⟨r3, e3, h⟩ := run_chrs_eq_some _ _ _ _ _ _ _ h
  obtain ⟨p, r4, e4, _, _, _, h⟩ := run_group_eq_some h
  obtain ⟨r5, e5, h⟩ := run_chrs_eq_some _ _ _ _ _ _ _ h
  rw [run_eol_nil] at h
  split at h
  · rename_i hr5
    simp only [Option.some.injEq] at h
    refine ⟨s, p, ?_, ?_⟩
    · rw [e1, e2, e3, e4, e5, hr5]; simp
    · rw [← h]; rfl
  · simp at h

theorem sendWiFiConfig_frame (ssid pwd : Str) :
    sendWiFiConfig ssid pwd
      = frameOf ("2SSID".toList ++ (ssid ++ ("PWD".toList ++ pwd))) '2' := by
  simp [sendWiFiConfig, frameOf]

theorem frameOf_inj {b1 b2 : Str} {t1 t2 : Char} (h : frameOf b1 t1 = frameOf b2 t2) :
    b1 = b2 ∧ t1 = t2 := by
  simp only [frameOf, List.cons.injEq, true_and] at h
  have h2 := List.append_inj' h rfl
  refine ⟨h2.1, ?_⟩
  have := h2.2
  simp only [List.cons.injEq, true_and, and_true] at this
  exact this

/-- The trimmed form of an extracted frame: the frame itself, or the frame without its type
character when that is a whitespace character. -/
theorem trim_frameOf (body : Str) (t : Char) :
    trim (frameOf body t) = frameOf body t ∨
      trim (frameOf body t) = 'A' :: (body ++ ['B']) := by
  by_cases ht : t ∈ whitespace
  · right
    have e : frameOf body t = ('A' :: (body ++ ['B'])) ++ [t] := by simp [frameOf]
    rw [e, trim_concat_ws ht]
    exact trim_frame 'A' 'B' body (by decide) (by decide)
  · left
    have e : frameOf body t = 'A' :: ((body ++ ['B']) ++ [t]) := by simp [frameOf]
    rw [e]
    exact trim_frame 'A' t _ (by decide) ht

/-- An extracted frame whose trimmed form is a frame `A x B 2` has the body `x`. -/
theorem body_of_trim_frameOf {body x : Str} {t : Char}
    (h : trim (frameOf body t) = frameOf x '2') : body = x := by
  rcases trim_frameOf body t with e | e
  · rw [e] at h
    exact (frameOf_inj h).1
  · rw [e] at h
    exfalso
    simp only [frameOf, List.cons.injEq, true_and] at h
    have e2 : body ++ ['B'] = (x ++ ['B']) ++ ['2'] := by rw [h]; simp
    have := (List.append_inj' e2 rfl).2
    simp at this

/-- The frame built by `sendWiFiConfig` for texts without `B`, through the loop and the
decoder. -/
theorem sendWiFiConfig_decoded (cb : List PacketType) {ssid pwd : Str} (hs : 'B' ∉ ssid)
    (hp : 'B' ∉ pwd) (hls : NoLineTerminator ssid) (hlp : NoLineTerminator pwd)
    (hpwd : ¬ "PWD".toList <:+: ssid) :
    processReceivedData cb (sendWiFiConfig ssid pwd)
      = some ([decodedOf cb (sendWiFiConfig ssid pwd)], []) ∧
    regex_match (trim (sendWiFiConfig ssid pwd)) re2 = some [ssid, pwd] ∧
    parsePacket cb (sendWiFiConfig ssid pwd)
      = (.PACKET_WIFI_SSID_PWD, handlePacket cb .PACKET_WIFI_SETUP [.str ssid, .str pwd]) := by
  have hbody : 'B' ∉ "2SSID".toList ++ (ssid ++ ("PWD".toList ++ pwd)) := by
    intro h
    rcases List.mem_append.mp h with h | h
    · revert h; decide
    · rcases List.mem_append.mp h with h | h
      · exact hs h
      · rcases List.mem_append.mp h with h | h
        · revert h; decide
        · exact hp h
  have hx : NoLineTerminator (ssid ++ "PWD".toList ++ pwd) := by
    intro c hc
    rcases List.mem_append.mp hc with h | h
    · rcases List.mem_append.mp h with h | h
      · exact hls c h
      · have : c = 'P' ∨ c = 'W' ∨ c = 'D' := by simpa using h
        rcases this with rfl | rfl | rfl <;> decide
    · exact hlp c h
  have hfirst : ¬ "PWD".toList <:+: ssid ++ "PW".toList :=
    fun h => hpwd (pwd_infix_of_append_pw h)
  have hform : sendWiFiConfig ssid pwd
      = "A2SSID".toList ++ ((ssid ++ "PWD".toList ++ pwd) ++ ['B', '2']) := by
    simp [sendWiFiConfig]
  have htrim : trim (sendWiFiConfig ssid pwd)
      = 'A' :: (('2' :: 'S' :: 'S' :: 'I' :: 'D' :: (ssid ++ "PWD".toList ++ pwd)) ++
        ['B', '2']) := by
    rw [hform]
    exact trim_wifi '2' _ '2' (by decide)
  have htrim' : trim (sendWiFiConfig ssid pwd) = sendWiFiConfig ssid pwd := by
    rw [htrim, hform]; rfl
  have hm : regex_match (trim (sendWiFiConfig ssid pwd)) re2 = some [ssid, pwd] := by
    rw [htrim', hform, re2_shape]
    exact wifi_match_first _ _ hx rfl hfirst
  refine ⟨?_, hm, ?_⟩
  · apply processReceivedData_of_loop (f := 2)
    have h1 := processLoop_frameOf cb 1 _ '2' [] hbody
    rw [List.append_nil, ← sendWiFiConfig_frame] at h1
    rw [h1, processLoop_noA (find_nil _ _)]
    rfl
  · rw [parsePacket_type2 htrim, hm]
    rfl

/-- The frame built by `sendWiFiConfig` when the ssid or the pwd contains a `B`. -/
theorem sendWiFiConfig_split_at_B (cb : List PacketType) {ssid pwd : Str}
    (hB : 'B' ∈ ssid ∨ 'B' ∈ pwd) :
    ∃ r, processReceivedData cb (sendWiFiConfig ssid pwd) = some r ∧
      (∃ d rest u t, r.1 = d :: rest ∧ d.packet = frameOf u t ∧ 'B' ∉ u ∧
        u ++ ['B'] <+: "2SSID".toList ++ (ssid ++ ("PWD".toList ++ pwd)) ∧
        d.packet <+: sendWiFiConfig ssid pwd ∧
        d.packet.length < (sendWiFiConfig ssid pwd).length) ∧
      ∀ d ∈ r.1, d.packet ≠ sendWiFiConfig ssid pwd ∧
        regex_match (trim d.packet) re2 ≠ some [ssid, pwd] := by
  have hmem : 'B' ∈ "2SSID".toList ++ (ssid ++ ("PWD".toList ++ pwd)) := by
    rcases hB with h | h
    · exact List.mem_append_right _ (List.mem_append_left _ h)
    · exact List.mem_append_right _ (List.mem_append_right _ (List.mem_append_right _ h))
  obtain ⟨u, w, hsplit, hu⟩ := first_split hmem
  obtain ⟨t, rest, hframe, hrest⟩ : ∃ t rest,
      sendWiFiConfig ssid pwd = frameOf u t ++ rest ∧ 1 ≤ rest.length := by
    rw [sendWiFiConfig_frame, hsplit]
    cases w with
    | nil => exact ⟨'B', ['2'], by simp [frameOf], by simp⟩
    | cons t w => exact ⟨t, w ++ ['B', '2'], by simp [frameOf], by simp⟩
  obtain ⟨r', hr'⟩ := processLoop_total cb (rest.length + 1) rest (Nat.lt_succ_self _)
  have hloop : processLoop cb (rest.length + 1 + 1) (sendWiFiConfig ssid pwd)
      = some (decodedOf cb (frameOf u t) :: r'.1, r'.2) := by
    rw [hframe, processLoop_frameOf cb _ u t rest hu, hr']
    rfl
  refine ⟨_, processReceivedData_of_loop hloop, ?_, ?_⟩
  · refine ⟨decodedOf cb (frameOf u t), r'.1, u, t, rfl, rfl, hu, ?_, ?_, ?_⟩
    · exact ⟨w, by rw [hsplit]; simp⟩
    · exact ⟨rest, hframe.symm⟩
    · have hp : (decodedOf cb (frameOf u t)).packet = frameOf u t := rfl
      rw [hp, hframe, List.length_append]
      omega
  · intro d hd
    obtain ⟨body, t', hbody, rfl, _⟩ := (processLoop_shape cb _ _ _ hloop).1 d hd
    have hp : (decodedOf cb (frameOf body t')).packet = frameOf body t' := rfl
    rw [hp]
    constructor
    · intro he
      rw [sendWiFiConfig_frame] at he
      have := (frameOf_inj he).1
      rw [this] at hbody
      exact hbody hmem
    · intro hm
      rw [re2_shape] at hm
      obtain ⟨s, p, ht, hcaps⟩ := wifi_sound hm
      simp only [List.cons.injEq, and_true] at hcaps
      obtain ⟨rfl, rfl⟩ := hcaps
      have ht' : trim (frameOf body t')
          = frameOf ("2SSID".toList ++ (ssid ++ ("PWD".toList ++ pwd))) '2' := by
        rw [ht]; simp [frameOf]
      have := body_of_trim_frameOf ht'
      rw [this] at hbody
      exact hbody hmem

/-- C28, as stated, fails in its last part: for the ssid `x` and the pwd `aB2`, which contains
a `B`, the reassembler cuts the frame `A2SSIDxPWDaB2B2` after `A2SSIDxPWDaB2`, and that string
is decoded as a type-2 packet, with the captures `x` and `a`. -/
theorem cut_frame_still_type2 :
    'B' ∈ "aB2".toList ∧
    processReceivedData openManager.callbacks (sendWiFiConfig "x".toList "aB2".toList)
      = some ([{ packet := "A2SSIDxPWDaB2".toList, packetType := .PACKET_WIFI_SSID_PWD,
                 calls := [HandlerCall.mk .PACKET_WIFI_SETUP
                   [.str "x".toList, .str "a".toList]] }], []) := by
  decide

/-- C28, amended. For every ssid and pwd without `B`, CR and LF, where the ssid does not
contain `PWD`, `processReceivedData` extracts from the frame of `sendWiFiConfig` exactly one
string, the frame itself, which `parsePacket` matches as type 2 with the captures ssid and
pwd, and the buffer is left empty. When the ssid or the pwd contains a `B`, the reassembler
cuts the frame one character after the first `B` that follows the leading `A`: the first
extracted string is a proper prefix of the frame, no extracted string is the frame, and no
extracted string matches the type-2 pattern with the captures ssid and pwd. -/
theorem wifi_round_trip (cb : List PacketType) (ssid pwd : Str) :
    ('B' ∉ ssid → 'B' ∉ pwd → NoLineTerminator ssid → NoLineTerminator pwd →
      ¬ "PWD".toList <:+: ssid →
      processReceivedData cb (sendWiFiConfig ssid pwd)
        = some ([decodedOf cb (sendWiFiConfig ssid pwd)], []) ∧
      regex_match (trim (sendWiFiConfig ssid pwd)) re2 = some [ssid, pwd] ∧
      parsePacket cb (sendWiFiConfig ssid pwd)
        = (.PACKET_WIFI_SSID_PWD,
            handlePacket cb .PACKET_WIFI_SETUP [.str ssid, .str pwd])) ∧
    (('B' ∈ ssid ∨ 'B' ∈ pwd) →
      ∃ r, processReceivedData cb (sendWiFiConfig ssid pwd) = some r ∧
        (∃ d rest u t, r.1 = d :: rest ∧ d.packet = frameOf u t ∧ 'B' ∉ u ∧
          u ++ ['B'] <+: "2SSID".toList ++ (ssid ++ ("PWD".toList ++ pwd)) ∧
          d.packet <+: sendWiFiConfig ssid pwd ∧
          d.packet.length < (sendWiFiConfig ssid pwd).length) ∧
        ∀ d ∈ r.1, d.packet ≠ sendWiFiConfig ssid pwd ∧
          regex_match (trim d.packet) re2 ≠ some [ssid, pwd]) :=
  ⟨fun hs hp hls hlp hpwd => sendWiFiConfig_decoded cb hs hp hls hlp hpwd,
    fun hB => sendWiFiConfig_split_at_B cb hB⟩

/-- C28, amended, for the ssid `home` and the pwd `pw123`, and for the pwd `aB2`. -/
theorem wifi_round_trip_witness :
    'B' ∉ "home".toList ∧ 'B' ∉ "pw123".toList ∧ NoLineTerminator "home".toList ∧
    NoLineTerminator "pw123".toList ∧ ¬ "PWD".toList <:+: "home".toList ∧
    processReceivedData openManager.callbacks (sendWiFiConfig "home".toList "pw123".toList)
      = some ([decodedOf openManager.callbacks
          (sendWiFiConfig "home".toList "pw123".toList)], []) ∧
    ('B' ∈ "x".toList ∨ 'B' ∈ "aB2".toList) ∧
    ∃ r, processReceivedData openManager.callbacks (sendWiFiConfig "x".toList "aB2".toList)
        = some r ∧
      ∀ d ∈ r.1, d.packet ≠ sendWiFiConfig "x".toList "aB2".toList ∧
        regex_match (trim d.packet) re2 ≠ some ["x".toList, "aB2".toList] :=
  ⟨by decide, by decide, by unfold NoLineTerminator; decide,
    by unfold NoLineTerminator; decide, by decide,
    ((wifi_round_trip openManager.callbacks "home".toList "pw123".toList).1 (by decide)
      (by decide) (by unfold NoLineTerminator; decide) (by unfold NoLineTerminator; decide)
      (by decide)).1,
    by decide,
    ((wifi_round_trip openManager.callbacks "x".toList "aB2".toList).2 (by decide)).imp
      (fun _ h => ⟨h.1, h.2.2⟩)⟩

end PaperTracker
